import Mathlib

/-!
# Voxel world actor

Shallow embedding of `AVoxelWorld` (`VoxelWorld.cpp`, `VoxelWorld.h`) and of the
parts of the voxel data store it talks to (`ValueOctree.h` declares them; the
bodies of `FVoxelData`, `FIntBox` and `FVoxelUtilities` are not among the
sources and are either parameters of the embedding or modelled from the
specification, as said at each definition).

Conventions.
* `int` and `int32` are unbounded integers, `float` is an exact rational.
* A call through a null `TSharedPtr`, a failed `check(...)` and a call refused
  by the data store end the operation with a `Fault`.
* Every call made on `Data` and on `Render` is appended to `AVoxelWorld.Calls`,
  every `UE_LOG(LogVoxel, Error, ...)` to `AVoxelWorld.ErrorLog`.
-/

namespace Voxel

/-! ## Engine vectors -/

/-- Engine type `FIntVector`: three `int32` components, kept as unbounded integers. -/
structure FIntVector where
  X : Int
  Y : Int
  Z : Int
  deriving DecidableEq

instance : Add FIntVector := ⟨fun A B => ⟨A.X + B.X, A.Y + B.Y, A.Z + B.Z⟩⟩

instance : Sub FIntVector := ⟨fun A B => ⟨A.X - B.X, A.Y - B.Y, A.Z - B.Z⟩⟩

/-- Engine function `FIntVector::GetMin`: the smallest component. -/
def FIntVector.GetMin (V : FIntVector) : Int := min V.X (min V.Y V.Z)

/-- Engine function `FIntVector::GetMax`: the largest component. -/
def FIntVector.GetMax (V : FIntVector) : Int := max V.X (max V.Y V.Z)

/-- The sum of the squares of the components: the square of the euclidean length. -/
def FIntVector.SizeSquared (V : FIntVector) : Int := V.X * V.X + V.Y * V.Y + V.Z * V.Z

/-- The search of the integer part of the square root of `N`, upwards from `J`
and in at most `Fuel` steps: `J` is raised as long as `(J + 1)² ≤ N`. -/
def FMath.TruncSqrt.Loop (N : Nat) : Nat → Nat → Nat
  | 0, J => J
  | Fuel + 1, J =>
    if (J + 1) * (J + 1) ≤ N then FMath.TruncSqrt.Loop N Fuel (J + 1) else J

/-- The integer part of the square root of `N`: the greatest `J` with `J * J ≤ N`
(`N` steps are enough to reach it). -/
def FMath.TruncSqrt (N : Nat) : Nat := FMath.TruncSqrt.Loop N N 0

/-- Engine function `FIntVector::Size`, which returns an `int32`:
`int32(FMath::Sqrt(float(X * X + Y * Y + Z * Z)))`, the euclidean length with its
fraction cut off. The rounding of the `float` root is left out. -/
def FIntVector.Size (V : FIntVector) : Int :=
  (FMath.TruncSqrt V.SizeSquared.toNat : Nat)

/-- Engine type `FVector`: three `float` components, kept as exact rationals. -/
structure FVector where
  X : ℚ
  Y : ℚ
  Z : ℚ
  deriving DecidableEq

instance : Add FVector := ⟨fun A B => ⟨A.X + B.X, A.Y + B.Y, A.Z + B.Z⟩⟩

instance : HMul ℚ FVector FVector := ⟨fun s V => ⟨s * V.X, s * V.Y, s * V.Z⟩⟩

instance : HDiv FVector ℚ FVector := ⟨fun V s => ⟨V.X / s, V.Y / s, V.Z / s⟩⟩

/-- Engine function `FMath::FloorToInt`. -/
def FMath.FloorToInt (F : ℚ) : Int := ⌊F⌋

/-- Engine function `FMath::CeilToInt`. -/
def FMath.CeilToInt (F : ℚ) : Int := ⌈F⌉

/-- Engine function `FMath::RoundToInt`, which is `FloorToInt(F + 0.5f)`: rounding
to the nearest integer, halves upwards. -/
def FMath.RoundToInt (F : ℚ) : Int := ⌊F + 1 / 2⌋

/-- Conversion `static_cast<FVector>(FIntVector)`. -/
def FIntVector.toFVector (V : FIntVector) : FVector := ⟨V.X, V.Y, V.Z⟩

/-- Engine type `FTransform`, reduced to the two functions `AVoxelWorld` calls on it. -/
structure FTransform where
  TransformPosition : FVector → FVector
  InverseTransformPosition : FVector → FVector

/-! ## Boxes, materials and saves (declared outside the sources at hand) -/

/-- Modelled from the spec: `IntBox.h` is missing. A box of voxel positions with
`Min` inclusive and `Max` exclusive. -/
structure FIntBox where
  Min : FIntVector
  Max : FIntVector
  deriving DecidableEq

/-- Modelled from the spec: the one-position constructor `FIntBox(Position)` is
missing; it is the box `[Position, Position + 1)` that holds `Position` only. -/
def FIntBox.ofPosition (Position : FIntVector) : FIntBox :=
  ⟨Position, Position + ⟨1, 1, 1⟩⟩

/-- Modelled from the spec: `FIntBox::IsInside` is missing; membership with `Min`
inclusive and `Max` exclusive. -/
def FIntBox.IsInside (Box : FIntBox) (V : FIntVector) : Bool :=
  decide (Box.Min.X ≤ V.X ∧ V.X < Box.Max.X ∧ Box.Min.Y ≤ V.Y ∧ V.Y < Box.Max.Y ∧
    Box.Min.Z ≤ V.Z ∧ V.Z < Box.Max.Z)

/-- Modelled from the spec: `FIntBox::Intersect` is missing; two half-open boxes
intersect when they overlap along the three axes. -/
def FIntBox.Intersect (Box Other : FIntBox) : Bool :=
  decide (Box.Min.X < Other.Max.X ∧ Other.Min.X < Box.Max.X ∧
    Box.Min.Y < Other.Max.Y ∧ Other.Min.Y < Box.Max.Y ∧
    Box.Min.Z < Other.Max.Z ∧ Other.Min.Z < Box.Max.Z)

/-- Modelled from the spec: `FIntBox::Size` is missing; the extent `Max - Min`. -/
def FIntBox.Size (Box : FIntBox) : FIntVector := Box.Max - Box.Min

/-- Modelled from the spec: `FIntBox::GetCorners` is missing; the eight
combinations of the coordinates of `Min` and `Max`. -/
def FIntBox.GetCorners (Box : FIntBox) : List FIntVector :=
  [⟨Box.Min.X, Box.Min.Y, Box.Min.Z⟩, ⟨Box.Max.X, Box.Min.Y, Box.Min.Z⟩,
   ⟨Box.Min.X, Box.Max.Y, Box.Min.Z⟩, ⟨Box.Max.X, Box.Max.Y, Box.Min.Z⟩,
   ⟨Box.Min.X, Box.Min.Y, Box.Max.Z⟩, ⟨Box.Max.X, Box.Min.Y, Box.Max.Z⟩,
   ⟨Box.Min.X, Box.Max.Y, Box.Max.Z⟩, ⟨Box.Max.X, Box.Max.Y, Box.Max.Z⟩]

/-- Modelled from the spec: `VoxelMaterial.h` is missing. A material descriptor,
an index and blend weights; `FVoxelMaterial()` is the all-zero descriptor. -/
structure FVoxelMaterial where
  Index1 : Nat
  Index2 : Nat
  Alpha : Nat
  deriving DecidableEq

instance : Inhabited FVoxelMaterial := ⟨⟨0, 0, 0⟩⟩

/-- Modelled from the spec: `VoxelSave.h` is missing. One record of a save: the
position and depth of a dirty chunk and its dense value and material arrays. -/
structure FVoxelChunkSave where
  Position : FIntVector
  Depth : Nat
  Values : List ℚ
  Materials : List FVoxelMaterial
  deriving DecidableEq

/-- Modelled from the spec: `VoxelSave.h` is missing. A world save: the depth
it was recorded at and its chunk records, ordered by chunk id. -/
structure FVoxelWorldSave where
  LOD : Int
  Chunks : List FVoxelChunkSave
  deriving DecidableEq

/-- Handle of a transaction, `TArray<uint64>`: the ids of the locked octrees. -/
abbrev FOctreeIds := List Nat

/-- The interface `FVoxelWorldGeneratorInstance` (`VoxelWorldGenerator.h`, outside
the sources) as the store uses it: the value and the material a generator
evaluates at a position. -/
abbrev FVoxelWorldGeneratorInstance := FIntVector → ℚ × FVoxelMaterial

/-- The object `UVoxelWorldGenerator` (outside the sources): all that is used of
it is the instance `GetWorldGenerator()` returns. -/
structure UVoxelWorldGenerator where
  GetWorldGenerator : FVoxelWorldGeneratorInstance

/-- The enumeration `EVoxelWorldGeneratorClassOrObject` (outside the sources). -/
inductive EVoxelWorldGeneratorClassOrObject where
  | Class
  | Object
  deriving DecidableEq

/-- The two members of `FVoxelWorldGeneratorPicker` (outside the sources) that
`AVoxelWorld::SetWorldGenerator` assigns. -/
structure FVoxelWorldGeneratorPicker where
  UseClassOrObject : EVoxelWorldGeneratorClassOrObject
  WorldGeneratorObject : Option UVoxelWorldGenerator

/-- Modelled from the spec: `VoxelDiff.h` is missing; the sparse value update
`ValueDiff{chunkId, localIndex, value}` of the diff wire format. -/
structure FVoxelValueDiff where
  Id : Nat
  Index : Nat
  Value : ℚ
  deriving DecidableEq

/-- Modelled from the spec: `VoxelDiff.h` is missing; the sparse material update
`MaterialDiff{chunkId, localIndex, material}` of the diff wire format. -/
structure FVoxelMaterialDiff where
  Id : Nat
  Index : Nat
  Material : FVoxelMaterial
  deriving DecidableEq

/-- What `FVoxelTcpClient` (outside the sources) hands over during one
`ReceiveData`: a whole save when `IsNextUpdateRemoteLoad()` holds, else the two
diff queues of `ReceiveDiffQueues`. -/
inductive FVoxelTcpUpdate where
  | RemoteLoad (Save : FVoxelWorldSave)
  | DiffQueues (ValueDiffQueue : List FVoxelValueDiff)
      (MaterialDiffQueue : List FVoxelMaterialDiff)

/-! ## The data store as `AVoxelWorld` sees it -/

/-- The member functions of `FVoxelData` that `AVoxelWorld` calls, over a store
state `σ`. `VoxelData.h` is not among the sources, so the store is a parameter
of every operation below. A result `none` is a call the store refuses (a
precondition violation inside the store, which ends the operation). -/
structure FVoxelDataOps (σ : Type) where
  IsInWorld : σ → FIntVector → Bool
  BeginGet : σ → FIntBox → Option (FOctreeIds × σ)
  EndGet : σ → FOctreeIds → Option σ
  BeginSet : σ → FIntBox → Option (FOctreeIds × σ)
  EndSet : σ → FOctreeIds → Option σ
  GetValue : σ → FIntVector → Option ℚ
  GetValueAndMaterial : σ → FIntVector → Option (ℚ × FVoxelMaterial)
  SetValue : σ → FIntVector → ℚ → Option σ
  SetMaterial : σ → FIntVector → FVoxelMaterial → Option σ
  GetGradient : σ → FIntVector → Option FVector
  LoadFromSaveAndGetModifiedPositions :
    σ → FVoxelWorldSave → Bool → Option (σ × List FIntVector)
  GetSave : σ → Option FVoxelWorldSave
  LoadFromDiffQueuesAndGetModifiedPositions :
    σ → List FVoxelValueDiff → List FVoxelMaterialDiff → Option (σ × List FIntVector)
  SetWorldGenerator : σ → FVoxelWorldGeneratorInstance → Option σ
  DiscardValuesByPredicate : σ → (FIntBox → Int) → Option σ

/-- One call made by `AVoxelWorld` on `Data` or on `Render`, with its arguments
(and, for `BeginGet` and `BeginSet`, the handle returned, `none` when refused).
The generator and the predicate handed to `SetWorldGenerator` and to
`DiscardValuesByPredicate` are functions and are not recorded. -/
inductive FDataCall where
  | IsInWorld (Position : FIntVector)
  | BeginGet (Box : FIntBox) (Octrees : Option FOctreeIds)
  | EndGet (Octrees : FOctreeIds)
  | BeginSet (Box : FIntBox) (Octrees : Option FOctreeIds)
  | EndSet (Octrees : FOctreeIds)
  | GetValue (Position : FIntVector)
  | GetValueAndMaterial (Position : FIntVector)
  | SetValue (Position : FIntVector) (Value : ℚ)
  | SetMaterial (Position : FIntVector) (Material : FVoxelMaterial)
  | GetGradient (Position : FIntVector)
  | LoadFromSaveAndGetModifiedPositions (Save : FVoxelWorldSave) (bReset : Bool)
  | UpdateBox (Box : FIntBox)
  | GetSave
  | LoadFromDiffQueuesAndGetModifiedPositions (ValueDiffQueue : List FVoxelValueDiff)
      (MaterialDiffQueue : List FVoxelMaterialDiff)
  | SetWorldGenerator
  | DiscardValuesByPredicate
  deriving DecidableEq

/-- The renderer behind `IVoxelRender` (outside the sources): the boxes it was
asked to update, oldest first. -/
structure IVoxelRender where
  UpdateQueue : List FIntBox
  deriving DecidableEq

/-- How an operation can end without returning: a call through a null pointer, a
failed `check(...)`, a call the store refuses, or an `int` expression whose
value C++ leaves undefined (a shift out of range, a signed overflow). -/
inductive Fault where
  | NullDereference
  | CheckFailed
  | DataFault
  | UndefinedBehaviour
  deriving DecidableEq

/-! ## The actor -/

/-- The fields of `AVoxelWorld` used by the operations embedded here, the calls
made so far on `Data` and `Render`, and the errors logged so far. Of the shared
pointers `TcpServer` and `TcpClient` only the validity is kept.
`WorldSizeInVoxel` is `none` as long as nothing was assigned to it. -/
structure AVoxelWorld (σ : Type) where
  LOD : Int
  bIsCreated : Bool
  VoxelSize : ℚ
  Seed : Int
  bMultiplayer : Bool
  bCreateWorldAutomatically : Bool
  WorldSizeInVoxel : Option Int
  ActorTransform : FTransform
  WorldGenerator : FVoxelWorldGeneratorPicker
  InstancedWorldGenerator : Option FVoxelWorldGeneratorInstance
  Data : Option σ
  Render : Option IVoxelRender
  TcpServer : Bool
  TcpClient : Bool
  Calls : List FDataCall
  ErrorLog : List String

/-- What an operation leaves behind: its return value or the fault that ended
it, and the actor afterwards. -/
structure Outcome (σ : Type) (α : Type) where
  Return : Except Fault α
  World : AVoxelWorld σ

/-- Append a call to the record of calls. -/
def AVoxelWorld.Call {σ : Type} (W : AVoxelWorld σ) (C : FDataCall) : AVoxelWorld σ :=
  { W with Calls := W.Calls ++ [C] }

/-- The effect of `UE_LOG(LogVoxel, Error, ...)`, keeping the format text. -/
def AVoxelWorld.LogError {σ : Type} (W : AVoxelWorld σ) (Message : String) : AVoxelWorld σ :=
  { W with ErrorLog := W.ErrorLog ++ [Message] }

/-- Replace the state of the store behind `Data`. -/
def AVoxelWorld.SetData {σ : Type} (W : AVoxelWorld σ) (D : σ) : AVoxelWorld σ :=
  { W with Data := some D }

/-- The constructor `AVoxelWorld::AVoxelWorld()`: the shared pointers start null
and the generator picker holds no object. `WorldSizeInVoxel` is not in the
initializer list and is not assigned in the body. -/
def AVoxelWorld.Construct (σ : Type) (ActorTransform : FTransform) : AVoxelWorld σ :=
  { LOD := 9, bIsCreated := false, VoxelSize := 100, Seed := 100, bMultiplayer := false,
    bCreateWorldAutomatically := true, WorldSizeInVoxel := none,
    ActorTransform := ActorTransform,
    WorldGenerator := ⟨.Class, none⟩, InstancedWorldGenerator := none,
    Data := none, Render := none, TcpServer := false, TcpClient := false,
    Calls := [], ErrorLog := [] }

/-- The function `AVoxelWorld::IsInWorld`. -/
def AVoxelWorld.IsInWorld {σ : Type} (Ops : FVoxelDataOps σ) (W : AVoxelWorld σ)
    (Position : FIntVector) : Outcome σ Bool :=
  match W.Data with
  | none => ⟨.error .NullDereference, W⟩
  | some D => ⟨.ok (Ops.IsInWorld D Position), W.Call (.IsInWorld Position)⟩

/-- The function `AVoxelWorld::GetValue`. -/
def AVoxelWorld.GetValue {σ : Type} (Ops : FVoxelDataOps σ) (W : AVoxelWorld σ)
    (Position : FIntVector) : Outcome σ ℚ :=
  match W.Data with
  | none => ⟨.error .NullDereference, W⟩
  | some D =>
    let W0 := W.Call (.IsInWorld Position)
    if Ops.IsInWorld D Position then
      match Ops.BeginGet D (FIntBox.ofPosition Position) with
      | none => ⟨.error .DataFault, W0.Call (.BeginGet (FIntBox.ofPosition Position) none)⟩
      | some (Octrees, D1) =>
        let W1 := (W0.SetData D1).Call (.BeginGet (FIntBox.ofPosition Position) (some Octrees))
        let W2 := W1.Call (.GetValueAndMaterial Position)
        match Ops.GetValueAndMaterial D1 Position with
        | none => ⟨.error .DataFault, W2⟩
        | some (Value, _) =>
          let W3 := W2.Call (.EndGet Octrees)
          match Ops.EndGet D1 Octrees with
          | none => ⟨.error .DataFault, W3⟩
          | some D2 => ⟨.ok Value, W3.SetData D2⟩
    else
      ⟨.ok 0, W0.LogError "Get value: Not in world: (%d, %d, %d)"⟩

/-- The function `AVoxelWorld::GetMaterial`. -/
def AVoxelWorld.GetMaterial {σ : Type} (Ops : FVoxelDataOps σ) (W : AVoxelWorld σ)
    (Position : FIntVector) : Outcome σ FVoxelMaterial :=
  match W.Data with
  | none => ⟨.error .NullDereference, W⟩
  | some D =>
    let W0 := W.Call (.IsInWorld Position)
    if Ops.IsInWorld D Position then
      match Ops.BeginGet D (FIntBox.ofPosition Position) with
      | none => ⟨.error .DataFault, W0.Call (.BeginGet (FIntBox.ofPosition Position) none)⟩
      | some (Octrees, D1) =>
        let W1 := (W0.SetData D1).Call (.BeginGet (FIntBox.ofPosition Position) (some Octrees))
        let W2 := W1.Call (.GetValueAndMaterial Position)
        match Ops.GetValueAndMaterial D1 Position with
        | none => ⟨.error .DataFault, W2⟩
        | some (_, Material) =>
          let W3 := W2.Call (.EndGet Octrees)
          match Ops.EndGet D1 Octrees with
          | none => ⟨.error .DataFault, W3⟩
          | some D2 => ⟨.ok Material, W3.SetData D2⟩
    else
      ⟨.ok default, W0.LogError "Get material: Not in world: (%d, %d, %d)"⟩

/-- The function `AVoxelWorld::SetValue` (its error text is the one of the source). -/
def AVoxelWorld.SetValue {σ : Type} (Ops : FVoxelDataOps σ) (W : AVoxelWorld σ)
    (Position : FIntVector) (Value : ℚ) : Outcome σ Unit :=
  match W.Data with
  | none => ⟨.error .NullDereference, W⟩
  | some D =>
    let W0 := W.Call (.IsInWorld Position)
    if Ops.IsInWorld D Position then
      match Ops.BeginSet D (FIntBox.ofPosition Position) with
      | none => ⟨.error .DataFault, W0.Call (.BeginSet (FIntBox.ofPosition Position) none)⟩
      | some (Octrees, D1) =>
        let W1 := (W0.SetData D1).Call (.BeginSet (FIntBox.ofPosition Position) (some Octrees))
        let W2 := W1.Call (.SetValue Position Value)
        match Ops.SetValue D1 Position Value with
        | none => ⟨.error .DataFault, W2⟩
        | some D2 =>
          let W3 := (W2.SetData D2).Call (.EndSet Octrees)
          match Ops.EndSet D2 Octrees with
          | none => ⟨.error .DataFault, W3⟩
          | some D3 => ⟨.ok (), W3.SetData D3⟩
    else
      ⟨.ok (), W0.LogError "Get material: Not in world: (%d, %d, %d)"⟩

/-- The function `AVoxelWorld::SetMaterial`. -/
def AVoxelWorld.SetMaterial {σ : Type} (Ops : FVoxelDataOps σ) (W : AVoxelWorld σ)
    (Position : FIntVector) (Material : FVoxelMaterial) : Outcome σ Unit :=
  match W.Data with
  | none => ⟨.error .NullDereference, W⟩
  | some D =>
    let W0 := W.Call (.IsInWorld Position)
    if Ops.IsInWorld D Position then
      match Ops.BeginSet D (FIntBox.ofPosition Position) with
      | none => ⟨.error .DataFault, W0.Call (.BeginSet (FIntBox.ofPosition Position) none)⟩
      | some (Octrees, D1) =>
        let W1 := (W0.SetData D1).Call (.BeginSet (FIntBox.ofPosition Position) (some Octrees))
        let W2 := W1.Call (.SetMaterial Position Material)
        match Ops.SetMaterial D1 Position Material with
        | none => ⟨.error .DataFault, W2⟩
        | some D2 =>
          let W3 := (W2.SetData D2).Call (.EndSet Octrees)
          match Ops.EndSet D2 Octrees with
          | none => ⟨.error .DataFault, W3⟩
          | some D3 => ⟨.ok (), W3.SetData D3⟩
    else
      ⟨.ok (), W0.LogError "Set material: Not in world: (%d, %d, %d)"⟩

/-- The function `AVoxelWorld::UpdateChunksAtPosition`. -/
def AVoxelWorld.UpdateChunksAtPosition {σ : Type} (W : AVoxelWorld σ)
    (Position : FIntVector) : Outcome σ Unit :=
  match W.Render with
  | none => ⟨.error .NullDereference, W⟩
  | some R =>
    ⟨.ok (), ({ W with Render := some ⟨R.UpdateQueue ++ [FIntBox.ofPosition Position]⟩ }).Call
      (.UpdateBox (FIntBox.ofPosition Position))⟩

/-- The loop `for (auto Position : ModifiedPositions)` of `AVoxelWorld::LoadFromSave`. -/
def AVoxelWorld.LoadFromSave.Loop {σ : Type} (Ops : FVoxelDataOps σ) (W : AVoxelWorld σ) :
    List FIntVector → Outcome σ Unit
  | [] => ⟨.ok (), W⟩
  | Position :: Rest =>
    match W.IsInWorld Ops Position with
    | ⟨.error F, W1⟩ => ⟨.error F, W1⟩
    | ⟨.ok false, W1⟩ => AVoxelWorld.LoadFromSave.Loop Ops W1 Rest
    | ⟨.ok true, W1⟩ =>
      match W1.UpdateChunksAtPosition Position with
      | ⟨.error F, W2⟩ => ⟨.error F, W2⟩
      | ⟨.ok _, W2⟩ => AVoxelWorld.LoadFromSave.Loop Ops W2 Rest

/-- The function `AVoxelWorld::LoadFromSave`. -/
def AVoxelWorld.LoadFromSave {σ : Type} (Ops : FVoxelDataOps σ) (W : AVoxelWorld σ)
    (Save : FVoxelWorldSave) (bReset : Bool) : Outcome σ Unit :=
  if Save.LOD = W.LOD then
    match W.Data with
    | none => ⟨.error .NullDereference, W⟩
    | some D =>
      let W0 := W.Call (.LoadFromSaveAndGetModifiedPositions Save bReset)
      match Ops.LoadFromSaveAndGetModifiedPositions D Save bReset with
      | none => ⟨.error .DataFault, W0⟩
      | some (D1, ModifiedPositions) =>
        AVoxelWorld.LoadFromSave.Loop Ops (W0.SetData D1) ModifiedPositions
  else
    ⟨.ok (), W.LogError "LoadFromSave: Current Depth is %d while Save one is %d"⟩

/-- The function `AVoxelWorld::LocalToGlobalFloat`. -/
def AVoxelWorld.LocalToGlobalFloat {σ : Type} (W : AVoxelWorld σ) (Position : FVector) :
    FVector :=
  W.ActorTransform.TransformPosition (W.VoxelSize * Position)

/-- The function `AVoxelWorld::GetNormal`. -/
def AVoxelWorld.GetNormal {σ : Type} (Ops : FVoxelDataOps σ) (W : AVoxelWorld σ)
    (Position : FIntVector) : Outcome σ FVector :=
  let Box : FIntBox :=
    ⟨⟨Position.X - 1, Position.Y - 1, Position.Z - 1⟩,
     ⟨Position.X + 2, Position.Y + 2, Position.Z + 2⟩⟩
  match W.Data with
  | none => ⟨.error .NullDereference, W⟩
  | some D =>
    match Ops.BeginGet D Box with
    | none => ⟨.error .DataFault, W.Call (.BeginGet Box none)⟩
    | some (Octrees, D1) =>
      let W1 := (W.SetData D1).Call (.BeginGet Box (some Octrees))
      let W2 := W1.Call (.GetGradient Position)
      match Ops.GetGradient D1 Position with
      | none => ⟨.error .DataFault, W2⟩
      | some Gradient =>
        let W3 := W2.Call (.EndGet Octrees)
        match Ops.EndGet D1 Octrees with
        | none => ⟨.error .DataFault, W3⟩
        | some D2 => ⟨.ok Gradient, W3.SetData D2⟩

/-! ## `AVoxelWorld::GetIntersection` -/

/-- The integers `Lo, Lo + 1, ..., Hi - 1` of a loop `for (int I = Lo; I < Hi; I++)`. -/
def IntRange (Lo Hi : Int) : List Int :=
  (List.range (Hi - Lo).toNat).map (fun (I : Nat) => Lo + (I : Int))

/-- What `GetIntersection` gives back: the returned boolean and the two output
parameters, `none` while the function has not assigned them. -/
structure FIntersection where
  bFound : Bool
  OutGlobalPosition : Option FVector
  OutVoxelPosition : Option FIntVector
  deriving DecidableEq

/-- The local variables of `GetIntersection` while it scans, the actor (with
the calls and errors recorded), and `Exit`, set once the function has left the
loops by `return false` or by a fault. -/
structure FIntersectionScan (σ : Type) where
  World : AVoxelWorld σ
  OldValue : ℚ
  OldPosition : FIntVector
  bFound : Bool
  OutGlobalPosition : Option FVector
  OutVoxelPosition : Option FIntVector
  Exit : Option (Except Fault Bool)

/-- The three tests on `Diff` at the top of `GetIntersection`, branch by branch:
`true` when one of them logs the error and returns `false`. -/
def AVoxelWorld.GetIntersection.Rejects (Diff : FIntVector) : Bool :=
  if Diff.X ≠ 0 then
    decide (Diff.Y ≠ 0 ∨ Diff.Z ≠ 0)
  else if Diff.Y ≠ 0 then
    decide (Diff.X ≠ 0 ∨ Diff.Z ≠ 0)
  else if Diff.Z ≠ 0 then
    decide (Diff.X ≠ 0 ∨ Diff.Y ≠ 0)
  else
    false

/-- The body of the innermost loop of `GetIntersection` at `(X, Y, Z)`, up to and
including the updates of `OldValue` and `OldPosition`. `D` is the store after
`BeginGet`, `HaveSameSign` is `FVoxelUtilities::HaveSameSign` (a parameter:
`VoxelUtilities.h` is not among the sources). -/
def AVoxelWorld.GetIntersection.Body {σ : Type} (Ops : FVoxelDataOps σ)
    (HaveSameSign : ℚ → ℚ → Bool) (D : σ) (S : FIntersectionScan σ) (X Y Z : Int) :
    FIntersectionScan σ :=
  let W0 := S.World.Call (.IsInWorld ⟨X, Y, Z⟩)
  if !Ops.IsInWorld D ⟨X, Y, Z⟩ then
    { S with World := W0.LogError "GetIntersection: Out of world!", Exit := some (.ok false) }
  else
    let W1 := W0.Call (.GetValue ⟨X, Y, Z⟩)
    match Ops.GetValue D ⟨X, Y, Z⟩ with
    | none => { S with World := W1, Exit := some (.error .DataFault) }
    | some Value =>
      let Position : FIntVector := ⟨X, Y, Z⟩
      if !HaveSameSign S.OldValue Value then
        if S.OldValue - Value = 0 then
          { S with World := W1, Exit := some (.error .CheckFailed) }
        else
          let t : ℚ := S.OldValue / (S.OldValue - Value)
          let Q : FVector := t * Position.toFVector + (1 - t) * S.OldPosition.toFVector
          { S with
            World := W1
            OutGlobalPosition := some (W1.LocalToGlobalFloat Q)
            OutVoxelPosition := some Position
            bFound := true
            OldValue := Value
            OldPosition := Position }
      else
        { S with World := W1, OldValue := Value, OldPosition := Position }

/-- The loop `for (int Z = ...)` of `GetIntersection` with its `break`. -/
def AVoxelWorld.GetIntersection.LoopZ {σ : Type} (Ops : FVoxelDataOps σ)
    (HaveSameSign : ℚ → ℚ → Bool) (D : σ) (X Y : Int) (S : FIntersectionScan σ) :
    List Int → FIntersectionScan σ
  | [] => S
  | Z :: Zs =>
    let S1 := AVoxelWorld.GetIntersection.Body Ops HaveSameSign D S X Y Z
    if S1.Exit.isSome || S1.bFound then S1
    else AVoxelWorld.GetIntersection.LoopZ Ops HaveSameSign D X Y S1 Zs

/-- The loop `for (int Y = ...)` of `GetIntersection` with its `break`. -/
def AVoxelWorld.GetIntersection.LoopY {σ : Type} (Ops : FVoxelDataOps σ)
    (HaveSameSign : ℚ → ℚ → Bool) (D : σ) (Zs : List Int) (X : Int)
    (S : FIntersectionScan σ) : List Int → FIntersectionScan σ
  | [] => S
  | Y :: Ys =>
    let S1 := AVoxelWorld.GetIntersection.LoopZ Ops HaveSameSign D X Y S Zs
    if S1.Exit.isSome || S1.bFound then S1
    else AVoxelWorld.GetIntersection.LoopY Ops HaveSameSign D Zs X S1 Ys

/-- The loop `for (int X = ...)` of `GetIntersection` with its `break`. -/
def AVoxelWorld.GetIntersection.LoopX {σ : Type} (Ops : FVoxelDataOps σ)
    (HaveSameSign : ℚ → ℚ → Bool) (D : σ) (Ys Zs : List Int)
    (S : FIntersectionScan σ) : List Int → FIntersectionScan σ
  | [] => S
  | X :: Xs =>
    let S1 := AVoxelWorld.GetIntersection.LoopY Ops HaveSameSign D Zs X S Ys
    if S1.Exit.isSome || S1.bFound then S1
    else AVoxelWorld.GetIntersection.LoopX Ops HaveSameSign D Ys Zs S1 Xs

/-- The function `AVoxelWorld::GetIntersection`. -/
def AVoxelWorld.GetIntersection {σ : Type} (Ops : FVoxelDataOps σ)
    (HaveSameSign : ℚ → ℚ → Bool) (W : AVoxelWorld σ) (Start End : FIntVector) :
    Outcome σ FIntersection :=
  if AVoxelWorld.GetIntersection.Rejects (End - Start) then
    ⟨.ok ⟨false, none, none⟩,
      W.LogError "GetIntersection: Start and end should have 2 common coordinates"⟩
  else
    let RealStart : FIntVector := ⟨min Start.X End.X, min Start.Y End.Y, min Start.Z End.Z⟩
    let RealEnd : FIntVector :=
      ⟨max Start.X End.X + 1, max Start.Y End.Y + 1, max Start.Z End.Z + 1⟩
    match W.Data with
    | none => ⟨.error .NullDereference, W⟩
    | some D =>
      match Ops.BeginGet D ⟨RealStart, RealEnd⟩ with
      | none => ⟨.error .DataFault, W.Call (.BeginGet ⟨RealStart, RealEnd⟩ none)⟩
      | some (Octrees, D1) =>
        let W1 := (W.SetData D1).Call (.BeginGet ⟨RealStart, RealEnd⟩ (some Octrees))
        let W2 := W1.Call (.GetValue RealStart)
        match Ops.GetValue D1 RealStart with
        | none => ⟨.error .DataFault, W2⟩
        | some OldValue =>
          let S := AVoxelWorld.GetIntersection.LoopX Ops HaveSameSign D1
            (IntRange RealStart.Y RealEnd.Y) (IntRange RealStart.Z RealEnd.Z)
            ⟨W2, OldValue, RealStart, false, none, none, none⟩
            (IntRange RealStart.X RealEnd.X)
          match S.Exit with
          | some (.error F) => ⟨.error F, S.World⟩
          | some (.ok B) => ⟨.ok ⟨B, S.OutGlobalPosition, S.OutVoxelPosition⟩, S.World⟩
          | none =>
            let W3 := S.World.Call (.EndGet Octrees)
            match Ops.EndGet D1 Octrees with
            | none => ⟨.error .DataFault, W3⟩
            | some D2 =>
              ⟨.ok ⟨S.bFound, S.OutGlobalPosition, S.OutVoxelPosition⟩, W3.SetData D2⟩

/-! ## The data store, modelled from the specification

`VoxelData.h` and the bodies of `FValueOctree` are not among the sources. The
store below follows the specification (data model, octree node and voxel store
contracts) and the declarations of `ValueOctree.h`. The octree is kept as the
list of its dirty leaves; asset instances are left out. -/

/-- The data members of `FValueOctree` (`ValueOctree.h`) that hold the content of
a dirty leaf: `Values`, `Materials`, the sets `DirtyValues` and `DirtyMaterials`
used in network mode, and `bIsNetworkDirty`. The arrays are addressed by
`x + C*y + C*C*z`, as the specification says. `bIsDirty` is the presence of the
leaf in `FVoxelData.DirtyChunks`; `Assets`, the locks and the counters are left out. -/
structure FValueOctree where
  Values : Nat → ℚ
  Materials : Nat → FVoxelMaterial
  DirtyValues : List Nat
  DirtyMaterials : List Nat
  bIsNetworkDirty : Bool

/-- Modelled from the spec: the missing bookkeeping of one open transaction, the
ids it locked, whether it is a Set (exclusive) transaction, and its region. -/
structure FTransaction where
  Ids : FOctreeIds
  bSet : Bool
  Box : FIntBox
  deriving DecidableEq

/-- Modelled from the spec: the missing `FVoxelData`. The configured extents,
the chunk edge length `C` (`DATA_CHUNK_SIZE`), the chunk id of a chunk, the
active world generator, the dirty leaves by chunk coordinates, and the open
transactions. -/
structure FVoxelData where
  LOD : Nat
  ChunkSize : Nat
  Bounds : FIntBox
  bMultiplayer : Bool
  ChunkId : FIntVector → Nat
  WorldGenerator : FIntVector → ℚ × FVoxelMaterial
  DirtyChunks : List (FIntVector × FValueOctree)
  Transactions : List FTransaction

/-- Modelled from the spec: `FVoxelData::IsInWorld` is missing; the bounds check
against the configured extents. -/
def FVoxelData.IsInWorld (D : FVoxelData) (Position : FIntVector) : Bool :=
  D.Bounds.IsInside Position

/-- Modelled from the spec: the coordinates of the chunk that holds a position
(chunks of edge `C` tile the space; the octree bodies are missing). -/
def FVoxelData.ChunkOf (D : FVoxelData) (Position : FIntVector) : FIntVector :=
  ⟨Position.X / D.ChunkSize, Position.Y / D.ChunkSize, Position.Z / D.ChunkSize⟩

/-- Modelled from the spec: `FValueOctree::IndexFromCoordinates` has no body in
the sources; the array index `x + C*y + C*C*z` of a position inside its chunk. -/
def FVoxelData.IndexFromCoordinates (D : FVoxelData) (Position : FIntVector) : Nat :=
  (Position.X % D.ChunkSize).toNat + D.ChunkSize * (Position.Y % D.ChunkSize).toNat +
    D.ChunkSize * D.ChunkSize * (Position.Z % D.ChunkSize).toNat

/-- Modelled from the spec: `FValueOctree::CoordinatesFromIndex` has no body in
the sources; the position of the array index `Index` of the chunk `Chunk`. -/
def FVoxelData.CoordinatesFromIndex (D : FVoxelData) (Chunk : FIntVector) (Index : Nat) :
    FIntVector :=
  ⟨Chunk.X * D.ChunkSize + ((Index % D.ChunkSize : Nat) : Int),
   Chunk.Y * D.ChunkSize + ((Index / D.ChunkSize % D.ChunkSize : Nat) : Int),
   Chunk.Z * D.ChunkSize + ((Index / (D.ChunkSize * D.ChunkSize) : Nat) : Int)⟩

/-- Modelled from the spec: the dirty leaf of a chunk, if the chunk is dirty. -/
def FVoxelData.DirtyLeaf (D : FVoxelData) (Chunk : FIntVector) : Option FValueOctree :=
  (D.DirtyChunks.find? (fun E => decide (E.1 = Chunk))).map (fun E => E.2)

/-- Modelled from the spec: `FValueOctree::SetAsDirtyAndSetDefaultValues` has no
body in the sources; allocate the dense arrays and seed them from the generator. -/
def FVoxelData.SetAsDirtyAndSetDefaultValues (D : FVoxelData) (Chunk : FIntVector) :
    FValueOctree :=
  { Values := fun I => (D.WorldGenerator (D.CoordinatesFromIndex Chunk I)).1
    Materials := fun I => (D.WorldGenerator (D.CoordinatesFromIndex Chunk I)).2
    DirtyValues := []
    DirtyMaterials := []
    bIsNetworkDirty := false }

/-- Modelled from the spec: the octree read. A dirty leaf answers from its
arrays, any other position from the world generator. -/
def FVoxelData.Read (D : FVoxelData) (Position : FIntVector) : ℚ × FVoxelMaterial :=
  match D.DirtyLeaf (D.ChunkOf Position) with
  | some Leaf =>
    (Leaf.Values (D.IndexFromCoordinates Position),
     Leaf.Materials (D.IndexFromCoordinates Position))
  | none => D.WorldGenerator Position

/-- Modelled from the spec: `FValueOctree::SetValueAndMaterial` has no body in the
sources. Materialize the leaf on its first write, update the array slots asked
for, mark the chunk dirty and, in network mode, the voxel dirty. -/
def FVoxelData.SetValueAndMaterial (D : FVoxelData) (Position : FIntVector) (Value : ℚ)
    (Material : FVoxelMaterial) (bSetValue bSetMaterial : Bool) : FVoxelData :=
  let Chunk := D.ChunkOf Position
  let Index := D.IndexFromCoordinates Position
  let Leaf := (D.DirtyLeaf Chunk).getD (D.SetAsDirtyAndSetDefaultValues Chunk)
  let NewLeaf : FValueOctree :=
    { Values := fun I => if bSetValue && decide (I = Index) then Value else Leaf.Values I
      Materials := fun I =>
        if bSetMaterial && decide (I = Index) then Material else Leaf.Materials I
      DirtyValues :=
        if D.bMultiplayer && bSetValue then Index :: Leaf.DirtyValues else Leaf.DirtyValues
      DirtyMaterials :=
        if D.bMultiplayer && bSetMaterial then Index :: Leaf.DirtyMaterials
        else Leaf.DirtyMaterials
      bIsNetworkDirty := D.bMultiplayer || Leaf.bIsNetworkDirty }
  { D with
    DirtyChunks := (Chunk, NewLeaf) :: D.DirtyChunks.filter (fun E => decide (E.1 ≠ Chunk)) }

/-- Modelled from the spec: a region is malformed when an extent is zero or negative. -/
def FIntBox.IsValid (Box : FIntBox) : Bool :=
  decide (Box.Min.X < Box.Max.X ∧ Box.Min.Y < Box.Max.Y ∧ Box.Min.Z < Box.Max.Z)

/-- Modelled from the spec: the ids of the chunks of the world that intersect a
region, in increasing order (the handle of a transaction on that region). -/
def FVoxelData.IdsOfBox (D : FVoxelData) (Box : FIntBox) : FOctreeIds :=
  let Lo : FIntVector :=
    ⟨max Box.Min.X D.Bounds.Min.X, max Box.Min.Y D.Bounds.Min.Y, max Box.Min.Z D.Bounds.Min.Z⟩
  let Hi : FIntVector :=
    ⟨min Box.Max.X D.Bounds.Max.X, min Box.Max.Y D.Bounds.Max.Y, min Box.Max.Z D.Bounds.Max.Z⟩
  if FIntBox.IsValid ⟨Lo, Hi⟩ then
    let First := D.ChunkOf Lo
    let Last := D.ChunkOf (Hi - ⟨1, 1, 1⟩)
    List.insertionSort (fun A B => A ≤ B)
      ((IntRange First.X (Last.X + 1)).flatMap fun X =>
        (IntRange First.Y (Last.Y + 1)).flatMap fun Y =>
          (IntRange First.Z (Last.Z + 1)).map fun Z => D.ChunkId ⟨X, Y, Z⟩)
  else []

/-- Modelled from the spec: `FVoxelData::BeginGet` is missing. Refuse a malformed
region; else lock the chunks of the region and open a Get transaction. -/
def FVoxelData.BeginGet (D : FVoxelData) (Box : FIntBox) : Option (FOctreeIds × FVoxelData) :=
  if Box.IsValid then
    some (D.IdsOfBox Box, { D with Transactions := ⟨D.IdsOfBox Box, false, Box⟩ :: D.Transactions })
  else none

/-- Modelled from the spec: `FVoxelData::BeginSet` is missing. As `BeginGet`, for a
Set transaction. -/
def FVoxelData.BeginSet (D : FVoxelData) (Box : FIntBox) : Option (FOctreeIds × FVoxelData) :=
  if Box.IsValid then
    some (D.IdsOfBox Box, { D with Transactions := ⟨D.IdsOfBox Box, true, Box⟩ :: D.Transactions })
  else none

/-- Modelled from the spec: closing a transaction. Refuse a handle no open
transaction of that kind has; else close the latest one that has it. -/
def FVoxelData.End (D : FVoxelData) (bSet : Bool) (Ids : FOctreeIds) : Option FVoxelData :=
  if D.Transactions.any (fun T => decide (T.Ids = Ids ∧ T.bSet = bSet)) then
    some { D with
      Transactions := D.Transactions.eraseP (fun T => decide (T.Ids = Ids ∧ T.bSet = bSet)) }
  else none

/-- Modelled from the spec: `FVoxelData::GetValueAndMaterial` is missing. Valid
inside the bounds and under a covering Get or Set transaction only. -/
def FVoxelData.GetValueAndMaterial (D : FVoxelData) (Position : FIntVector) :
    Option (ℚ × FVoxelMaterial) :=
  if D.IsInWorld Position && D.Transactions.any (fun T => T.Box.IsInside Position) then
    some (D.Read Position)
  else none

/-- Modelled from the spec: `FVoxelData::GetValue` is missing; the value part of
`GetValueAndMaterial`. -/
def FVoxelData.GetValue (D : FVoxelData) (Position : FIntVector) : Option ℚ :=
  (D.GetValueAndMaterial Position).map (fun R => R.1)

/-- Modelled from the spec: `FVoxelData::SetValue` is missing. Valid inside the
bounds and under a covering Set transaction only. -/
def FVoxelData.SetValue (D : FVoxelData) (Position : FIntVector) (Value : ℚ) :
    Option FVoxelData :=
  if D.IsInWorld Position &&
      D.Transactions.any (fun T => T.bSet && T.Box.IsInside Position) then
    some (D.SetValueAndMaterial Position Value default true false)
  else none

/-- Modelled from the spec: `FVoxelData::SetMaterial` is missing. Valid inside the
bounds and under a covering Set transaction only. -/
def FVoxelData.SetMaterial (D : FVoxelData) (Position : FIntVector)
    (Material : FVoxelMaterial) : Option FVoxelData :=
  if D.IsInWorld Position &&
      D.Transactions.any (fun T => T.bSet && T.Box.IsInside Position) then
    some (D.SetValueAndMaterial Position 0 Material false true)
  else none

/-- Modelled from the spec: `FVoxelData::GetGradient` is missing; the central
differences of the value field along the three axes. -/
def FVoxelData.GetGradient (D : FVoxelData) (Position : FIntVector) : Option FVector :=
  match D.GetValue ⟨Position.X + 1, Position.Y, Position.Z⟩,
      D.GetValue ⟨Position.X - 1, Position.Y, Position.Z⟩,
      D.GetValue ⟨Position.X, Position.Y + 1, Position.Z⟩,
      D.GetValue ⟨Position.X, Position.Y - 1, Position.Z⟩,
      D.GetValue ⟨Position.X, Position.Y, Position.Z + 1⟩,
      D.GetValue ⟨Position.X, Position.Y, Position.Z - 1⟩ with
  | some XP, some XM, some YP, some YM, some ZP, some ZM => some ⟨XP - XM, YP - YM, ZP - ZM⟩
  | _, _, _, _, _, _ => none

/-- Modelled from the spec: `FValueOctree::GetPositionsToUpdate` has no body in
the sources; the positions of the voxels of a chunk. -/
def FVoxelData.GetPositionsToUpdate (D : FVoxelData) (Chunk : FIntVector) : List FIntVector :=
  (List.range (D.ChunkSize * D.ChunkSize * D.ChunkSize)).map (D.CoordinatesFromIndex Chunk)

/-- Modelled from the spec: rehydrate the dense arrays of one chunk from its save
record and mark it dirty. -/
def FVoxelData.LoadChunk (D : FVoxelData) (Record : FVoxelChunkSave) : FVoxelData :=
  { D with
    DirtyChunks :=
      (D.ChunkOf Record.Position,
        { Values := fun I => Record.Values.getD I 0
          Materials := fun I => Record.Materials.getD I default
          DirtyValues := []
          DirtyMaterials := []
          bIsNetworkDirty := false }) ::
      D.DirtyChunks.filter (fun E => decide (E.1 ≠ D.ChunkOf Record.Position)) }

/-- Modelled from the spec: `FVoxelData::LoadFromSaveAndGetModifiedPositions` is
missing. A save with a truncated record is refused wholesale; else the world
is reset when asked, the records are consumed from the last to the first, and
the positions of the loaded chunks are returned. -/
def FVoxelData.LoadFromSaveAndGetModifiedPositions (D : FVoxelData) (Save : FVoxelWorldSave)
    (bReset : Bool) : Option (FVoxelData × List FIntVector) :=
  if Save.Chunks.all (fun Record =>
      decide (Record.Values.length = D.ChunkSize * D.ChunkSize * D.ChunkSize ∧
        Record.Materials.length = D.ChunkSize * D.ChunkSize * D.ChunkSize)) then
    some (Save.Chunks.reverse.foldl FVoxelData.LoadChunk
            (if bReset then { D with DirtyChunks := [] } else D),
          Save.Chunks.reverse.flatMap fun Record =>
            D.GetPositionsToUpdate (D.ChunkOf Record.Position))
  else none

/-- Modelled from the spec: the record `FValueOctree::AddDirtyChunksToSaveQueue`
(no body in the sources) writes for one dirty chunk: the position of its first
voxel, depth 0 and its full dense arrays. -/
def FVoxelData.ChunkSave (D : FVoxelData) (E : FIntVector × FValueOctree) : FVoxelChunkSave :=
  { Position := ⟨E.1.X * D.ChunkSize, E.1.Y * D.ChunkSize, E.1.Z * D.ChunkSize⟩
    Depth := 0
    Values := (List.range (D.ChunkSize * D.ChunkSize * D.ChunkSize)).map E.2.Values
    Materials := (List.range (D.ChunkSize * D.ChunkSize * D.ChunkSize)).map E.2.Materials }

/-- Modelled from the spec: `FVoxelData::GetSave` is missing. The save carries the
depth of the store and one record per dirty chunk, sorted by increasing chunk id. -/
def FVoxelData.GetSave (D : FVoxelData) : FVoxelWorldSave :=
  { LOD := (D.LOD : Int)
    Chunks :=
      (List.insertionSort (fun A B => D.ChunkId A.1 ≤ D.ChunkId B.1) D.DirtyChunks).map
        D.ChunkSave }

/-- Modelled from the spec: the chunks of the world, by their coordinates. -/
def FVoxelData.Chunks (D : FVoxelData) : List FIntVector :=
  if D.Bounds.IsValid then
    let First := D.ChunkOf D.Bounds.Min
    let Last := D.ChunkOf (D.Bounds.Max - ⟨1, 1, 1⟩)
    (IntRange First.X (Last.X + 1)).flatMap fun X =>
      (IntRange First.Y (Last.Y + 1)).flatMap fun Y =>
        (IntRange First.Z (Last.Z + 1)).map fun Z => ⟨X, Y, Z⟩
  else []

/-- Modelled from the spec: the chunk of the world that carries a chunk id. -/
def FVoxelData.ChunkOfId (D : FVoxelData) (Id : Nat) : Option FIntVector :=
  D.Chunks.find? (fun Chunk => decide (D.ChunkId Chunk = Id))

/-- Modelled from the spec: a diff record is well formed when its chunk id is
the id of a chunk of the world and its local index lies inside the arrays. -/
def FVoxelData.IsValidDiff (D : FVoxelData) (Id Index : Nat) : Bool :=
  (D.ChunkOfId Id).isSome && decide (Index < D.ChunkSize * D.ChunkSize * D.ChunkSize)

/-- Modelled from the spec: the leaf of a chunk is replaced by `F` of its content,
after it was materialized from the generator if the chunk was not dirty. -/
def FVoxelData.UpdateLeaf (D : FVoxelData) (Chunk : FIntVector)
    (F : FValueOctree → FValueOctree) : FVoxelData :=
  { D with
    DirtyChunks :=
      (Chunk, F ((D.DirtyLeaf Chunk).getD (D.SetAsDirtyAndSetDefaultValues Chunk))) ::
        D.DirtyChunks.filter (fun E => decide (E.1 ≠ Chunk)) }

/-- Modelled from the spec: `FValueOctree::LoadValueDiff` has no body in the
sources; what it does to the arrays of the leaf the diff names. The per-voxel
network bits are left as they are: the change comes from the network. -/
def FValueOctree.LoadValueDiff (Leaf : FValueOctree) (Diff : FVoxelValueDiff) : FValueOctree :=
  { Leaf with Values := fun I => if I = Diff.Index then Diff.Value else Leaf.Values I }

/-- Modelled from the spec: `FValueOctree::LoadMaterialDiff` has no body in the
sources; what it does to the arrays of the leaf the diff names. -/
def FValueOctree.LoadMaterialDiff (Leaf : FValueOctree) (Diff : FVoxelMaterialDiff) :
    FValueOctree :=
  { Leaf with Materials := fun I => if I = Diff.Index then Diff.Material else Leaf.Materials I }

/-- Modelled from the spec: apply one value diff to the chunk that carries its id. -/
def FVoxelData.LoadValueDiff (D : FVoxelData) (Diff : FVoxelValueDiff) : FVoxelData :=
  match D.ChunkOfId Diff.Id with
  | some Chunk => D.UpdateLeaf Chunk (fun Leaf => Leaf.LoadValueDiff Diff)
  | none => D

/-- Modelled from the spec: apply one material diff to the chunk that carries its id. -/
def FVoxelData.LoadMaterialDiff (D : FVoxelData) (Diff : FVoxelMaterialDiff) : FVoxelData :=
  match D.ChunkOfId Diff.Id with
  | some Chunk => D.UpdateLeaf Chunk (fun Leaf => Leaf.LoadMaterialDiff Diff)
  | none => D

/-- Modelled from the spec: the position a diff record changes. -/
def FVoxelData.DiffPosition (D : FVoxelData) (Id Index : Nat) : List FIntVector :=
  match D.ChunkOfId Id with
  | some Chunk => [D.CoordinatesFromIndex Chunk Index]
  | none => []

/-- Modelled from the spec: `FVoxelData::LoadFromDiffQueuesAndGetModifiedPositions`
is missing. Queues with a malformed record are refused wholesale; else the value
diffs, then the material diffs, are applied in queue order and the positions
they change are returned. -/
def FVoxelData.LoadFromDiffQueuesAndGetModifiedPositions (D : FVoxelData)
    (ValueDiffQueue : List FVoxelValueDiff) (MaterialDiffQueue : List FVoxelMaterialDiff) :
    Option (FVoxelData × List FIntVector) :=
  if ValueDiffQueue.all (fun Diff => D.IsValidDiff Diff.Id Diff.Index) &&
      MaterialDiffQueue.all (fun Diff => D.IsValidDiff Diff.Id Diff.Index) then
    some (MaterialDiffQueue.foldl FVoxelData.LoadMaterialDiff
            (ValueDiffQueue.foldl FVoxelData.LoadValueDiff D),
          (ValueDiffQueue.flatMap fun Diff => D.DiffPosition Diff.Id Diff.Index) ++
            MaterialDiffQueue.flatMap fun Diff => D.DiffPosition Diff.Id Diff.Index)
  else none

/-- Modelled from the spec: `FVoxelData::SetWorldGenerator` is missing; swap the
reference to the active generator. -/
def FVoxelData.SetWorldGenerator (D : FVoxelData) (NewGenerator : FVoxelWorldGeneratorInstance) :
    FVoxelData :=
  { D with WorldGenerator := NewGenerator }

/-- Modelled from the spec: the box of the voxels of a chunk, of edge `C`. -/
def FVoxelData.ChunkBounds (D : FVoxelData) (Chunk : FIntVector) : FIntBox :=
  ⟨⟨Chunk.X * D.ChunkSize, Chunk.Y * D.ChunkSize, Chunk.Z * D.ChunkSize⟩,
   ⟨Chunk.X * D.ChunkSize + D.ChunkSize, Chunk.Y * D.ChunkSize + D.ChunkSize,
    Chunk.Z * D.ChunkSize + D.ChunkSize⟩⟩

/-- Modelled from the spec: the boxes of the eight children of an octree node,
which split the box of the node at its centre. -/
def FIntBox.Children (Box : FIntBox) : List FIntBox :=
  let Mid : FIntVector :=
    ⟨(Box.Min.X + Box.Max.X) / 2, (Box.Min.Y + Box.Max.Y) / 2, (Box.Min.Z + Box.Max.Z) / 2⟩
  [⟨⟨Box.Min.X, Box.Min.Y, Box.Min.Z⟩, ⟨Mid.X, Mid.Y, Mid.Z⟩⟩,
   ⟨⟨Mid.X, Box.Min.Y, Box.Min.Z⟩, ⟨Box.Max.X, Mid.Y, Mid.Z⟩⟩,
   ⟨⟨Box.Min.X, Mid.Y, Box.Min.Z⟩, ⟨Mid.X, Box.Max.Y, Mid.Z⟩⟩,
   ⟨⟨Mid.X, Mid.Y, Box.Min.Z⟩, ⟨Box.Max.X, Box.Max.Y, Mid.Z⟩⟩,
   ⟨⟨Box.Min.X, Box.Min.Y, Mid.Z⟩, ⟨Mid.X, Mid.Y, Box.Max.Z⟩⟩,
   ⟨⟨Mid.X, Box.Min.Y, Mid.Z⟩, ⟨Box.Max.X, Mid.Y, Box.Max.Z⟩⟩,
   ⟨⟨Box.Min.X, Mid.Y, Mid.Z⟩, ⟨Mid.X, Box.Max.Y, Box.Max.Z⟩⟩,
   ⟨⟨Mid.X, Mid.Y, Mid.Z⟩, ⟨Box.Max.X, Box.Max.Y, Box.Max.Z⟩⟩]

/-- Modelled from the spec: DISCARD at a node of box `Bounds` prunes its subtree
back to an ungenerated leaf, so the dirty leaves of the chunks of the subtree are
dropped and these chunks are generator-backed again. The box of a node is made
of whole chunks: the chunks of its subtree are those whose box meets `Bounds`. -/
def FValueOctree.Prune (D : FVoxelData) (Bounds : FIntBox)
    (Leaves : List (FIntVector × FValueOctree)) : List (FIntVector × FValueOctree) :=
  Leaves.filter (fun E => !Bounds.Intersect (D.ChunkBounds E.1))

/-- Modelled from the spec: `FValueOctree::DiscardValuesByPredicate` has no body
in the sources. The walk of the subtree of a node of depth `Depth` and box
`Bounds`, by the contract at its declaration and the one of `discardByPredicate`:
on `-1` (DISCARD) the subtree is pruned, on `0` (RECURSE) the walk descends into
the eight children (a leaf, at depth `0`, has none), on `1` (KEEP) the walk stops
and the content is left as it is. -/
def FValueOctree.DiscardValuesByPredicate (D : FVoxelData) (P : FIntBox → Int) :
    Nat → FIntBox → List (FIntVector × FValueOctree) → List (FIntVector × FValueOctree)
  | 0, Bounds, Leaves => if P Bounds = -1 then FValueOctree.Prune D Bounds Leaves else Leaves
  | Depth + 1, Bounds, Leaves =>
    if P Bounds = -1 then FValueOctree.Prune D Bounds Leaves
    else if P Bounds = 0 then
      Bounds.Children.foldl
        (fun Acc Child => FValueOctree.DiscardValuesByPredicate D P Depth Child Acc) Leaves
    else Leaves

/-- Modelled from the spec: `FVoxelData::DiscardValuesByPredicate` is missing. The
bulk discard is driven top-down from the root of the octree, the node of depth
`LOD` whose box is the world. -/
def FVoxelData.DiscardValuesByPredicate (D : FVoxelData) (P : FIntBox → Int) : FVoxelData :=
  { D with
    DirtyChunks := FValueOctree.DiscardValuesByPredicate D P D.LOD D.Bounds D.DirtyChunks }

/-- The modelled store seen through the functions `AVoxelWorld` calls. -/
def FVoxelData.Ops : FVoxelDataOps FVoxelData where
  IsInWorld := FVoxelData.IsInWorld
  BeginGet := FVoxelData.BeginGet
  EndGet := fun D Ids => D.End false Ids
  BeginSet := FVoxelData.BeginSet
  EndSet := fun D Ids => D.End true Ids
  GetValue := FVoxelData.GetValue
  GetValueAndMaterial := FVoxelData.GetValueAndMaterial
  SetValue := FVoxelData.SetValue
  SetMaterial := FVoxelData.SetMaterial
  GetGradient := FVoxelData.GetGradient
  LoadFromSaveAndGetModifiedPositions := FVoxelData.LoadFromSaveAndGetModifiedPositions
  GetSave := fun D => some D.GetSave
  LoadFromDiffQueuesAndGetModifiedPositions :=
    FVoxelData.LoadFromDiffQueuesAndGetModifiedPositions
  SetWorldGenerator := fun D NewGenerator => some (D.SetWorldGenerator NewGenerator)
  DiscardValuesByPredicate := fun D P => some (D.DiscardValuesByPredicate P)

/-- Modelled from the spec: `FVoxelUtilities::HaveSameSign` is missing; two
densities have the same sign when both are non-negative or both negative. -/
def FVoxelUtilities.HaveSameSign (A B : ℚ) : Bool :=
  decide (0 ≤ A) == decide (0 ≤ B)

/-! ## `AVoxelWorld::SwapWorldGeneratorSphere`: the discard predicate -/

/-- The lambda `IsInside` of `SwapWorldGeneratorSphere`, `(V - Center).Size() <
Radius`: the length cut off to an integer, as `FIntVector::Size` returns it, is
compared with the `float` `Radius`. -/
def AVoxelWorld.SwapWorldGeneratorSphere.IsInside (Center : FIntVector) (Radius : ℚ)
    (V : FIntVector) : Bool :=
  decide ((((V - Center).Size : Int) : ℚ) < Radius)

/-- The box `SphereBox` of `SwapWorldGeneratorSphere`. -/
def AVoxelWorld.SwapWorldGeneratorSphere.SphereBox (Center : FIntVector) (Radius : ℚ) :
    FIntBox :=
  let P : FIntVector := ⟨⌈Radius⌉, ⌈Radius⌉, ⌈Radius⌉⟩
  ⟨Center - P, Center + P + ⟨1, 1, 1⟩⟩

/-- The loop over `Box.GetCorners()` in the predicate: the pair
`(bAllInside, bAllOutside)` after the corners listed. -/
def AVoxelWorld.SwapWorldGeneratorSphere.Corners (Center : FIntVector) (Radius : ℚ)
    (Corners : List FIntVector) : Bool × Bool :=
  Corners.foldl
    (fun Acc Corner =>
      let bInside := AVoxelWorld.SwapWorldGeneratorSphere.IsInside Center Radius Corner
      (Acc.1 && bInside, Acc.2 && !bInside))
    (true, true)

/-- The predicate `SwapWorldGeneratorSphere` hands to `DiscardValuesByPredicate`:
`1` keeps the box, `-1` discards it, `0` asks for smaller boxes. -/
def AVoxelWorld.SwapWorldGeneratorSphere.Predicate (Center : FIntVector) (Radius : ℚ)
    (Box : FIntBox) : Int :=
  let SphereBox := AVoxelWorld.SwapWorldGeneratorSphere.SphereBox Center Radius
  let Flags := AVoxelWorld.SwapWorldGeneratorSphere.Corners Center Radius Box.GetCorners
  if Flags.1 then
    1
  else if Flags.2 &&
      (decide (max ((SphereBox.Size.GetMin : Int) : ℚ) 1 > ((Box.Size.GetMax : Int) : ℚ)) ||
        !SphereBox.Intersect Box) then
    -1
  else
    0

/-- Modelled from the spec: the sphere of `FVoxelSphereShapeWorldGenerator`, the
positions whose distance to `Center` is less than `Radius`. The distance is a
square root; a length `L ≥ 0` is below `Radius` exactly when `Radius` is
positive and `L²` is below `Radius²`, which is what is tested. -/
def FVoxelSphereShapeWorldGenerator.IsInside (Center : FIntVector) (Radius : ℚ)
    (Position : FIntVector) : Bool :=
  decide (0 < Radius ∧ (((Position - Center).SizeSquared : Int) : ℚ) < Radius * Radius)

/-- Modelled from the spec: `FVoxelSphereShapeWorldGenerator`
(`VoxelShapeWorldGenerators.h`) is missing; the blended generator that answers
with the old generator inside the sphere and with the new one outside. -/
def FVoxelSphereShapeWorldGenerator (NewGenerator OldGenerator : FVoxelWorldGeneratorInstance)
    (Center : FIntVector) (Radius : ℚ) : FVoxelWorldGeneratorInstance :=
  fun Position =>
    if FVoxelSphereShapeWorldGenerator.IsInside Center Radius Position then
      OldGenerator Position
    else NewGenerator Position

/-! ## Generator swap, save and network update -/

/-- The function `AVoxelWorld::SetWorldGenerator`; a null `NewGenerator` is `none`.
The call `SetVoxelWorld(this)`, which hands the actor to the new instance, is
left out. -/
def AVoxelWorld.SetWorldGenerator {σ : Type} (Ops : FVoxelDataOps σ) (W : AVoxelWorld σ)
    (NewGenerator : Option UVoxelWorldGenerator) : Outcome σ Unit :=
  match NewGenerator with
  | none => ⟨.ok (), W.LogError "SetWorldGenerator: NewGenerator is NULL"⟩
  | some Generator =>
    let W0 : AVoxelWorld σ :=
      { W with
        WorldGenerator :=
          { W.WorldGenerator with
            UseClassOrObject := .Object
            WorldGeneratorObject := some Generator } }
    if W0.bIsCreated then
      let W1 : AVoxelWorld σ :=
        { W0 with InstancedWorldGenerator := some Generator.GetWorldGenerator }
      match W1.Data with
      | none => ⟨.error .NullDereference, W1⟩
      | some D =>
        let W2 := W1.Call .SetWorldGenerator
        match Ops.SetWorldGenerator D Generator.GetWorldGenerator with
        | none => ⟨.error .DataFault, W2⟩
        | some D1 =>
          let W3 := (W2.SetData D1).Call .DiscardValuesByPredicate
          match Ops.DiscardValuesByPredicate D1 (fun _ => -1) with
          | none => ⟨.error .DataFault, W3⟩
          | some D2 => ⟨.ok (), W3.SetData D2⟩
    else ⟨.ok (), W0⟩

/-- The function `AVoxelWorld::SwapWorldGeneratorSphere`; a null `NewGenerator` is
`none`. `ToSharedRef()` on a null `InstancedWorldGenerator` fails its check, and
`NewGenerator` is dereferenced without a test. The call `SetVoxelWorld(this)`,
which hands the actor to the new instance, is left out. -/
def AVoxelWorld.SwapWorldGeneratorSphere {σ : Type} (Ops : FVoxelDataOps σ)
    (W : AVoxelWorld σ) (NewGenerator : Option UVoxelWorldGenerator) (Center : FIntVector)
    (Radius : ℚ) : Outcome σ Unit :=
  if !W.bIsCreated then
    ⟨.ok (), W.LogError "SwapWorldGeneratorSphere: can't swap if not created"⟩
  else
    match W.InstancedWorldGenerator with
    | none => ⟨.error .CheckFailed, W⟩
    | some OldGeneratorInstance =>
      match NewGenerator with
      | none => ⟨.error .NullDereference, W⟩
      | some Generator =>
        let NewGeneratorInstance := Generator.GetWorldGenerator
        let Sphere :=
          FVoxelSphereShapeWorldGenerator NewGeneratorInstance OldGeneratorInstance Center Radius
        let W1 : AVoxelWorld σ := { W with InstancedWorldGenerator := some Sphere }
        match W1.Data with
        | none => ⟨.error .NullDereference, W1⟩
        | some D =>
          let W2 := W1.Call .SetWorldGenerator
          match Ops.SetWorldGenerator D Sphere with
          | none => ⟨.error .DataFault, W2⟩
          | some D1 =>
            let W3 := (W2.SetData D1).Call .DiscardValuesByPredicate
            match Ops.DiscardValuesByPredicate D1
                (AVoxelWorld.SwapWorldGeneratorSphere.Predicate Center Radius) with
            | none => ⟨.error .DataFault, W3⟩
            | some D2 => ⟨.ok (), W3.SetData D2⟩

/-- The function `AVoxelWorld::GetSave`. -/
def AVoxelWorld.GetSave {σ : Type} (Ops : FVoxelDataOps σ) (W : AVoxelWorld σ) :
    Outcome σ FVoxelWorldSave :=
  match W.Data with
  | none => ⟨.error .NullDereference, W⟩
  | some D =>
    match Ops.GetSave D with
    | none => ⟨.error .DataFault, W.Call .GetSave⟩
    | some Save => ⟨.ok Save, W.Call .GetSave⟩

/-- The loop `for (auto Position : ModifiedPositions)` of `AVoxelWorld::ReceiveData`
(the debug drawing is left out). -/
def AVoxelWorld.ReceiveData.Loop {σ : Type} (W : AVoxelWorld σ) :
    List FIntVector → Outcome σ Unit
  | [] => ⟨.ok (), W⟩
  | Position :: Rest =>
    match W.UpdateChunksAtPosition Position with
    | ⟨.error F, W1⟩ => ⟨.error F, W1⟩
    | ⟨.ok _, W1⟩ => AVoxelWorld.ReceiveData.Loop W1 Rest

/-- The function `AVoxelWorld::ReceiveData`; `Received` is what the client hands
over during the call. -/
def AVoxelWorld.ReceiveData {σ : Type} (Ops : FVoxelDataOps σ) (W : AVoxelWorld σ)
    (Received : FVoxelTcpUpdate) : Outcome σ Unit :=
  if W.TcpClient then
    match Received with
    | .RemoteLoad Save => W.LoadFromSave Ops Save true
    | .DiffQueues ValueDiffQueue MaterialDiffQueue =>
      match W.Data with
      | none => ⟨.error .NullDereference, W⟩
      | some D =>
        let W0 :=
          W.Call (.LoadFromDiffQueuesAndGetModifiedPositions ValueDiffQueue MaterialDiffQueue)
        match Ops.LoadFromDiffQueuesAndGetModifiedPositions D ValueDiffQueue
            MaterialDiffQueue with
        | none => ⟨.error .DataFault, W0⟩
        | some (D1, ModifiedPositions) =>
          AVoxelWorld.ReceiveData.Loop (W0.SetData D1) ModifiedPositions
  else ⟨.ok (), W⟩

/-! ## Coordinates, inside test and configuration -/

/-- The function `AVoxelWorld::GlobalToLocal`. -/
def AVoxelWorld.GlobalToLocal {σ : Type} (W : AVoxelWorld σ) (Position : FVector) : FIntVector :=
  let P : FVector := W.ActorTransform.InverseTransformPosition Position / W.VoxelSize
  ⟨FMath.RoundToInt P.X, FMath.RoundToInt P.Y, FMath.RoundToInt P.Z⟩

/-- The function `AVoxelWorld::LocalToGlobal`. -/
def AVoxelWorld.LocalToGlobal {σ : Type} (W : AVoxelWorld σ) (Position : FIntVector) : FVector :=
  W.LocalToGlobalFloat Position.toFVector

/-- The function `AVoxelWorld::GetNeighboringPositions`. -/
def AVoxelWorld.GetNeighboringPositions {σ : Type} (W : AVoxelWorld σ)
    (GlobalPosition : FVector) : List FIntVector :=
  let P : FVector := W.ActorTransform.InverseTransformPosition GlobalPosition / W.VoxelSize
  [⟨FMath.FloorToInt P.X, FMath.FloorToInt P.Y, FMath.FloorToInt P.Z⟩,
   ⟨FMath.CeilToInt P.X, FMath.FloorToInt P.Y, FMath.FloorToInt P.Z⟩,
   ⟨FMath.FloorToInt P.X, FMath.CeilToInt P.Y, FMath.FloorToInt P.Z⟩,
   ⟨FMath.CeilToInt P.X, FMath.CeilToInt P.Y, FMath.FloorToInt P.Z⟩,
   ⟨FMath.FloorToInt P.X, FMath.FloorToInt P.Y, FMath.CeilToInt P.Z⟩,
   ⟨FMath.CeilToInt P.X, FMath.FloorToInt P.Y, FMath.CeilToInt P.Z⟩,
   ⟨FMath.FloorToInt P.X, FMath.CeilToInt P.Y, FMath.CeilToInt P.Z⟩,
   ⟨FMath.CeilToInt P.X, FMath.CeilToInt P.Y, FMath.CeilToInt P.Z⟩]

/-- The loop `for (auto P : GetNeighboringPositions(Position))` of
`AVoxelWorld::IsInside`, with its `return true`. -/
def AVoxelWorld.IsInside.Loop {σ : Type} (Ops : FVoxelDataOps σ) (W : AVoxelWorld σ) :
    List FIntVector → Outcome σ Bool
  | [] => ⟨.ok false, W⟩
  | P :: Rest =>
    match W.GetValue Ops P with
    | ⟨.error F, W1⟩ => ⟨.error F, W1⟩
    | ⟨.ok Value, W1⟩ =>
      if Value ≤ 0 then ⟨.ok true, W1⟩
      else AVoxelWorld.IsInside.Loop Ops W1 Rest

/-- The function `AVoxelWorld::IsInside`. -/
def AVoxelWorld.IsInside {σ : Type} (Ops : FVoxelDataOps σ) (W : AVoxelWorld σ)
    (Position : FVector) : Outcome σ Bool :=
  AVoxelWorld.IsInside.Loop Ops W (W.GetNeighboringPositions Position)

/-- The function `AVoxelWorld::SetSeed`. -/
def AVoxelWorld.SetSeed {σ : Type} (W : AVoxelWorld σ) (InSeed : Int) : Outcome σ Unit :=
  if W.bIsCreated then ⟨.ok (), W.LogError "Can't set seed when created"⟩
  else ⟨.ok (), { W with Seed := InSeed }⟩

/-- The function `AVoxelWorld::SetLOD`. Its parameter is a `uint8`: what the
function receives of a number `NewLOD` is `NewLOD % 256`. -/
def AVoxelWorld.SetLOD {σ : Type} (W : AVoxelWorld σ) (NewLOD : Nat) : Outcome σ Unit :=
  if !W.bIsCreated then ⟨.ok (), { W with LOD := ((NewLOD % 256 : Nat) : Int) }⟩
  else ⟨.ok (), W.LogError "SetLOD: World is created"⟩

/-- The function `AVoxelWorld::PostEditChangeProperty` (compiled with the editor):
`WorldSizeInVoxel = CHUNK_SIZE * (1 << LOD)`. The macro `CHUNK_SIZE` is not
defined in the sources and is a parameter. The shift of the `int` `1` is defined
for `0 ≤ LOD ≤ 30` and the product as long as it fits 32 bits. -/
def AVoxelWorld.PostEditChangeProperty {σ : Type} (CHUNK_SIZE : Int) (W : AVoxelWorld σ) :
    Outcome σ Unit :=
  if 0 ≤ W.LOD ∧ W.LOD ≤ 30 ∧ -(2 : Int) ^ 31 ≤ CHUNK_SIZE * 2 ^ W.LOD.toNat ∧
      CHUNK_SIZE * 2 ^ W.LOD.toNat < (2 : Int) ^ 31 then
    ⟨.ok (), { W with WorldSizeInVoxel := some (CHUNK_SIZE * 2 ^ W.LOD.toNat) }⟩
  else ⟨.error .UndefinedBehaviour, W⟩

/-! ## Lifecycle and networking -/

/-- What `AVoxelWorld::CreateWorldInternal` obtains from code outside the sources:
the instance `FVoxelWorldGeneratorPicker::GetWorldGenerator()` returns, the store
the constructor `FVoxelData(LOD, WorldGenerator, bMultiplayer)` builds, the
renderer `FVoxelRenderFactory::GetVoxelRender` returns, and the transform of the
actor after `SetActorScale3D(FVector::OneVector)` and
`SetActorRotation(FRotator::ZeroRotator.Quaternion())`. -/
structure FVoxelWorldFactory (σ : Type) where
  GetWorldGenerator : FVoxelWorldGeneratorPicker → FVoxelWorldGeneratorInstance
  NewData : Int → FVoxelWorldGeneratorInstance → Bool → σ
  GetVoxelRender : IVoxelRender
  ResetScaleAndRotation : FTransform → FTransform

/-- The function `AVoxelWorld::CreateWorldInternal`. The actor octree, the copies
of the spawner configurations, `SetVoxelWorld(this)` and the warning it logs are
left out. -/
def AVoxelWorld.CreateWorldInternal {σ : Type} (Factory : FVoxelWorldFactory σ)
    (W : AVoxelWorld σ) : Outcome σ Unit :=
  if W.bIsCreated then ⟨.error .CheckFailed, W⟩
  else
    let W0 : AVoxelWorld σ :=
      { W with ActorTransform := Factory.ResetScaleAndRotation W.ActorTransform }
    if W0.Data.isSome then ⟨.error .CheckFailed, W0⟩
    else if W0.Render.isSome then ⟨.error .CheckFailed, W0⟩
    else
      let Instance := Factory.GetWorldGenerator W0.WorldGenerator
      ⟨.ok (),
        { W0 with
          InstancedWorldGenerator := some Instance
          Data := some (Factory.NewData W0.LOD Instance W0.bMultiplayer)
          Render := some Factory.GetVoxelRender
          bIsCreated := true }⟩

/-- The function `AVoxelWorld::DestroyWorldInternal` (the actor octree and the
warning it logs are left out). -/
def AVoxelWorld.DestroyWorldInternal {σ : Type} (W : AVoxelWorld σ) : Outcome σ Unit :=
  if !W.bIsCreated then ⟨.error .CheckFailed, W⟩
  else if !W.Render.isSome then ⟨.error .CheckFailed, W⟩
  else if !W.Data.isSome then ⟨.error .CheckFailed, W⟩
  else ⟨.ok (), { W with Render := none, Data := none, bIsCreated := false }⟩

/-- The function `AVoxelWorld::CreateWorld`. -/
def AVoxelWorld.CreateWorld {σ : Type} (Factory : FVoxelWorldFactory σ) (W : AVoxelWorld σ) :
    Outcome σ Unit :=
  if !W.bIsCreated then W.CreateWorldInternal Factory
  else ⟨.ok (), W.LogError "Can't create world: already created"⟩

/-- The function `AVoxelWorld::DestroyWorld` (the mesh components it destroys after
`DestroyWorldInternal` are left out). -/
def AVoxelWorld.DestroyWorld {σ : Type} (W : AVoxelWorld σ) : Outcome σ Unit :=
  if W.bIsCreated then W.DestroyWorldInternal
  else ⟨.ok (), W.LogError "Can't destroy world: not created"⟩

/-- The function `AVoxelWorld::BeginPlay`. -/
def AVoxelWorld.BeginPlay {σ : Type} (Factory : FVoxelWorldFactory σ) (W : AVoxelWorld σ) :
    Outcome σ Unit :=
  if !W.bIsCreated && W.bCreateWorldAutomatically then W.CreateWorldInternal Factory
  else ⟨.ok (), W⟩

/-- The function `AVoxelWorld::EndPlay`: the four `Reset()` (the thread pool and the
sleep are left out). -/
def AVoxelWorld.EndPlay {σ : Type} (W : AVoxelWorld σ) : Outcome σ Unit :=
  ⟨.ok (), { W with TcpClient := false, TcpServer := false, Render := none, Data := none }⟩

/-- The function `AVoxelWorld::StartServer`. -/
def AVoxelWorld.StartServer {σ : Type} (W : AVoxelWorld σ) (_Ip : String) (_Port : Int) :
    Outcome σ Unit :=
  let W0 :=
    if !W.bMultiplayer then W.LogError "Starting server with bMultiplayer set to false" else W
  if W0.TcpClient then ⟨.ok (), W0.LogError "Cannot start server: client already running"⟩
  else ⟨.ok (), { W0 with TcpServer := true }⟩

/-- The function `AVoxelWorld::ConnectClient`. -/
def AVoxelWorld.ConnectClient {σ : Type} (W : AVoxelWorld σ) (_Ip : String) (_Port : Int) :
    Outcome σ Unit :=
  let W0 :=
    if !W.bMultiplayer then W.LogError "Starting client with bMultiplayer set to false" else W
  if W0.TcpServer then ⟨.ok (), W0.LogError "Cannot connect client: server already running"⟩
  else ⟨.ok (), { W0 with TcpClient := true }⟩

/-- One call of a sequence of `StartServer`, `ConnectClient` and `EndPlay`. -/
inductive FNetworkCall where
  | StartServer (Ip : String) (Port : Int)
  | ConnectClient (Ip : String) (Port : Int)
  | EndPlay

/-- The actor after a sequence of `StartServer`, `ConnectClient` and `EndPlay`
(none of the three can end in a fault). -/
def AVoxelWorld.RunNetwork {σ : Type} (W : AVoxelWorld σ) : List FNetworkCall → AVoxelWorld σ
  | [] => W
  | .StartServer Ip Port :: Rest => AVoxelWorld.RunNetwork (W.StartServer Ip Port).World Rest
  | .ConnectClient Ip Port :: Rest => AVoxelWorld.RunNetwork (W.ConnectClient Ip Port).World Rest
  | .EndPlay :: Rest => AVoxelWorld.RunNetwork W.EndPlay.World Rest

/-! ## Notions used to state the properties -/

/-- The lattice points of the box `[Lo, Hi)` in the order the three nested loops
of `GetIntersection` visit them: `X` outermost, `Z` innermost, each increasing. -/
def LatticePoints (Lo Hi : FIntVector) : List FIntVector :=
  (IntRange Lo.X Hi.X).flatMap fun X =>
    (IntRange Lo.Y Hi.Y).flatMap fun Y =>
      (IntRange Lo.Z Hi.Z).map fun Z => ⟨X, Y, Z⟩

/-- The loop body of `GetIntersection` run over a list of positions, stopping
as the loops do on `return`, on a fault and on `break`. -/
def AVoxelWorld.GetIntersection.Scan {σ : Type} (Ops : FVoxelDataOps σ)
    (HaveSameSign : ℚ → ℚ → Bool) (D : σ) (S : FIntersectionScan σ) :
    List FIntVector → FIntersectionScan σ
  | [] => S
  | P :: Ps =>
    let S1 := AVoxelWorld.GetIntersection.Body Ops HaveSameSign D S P.X P.Y P.Z
    if S1.Exit.isSome || S1.bFound then S1
    else AVoxelWorld.GetIntersection.Scan Ops HaveSameSign D S1 Ps

/-- The corner `RealStart` of `GetIntersection`: the componentwise minimum of the
two ends of the segment. -/
def AVoxelWorld.GetIntersection.RealStart (Start End : FIntVector) : FIntVector :=
  ⟨min Start.X End.X, min Start.Y End.Y, min Start.Z End.Z⟩

/-- The corner `RealEnd` of `GetIntersection`: one past the componentwise maximum
of the two ends of the segment. -/
def AVoxelWorld.GetIntersection.RealEnd (Start End : FIntVector) : FIntVector :=
  ⟨max Start.X End.X + 1, max Start.Y End.Y + 1, max Start.Z End.Z + 1⟩

/-- The componentwise maximum of the two ends of a segment. -/
def AVoxelWorld.GetIntersection.LastPoint (Start End : FIntVector) : FIntVector :=
  ⟨max Start.X End.X, max Start.Y End.Y, max Start.Z End.Z⟩

/-- The state of the scan of `GetIntersection` when it enters its loops: `W` is
the actor after `BeginGet` and the first `GetValue`. -/
def AVoxelWorld.GetIntersection.Enter {σ : Type} (W : AVoxelWorld σ) (OldValue : ℚ)
    (RealStart : FIntVector) : FIntersectionScan σ :=
  ⟨W, OldValue, RealStart, false, none, none, none⟩

/-- The number of axes along which a segment varies. -/
def AxesVarying (Start End : FIntVector) : Nat :=
  (if Start.X ≠ End.X then 1 else 0) + (if Start.Y ≠ End.Y then 1 else 0) +
    (if Start.Z ≠ End.Z then 1 else 0)

/-- The lattice points of a segment in the order from `Start` towards `End`
(for a segment that varies along one axis: `Start`, its neighbour towards `End`,
and so on up to `End`). -/
def SegmentPoints (Start End : FIntVector) : List FIntVector :=
  let Diff := End - Start
  (List.range (max Diff.X.natAbs (max Diff.Y.natAbs Diff.Z.natAbs) + 1)).map fun (K : Nat) =>
    ⟨Start.X + (K : Int) * Diff.X.sign, Start.Y + (K : Int) * Diff.Y.sign,
     Start.Z + (K : Int) * Diff.Z.sign⟩

/-- The first position of a list of samples whose value does not have the same
sign as the preceding sample, `Old` being the value of the sample before the
first position of the list. -/
def FirstSignChange (HaveSameSign : ℚ → ℚ → Bool) (Value : FIntVector → ℚ) :
    ℚ → List FIntVector → Option FIntVector
  | _, [] => none
  | Old, P :: Ps =>
    if !HaveSameSign Old (Value P) then some P
    else FirstSignChange HaveSameSign Value (Value P) Ps

/-- The first lattice point of a sampled path whose value does not have the same
sign as the value of the point before it on the path. -/
def FirstSignChangeAlong (HaveSameSign : ℚ → ℚ → Bool) (Value : FIntVector → ℚ) :
    List FIntVector → Option FIntVector
  | [] => none
  | P :: Ps => FirstSignChange HaveSameSign Value (Value P) Ps

/-- The calls an operation added to the record of calls of `W`. -/
def NewCalls {σ α : Type} (W : AVoxelWorld σ) (Out : Outcome σ α) : List FDataCall :=
  Out.World.Calls.drop W.Calls.length

/-- Check of a sequence of calls against the transaction open while they are
made (`Open`: whether it is a Set transaction, and its box). A read must lie in
the box of the open Get transaction, a write in the box of the open Set
transaction; `BeginGet`/`BeginSet` open a transaction, `EndGet`/`EndSet` close it. -/
def Covered : Option (Bool × FIntBox) → List FDataCall → Bool
  | _, [] => true
  | _, .BeginGet Box (some _) :: Cs => Covered (some (false, Box)) Cs
  | _, .BeginSet Box (some _) :: Cs => Covered (some (true, Box)) Cs
  | _, .EndGet _ :: Cs => Covered none Cs
  | _, .EndSet _ :: Cs => Covered none Cs
  | Open, .GetValue P :: Cs =>
    (match Open with
      | some (false, Box) => Box.IsInside P
      | _ => false) && Covered Open Cs
  | Open, .GetValueAndMaterial P :: Cs =>
    (match Open with
      | some (false, Box) => Box.IsInside P
      | _ => false) && Covered Open Cs
  | Open, .SetValue P _ :: Cs =>
    (match Open with
      | some (true, Box) => Box.IsInside P
      | _ => false) && Covered Open Cs
  | Open, .SetMaterial P _ :: Cs =>
    (match Open with
      | some (true, Box) => Box.IsInside P
      | _ => false) && Covered Open Cs
  | Open, _ :: Cs => Covered Open Cs

/-- The chunk id a record of either diff queue carries. -/
def FVoxelDiffId : FVoxelValueDiff ⊕ FVoxelMaterialDiff → Nat
  | .inl Diff => Diff.Id
  | .inr Diff => Diff.Id

/-- What a record of either diff queue does to the leaf it names. -/
def FValueOctree.LoadDiff (Leaf : FValueOctree) :
    FVoxelValueDiff ⊕ FVoxelMaterialDiff → FValueOctree
  | .inl Diff => Leaf.LoadValueDiff Diff
  | .inr Diff => Leaf.LoadMaterialDiff Diff

/-- Apply a record of either diff queue to the store. -/
def FVoxelData.LoadDiff (D : FVoxelData) :
    FVoxelValueDiff ⊕ FVoxelMaterialDiff → FVoxelData
  | .inl Diff => D.LoadValueDiff Diff
  | .inr Diff => D.LoadMaterialDiff Diff

/-! ## A small world used for the concrete evaluations -/

/-- A generator whose surface is the plane between `Z = -1` and `Z = 0`: the
density at a position is `Z + 1/2`. -/
def Example.Generator (Position : FIntVector) : ℚ × FVoxelMaterial :=
  ((Position.Z : ℚ) + 1 / 2, default)

/-- A store of depth 1 with chunks of edge 16: the world is `[-16, 16)³`, has
eight chunks, no dirty chunk and no open transaction. -/
def Example.Data : FVoxelData where
  LOD := 1
  ChunkSize := 16
  Bounds := ⟨⟨-16, -16, -16⟩, ⟨16, 16, 16⟩⟩
  bMultiplayer := false
  ChunkId := fun Chunk => ((Chunk.X + 1) + 2 * (Chunk.Y + 1) + 4 * (Chunk.Z + 1)).toNat
  WorldGenerator := Example.Generator
  DirtyChunks := []
  Transactions := []

/-- A created world of depth 1 over `Example.Data`, placed at the origin. -/
def Example.World : AVoxelWorld FVoxelData :=
  { AVoxelWorld.Construct FVoxelData ⟨id, id⟩ with
    LOD := 1
    bIsCreated := true
    InstancedWorldGenerator := some Example.Generator
    Data := some Example.Data
    Render := some ⟨[]⟩ }

/-- A generator object whose instance has the constant density `7`. -/
def Example.NewGenerator : UVoxelWorldGenerator :=
  ⟨fun _ => (7, default)⟩

/-- The small world with a connected client. -/
def Example.Client : AVoxelWorld FVoxelData :=
  { Example.World with TcpClient := true }

/-- A freshly constructed actor, placed at the origin. -/
def Example.Fresh : AVoxelWorld FVoxelData :=
  AVoxelWorld.Construct FVoxelData ⟨id, id⟩

/-- What the creation of the small world obtains from outside: the generator
`Example.Generator`, the store `Example.Data` with the generator and the network
mode asked for, an idle renderer, and the transform unchanged. -/
def Example.Factory : FVoxelWorldFactory FVoxelData where
  GetWorldGenerator := fun _ => Example.Generator
  NewData := fun _ WorldGenerator bMultiplayer =>
    { Example.Data with WorldGenerator := WorldGenerator, bMultiplayer := bMultiplayer }
  GetVoxelRender := ⟨[]⟩
  ResetScaleAndRotation := id

/-! ## Proofs -/

section Loops
variable {σ : Type} (Ops : FVoxelDataOps σ) (HaveSameSign : ℚ → ℚ → Bool) (D : σ)

theorem LoopZ_eq_Scan (X Y : Int) (S : FIntersectionScan σ) (Zs : List Int) :
    AVoxelWorld.GetIntersection.LoopZ Ops HaveSameSign D X Y S Zs =
      AVoxelWorld.GetIntersection.Scan Ops HaveSameSign D S (Zs.map fun Z => ⟨X, Y, Z⟩) := by
  induction Zs generalizing S with
  | nil => rfl
  | cons Z Zs ih =>
    simp only [AVoxelWorld.GetIntersection.LoopZ, List.map_cons,
      AVoxelWorld.GetIntersection.Scan, ih]

theorem Scan_append (S : FIntersectionScan σ) (Ps Qs : List FIntVector)
    (hS : (S.Exit.isSome || S.bFound) = false) :
    AVoxelWorld.GetIntersection.Scan Ops HaveSameSign D S (Ps ++ Qs) =
      if ((AVoxelWorld.GetIntersection.Scan Ops HaveSameSign D S Ps).Exit.isSome ||
          (AVoxelWorld.GetIntersection.Scan Ops HaveSameSign D S Ps).bFound) then
        AVoxelWorld.GetIntersection.Scan Ops HaveSameSign D S Ps
      else
        AVoxelWorld.GetIntersection.Scan Ops HaveSameSign D
          (AVoxelWorld.GetIntersection.Scan Ops HaveSameSign D S Ps) Qs := by
  induction Ps generalizing S with
  | nil => simp [AVoxelWorld.GetIntersection.Scan, hS]
  | cons P Ps ih =>
    simp only [List.cons_append, AVoxelWorld.GetIntersection.Scan]
    by_cases h : ((AVoxelWorld.GetIntersection.Body Ops HaveSameSign D S P.X P.Y P.Z).Exit.isSome ||
        (AVoxelWorld.GetIntersection.Body Ops HaveSameSign D S P.X P.Y P.Z).bFound) = true
    · simp [h]
    · have h2 : ((AVoxelWorld.GetIntersection.Body Ops HaveSameSign D S P.X P.Y P.Z).Exit.isSome ||
        (AVoxelWorld.GetIntersection.Body Ops HaveSameSign D S P.X P.Y P.Z).bFound) = false := by
        simpa using h
      simp only [h2, Bool.false_eq_true, if_false]
      exact ih _ h2

theorem LoopY_eq_Scan (Zs : List Int) (X : Int) (S : FIntersectionScan σ) (Ys : List Int)
    (hS : (S.Exit.isSome || S.bFound) = false) :
    AVoxelWorld.GetIntersection.LoopY Ops HaveSameSign D Zs X S Ys =
      AVoxelWorld.GetIntersection.Scan Ops HaveSameSign D S
        (Ys.flatMap fun Y => Zs.map fun Z => ⟨X, Y, Z⟩) := by
  induction Ys generalizing S with
  | nil => rfl
  | cons Y Ys ih =>
    simp only [AVoxelWorld.GetIntersection.LoopY, List.flatMap_cons, LoopZ_eq_Scan]
    rw [Scan_append Ops HaveSameSign D S _ _ hS]
    by_cases h : ((AVoxelWorld.GetIntersection.Scan Ops HaveSameSign D S
        (Zs.map fun Z => (⟨X, Y, Z⟩ : FIntVector))).Exit.isSome ||
        (AVoxelWorld.GetIntersection.Scan Ops HaveSameSign D S
        (Zs.map fun Z => (⟨X, Y, Z⟩ : FIntVector))).bFound) = true
    · simp [h]
    · have h2 : ((AVoxelWorld.GetIntersection.Scan Ops HaveSameSign D S
        (Zs.map fun Z => (⟨X, Y, Z⟩ : FIntVector))).Exit.isSome ||
        (AVoxelWorld.GetIntersection.Scan Ops HaveSameSign D S
        (Zs.map fun Z => (⟨X, Y, Z⟩ : FIntVector))).bFound) = false := by
        simpa using h
      simp only [h2, Bool.false_eq_true, if_false]
      exact ih _ h2

theorem LoopX_eq_Scan (Ys Zs : List Int) (S : FIntersectionScan σ) (Xs : List Int)
    (hS : (S.Exit.isSome || S.bFound) = false) :
    AVoxelWorld.GetIntersection.LoopX Ops HaveSameSign D Ys Zs S Xs =
      AVoxelWorld.GetIntersection.Scan Ops HaveSameSign D S
        (Xs.flatMap fun X => Ys.flatMap fun Y => Zs.map fun Z => ⟨X, Y, Z⟩) := by
  induction Xs generalizing S with
  | nil => rfl
  | cons X Xs ih =>
    simp only [AVoxelWorld.GetIntersection.LoopX, List.flatMap_cons]
    rw [LoopY_eq_Scan Ops HaveSameSign D Zs X S Ys hS, Scan_append Ops HaveSameSign D S _ _ hS]
    by_cases h : ((AVoxelWorld.GetIntersection.Scan Ops HaveSameSign D S
        (Ys.flatMap fun Y => Zs.map fun Z => (⟨X, Y, Z⟩ : FIntVector))).Exit.isSome ||
        (AVoxelWorld.GetIntersection.Scan Ops HaveSameSign D S
        (Ys.flatMap fun Y => Zs.map fun Z => (⟨X, Y, Z⟩ : FIntVector))).bFound) = true
    · simp [h]
    · have h2 : ((AVoxelWorld.GetIntersection.Scan Ops HaveSameSign D S
        (Ys.flatMap fun Y => Zs.map fun Z => (⟨X, Y, Z⟩ : FIntVector))).Exit.isSome ||
        (AVoxelWorld.GetIntersection.Scan Ops HaveSameSign D S
        (Ys.flatMap fun Y => Zs.map fun Z => (⟨X, Y, Z⟩ : FIntVector))).bFound) = false := by
        simpa using h
      simp only [h2, Bool.false_eq_true, if_false]
      exact ih _ h2


theorem mem_IntRange (Lo Hi X : Int) : X ∈ IntRange Lo Hi ↔ Lo ≤ X ∧ X < Hi := by
  simp only [IntRange, List.mem_map, List.mem_range]
  constructor
  · rintro ⟨I, hI, rfl⟩
    omega
  · intro h
    exact ⟨(X - Lo).toNat, by omega, by omega⟩

theorem mem_LatticePoints (Lo Hi P : FIntVector) :
    P ∈ LatticePoints Lo Hi ↔
      Lo.X ≤ P.X ∧ P.X < Hi.X ∧ Lo.Y ≤ P.Y ∧ P.Y < Hi.Y ∧ Lo.Z ≤ P.Z ∧ P.Z < Hi.Z := by
  simp only [LatticePoints, List.mem_flatMap, List.mem_map, mem_IntRange]
  constructor
  · rintro ⟨X, hX, Y, hY, Z, hZ, rfl⟩
    exact ⟨hX.1, hX.2, hY.1, hY.2, hZ.1, hZ.2⟩
  · rintro ⟨h1, h2, h3, h4, h5, h6⟩
    exact ⟨P.X, ⟨h1, h2⟩, P.Y, ⟨h3, h4⟩, P.Z, ⟨h5, h6⟩, rfl⟩

theorem Body_calls (S : FIntersectionScan σ) (X Y Z : Int) :
    ∃ L, (AVoxelWorld.GetIntersection.Body Ops HaveSameSign D S X Y Z).World.Calls =
        S.World.Calls ++ L ∧
      (AVoxelWorld.GetIntersection.Body Ops HaveSameSign D S X Y Z).World.Data = S.World.Data ∧
      ∀ C ∈ L, C = .IsInWorld ⟨X, Y, Z⟩ ∨ C = .GetValue ⟨X, Y, Z⟩ := by
  unfold AVoxelWorld.GetIntersection.Body
  by_cases hIn : Ops.IsInWorld D ⟨X, Y, Z⟩ = true
  · cases hV : Ops.GetValue D ⟨X, Y, Z⟩ with
    | none =>
      refine ⟨[.IsInWorld ⟨X, Y, Z⟩, .GetValue ⟨X, Y, Z⟩], ?_, ?_, ?_⟩ <;>
        simp [hIn, hV, AVoxelWorld.Call]
    | some Value =>
      refine ⟨[.IsInWorld ⟨X, Y, Z⟩, .GetValue ⟨X, Y, Z⟩], ?_, ?_, ?_⟩
      · simp only [hIn, hV, Bool.not_true, Bool.false_eq_true, if_false]
        split_ifs <;> simp [AVoxelWorld.Call]
      · simp only [hIn, hV, Bool.not_true, Bool.false_eq_true, if_false]
        split_ifs <;> simp [AVoxelWorld.Call]
      · simp
  · refine ⟨[.IsInWorld ⟨X, Y, Z⟩], ?_, ?_, ?_⟩ <;>
      simp [hIn, AVoxelWorld.Call, AVoxelWorld.LogError]

theorem Scan_calls (S : FIntersectionScan σ) (Ps : List FIntVector) :
    ∃ L, (AVoxelWorld.GetIntersection.Scan Ops HaveSameSign D S Ps).World.Calls =
        S.World.Calls ++ L ∧
      (AVoxelWorld.GetIntersection.Scan Ops HaveSameSign D S Ps).World.Data = S.World.Data ∧
      ∀ C ∈ L, ∃ P ∈ Ps, C = .IsInWorld P ∨ C = .GetValue P := by
  induction Ps generalizing S with
  | nil => exact ⟨[], by simp [AVoxelWorld.GetIntersection.Scan]⟩
  | cons P Ps ih =>
    obtain ⟨L1, h1, hD1, hL1⟩ := Body_calls Ops HaveSameSign D S P.X P.Y P.Z
    simp only [AVoxelWorld.GetIntersection.Scan]
    split_ifs with hStop
    · refine ⟨L1, h1, hD1, fun C hC => ⟨P, by simp, hL1 C hC⟩⟩
    · obtain ⟨L2, h2, hD2, hL2⟩ :=
        ih (AVoxelWorld.GetIntersection.Body Ops HaveSameSign D S P.X P.Y P.Z)
      refine ⟨L1 ++ L2, by rw [h2, h1, List.append_assoc], by rw [hD2, hD1], ?_⟩
      intro C hC
      rcases List.mem_append.1 hC with hC | hC
      · exact ⟨P, by simp, hL1 C hC⟩
      · obtain ⟨Q, hQ, hCQ⟩ := hL2 C hC
        exact ⟨Q, List.mem_cons_of_mem _ hQ, hCQ⟩


theorem GetIntersection_eq_Scan (W : AVoxelWorld σ) (Start End : FIntVector) (Octrees : FOctreeIds)
    (D1 : σ) (OldValue : ℚ)
    (hRej : AVoxelWorld.GetIntersection.Rejects (End - Start) = false)
    (hData : W.Data = some D)
    (hBegin : Ops.BeginGet D ⟨AVoxelWorld.GetIntersection.RealStart Start End,
      AVoxelWorld.GetIntersection.RealEnd Start End⟩ = some (Octrees, D1))
    (hOld : Ops.GetValue D1 (AVoxelWorld.GetIntersection.RealStart Start End) = some OldValue) :
    W.GetIntersection Ops HaveSameSign Start End =
      match (AVoxelWorld.GetIntersection.Scan Ops HaveSameSign D1
          (AVoxelWorld.GetIntersection.Enter
            (((W.SetData D1).Call (.BeginGet ⟨AVoxelWorld.GetIntersection.RealStart Start End,
              AVoxelWorld.GetIntersection.RealEnd Start End⟩ (some Octrees))).Call
              (.GetValue (AVoxelWorld.GetIntersection.RealStart Start End)))
            OldValue (AVoxelWorld.GetIntersection.RealStart Start End))
          (LatticePoints (AVoxelWorld.GetIntersection.RealStart Start End)
            (AVoxelWorld.GetIntersection.RealEnd Start End))) with
      | S =>
        match S.Exit with
        | some (.error F) => ⟨.error F, S.World⟩
        | some (.ok B) => ⟨.ok ⟨B, S.OutGlobalPosition, S.OutVoxelPosition⟩, S.World⟩
        | none =>
          match Ops.EndGet D1 Octrees with
          | none => ⟨.error .DataFault, S.World.Call (.EndGet Octrees)⟩
          | some D2 =>
            ⟨.ok ⟨S.bFound, S.OutGlobalPosition, S.OutVoxelPosition⟩,
              (S.World.Call (.EndGet Octrees)).SetData D2⟩ := by
  simp only [AVoxelWorld.GetIntersection.RealStart, AVoxelWorld.GetIntersection.RealEnd]
    at hBegin hOld
  simp only [AVoxelWorld.GetIntersection, hRej, hData, hBegin, hOld, Bool.false_eq_true, if_false]
  rw [LoopX_eq_Scan Ops HaveSameSign D1 _ _ ⟨_, _, _, false, none, none, none⟩ _ rfl]
  rfl

theorem Scan_spec (Value : FIntVector → ℚ) (S : FIntersectionScan σ) (Ps : List FIntVector)
    (hE : S.Exit = none) (hF : S.bFound = false)
    (hPs : ∀ P ∈ Ps, Ops.IsInWorld D P = true ∧ Ops.GetValue D P = some (Value P)) :
    ((AVoxelWorld.GetIntersection.Scan Ops HaveSameSign D S Ps).Exit = none ∨
      (AVoxelWorld.GetIntersection.Scan Ops HaveSameSign D S Ps).Exit =
        some (.error .CheckFailed)) ∧
    ((AVoxelWorld.GetIntersection.Scan Ops HaveSameSign D S Ps).bFound = true →
      ∃ P ∈ Ps, (AVoxelWorld.GetIntersection.Scan Ops HaveSameSign D S Ps).OutVoxelPosition =
          some P ∧
        FirstSignChange HaveSameSign Value S.OldValue Ps = some P) ∧
    ((AVoxelWorld.GetIntersection.Scan Ops HaveSameSign D S Ps).Exit = none →
      (AVoxelWorld.GetIntersection.Scan Ops HaveSameSign D S Ps).bFound = false →
      FirstSignChange HaveSameSign Value S.OldValue Ps = none) := by
  induction Ps generalizing S with
  | nil => simp [AVoxelWorld.GetIntersection.Scan, FirstSignChange, hE, hF]
  | cons P Ps ih =>
    obtain ⟨hIn, hV⟩ := hPs P (by simp)
    have hPs2 : ∀ Q ∈ Ps, Ops.IsInWorld D Q = true ∧ Ops.GetValue D Q = some (Value Q) :=
      fun Q hQ => hPs Q (List.mem_cons_of_mem _ hQ)
    have hP : (⟨P.X, P.Y, P.Z⟩ : FIntVector) = P := rfl
    by_cases hSign : HaveSameSign S.OldValue (Value P) = true
    · have hB : AVoxelWorld.GetIntersection.Body Ops HaveSameSign D S P.X P.Y P.Z =
          { S with
            World := (S.World.Call (.IsInWorld P)).Call (.GetValue P)
            OldValue := Value P
            OldPosition := P } := by
        simp [AVoxelWorld.GetIntersection.Body, hP, hIn, hV, hSign]
      simp only [AVoxelWorld.GetIntersection.Scan, hB, hE, hF, FirstSignChange, hSign,
        Option.isSome_none, Bool.or_self, Bool.false_eq_true, if_false, Bool.not_true]
      have ih2 := ih
        { S with
          World := (S.World.Call (.IsInWorld P)).Call (.GetValue P)
          OldValue := Value P
          OldPosition := P } hE hF hPs2
      simp only [hE, hF] at ih2
      obtain ⟨h1, h2, h3⟩ := ih2
      refine ⟨h1, ?_, h3⟩
      intro hFound
      obtain ⟨Q, hQ, hQ2⟩ := h2 hFound
      exact ⟨Q, List.mem_cons_of_mem _ hQ, hQ2⟩
    · have hSign2 : HaveSameSign S.OldValue (Value P) = false := by simpa using hSign
      by_cases hZero : S.OldValue - Value P = 0
      · have hB : AVoxelWorld.GetIntersection.Body Ops HaveSameSign D S P.X P.Y P.Z =
            { S with
              World := (S.World.Call (.IsInWorld P)).Call (.GetValue P)
              Exit := some (.error .CheckFailed) } := by
          simp [AVoxelWorld.GetIntersection.Body, hP, hIn, hV, hSign2, hZero]
        simp [AVoxelWorld.GetIntersection.Scan, hB, hF]
      · have hB : AVoxelWorld.GetIntersection.Body Ops HaveSameSign D S P.X P.Y P.Z =
            { S with
              World := (S.World.Call (.IsInWorld P)).Call (.GetValue P)
              OutGlobalPosition := some (((S.World.Call (.IsInWorld P)).Call
                (.GetValue P)).LocalToGlobalFloat
                ((S.OldValue / (S.OldValue - Value P)) * P.toFVector +
                  (1 - S.OldValue / (S.OldValue - Value P)) * S.OldPosition.toFVector))
              OutVoxelPosition := some P
              bFound := true
              OldValue := Value P
              OldPosition := P } := by
          simp [AVoxelWorld.GetIntersection.Body, hP, hIn, hV, hSign2, hZero]
        simp [AVoxelWorld.GetIntersection.Scan, hB, hE, FirstSignChange, hSign2]


end Loops

theorem Rejects_iff (Start End : FIntVector) :
    AVoxelWorld.GetIntersection.Rejects (End - Start) = true ↔ 1 < AxesVarying Start End := by
  have hX : (End - Start).X = End.X - Start.X := rfl
  have hY : (End - Start).Y = End.Y - Start.Y := rfl
  have hZ : (End - Start).Z = End.Z - Start.Z := rfl
  simp only [AVoxelWorld.GetIntersection.Rejects, AxesVarying, hX, hY, hZ]
  by_cases h1 : Start.X = End.X <;> by_cases h2 : Start.Y = End.Y <;>
    by_cases h3 : Start.Z = End.Z <;>
    simp [h1, h2, h3, sub_eq_zero, eq_comm]

theorem FIntVector.sub_def (A B : FIntVector) : A - B = ⟨A.X - B.X, A.Y - B.Y, A.Z - B.Z⟩ := rfl

theorem FIntVector.add_def (A B : FIntVector) : A + B = ⟨A.X + B.X, A.Y + B.Y, A.Z + B.Z⟩ := rfl

theorem IntRange_succ (A : Int) : IntRange A (A + 1) = [A] := by
  simp [IntRange, List.range_succ]

theorem IntRange_eq_range (Lo Hi : Int) (h : Lo ≤ Hi) :
    IntRange Lo (Hi + 1) =
      (List.range ((Hi - Lo).natAbs + 1)).map fun (K : Nat) => Lo + (K : Int) := by
  have : (Hi + 1 - Lo).toNat = (Hi - Lo).natAbs + 1 := by omega
  simp [IntRange, this]

theorem step_sign (Lo Hi : Int) (h : Lo ≤ Hi) (K : Nat) (hK : K < (Hi - Lo).natAbs + 1) :
    Lo + (K : Int) * (Hi - Lo).sign = Lo + (K : Int) := by
  rcases eq_or_lt_of_le h with h0 | h0
  · subst h0
    have : K = 0 := by simpa using hK
    simp [this]
  · have : (Hi - Lo).sign = 1 := Int.sign_eq_one_of_pos (by omega)
    simp [this]

theorem SegmentPoints_X (Lo Hi Y Z : Int) (h : Lo ≤ Hi) :
    SegmentPoints ⟨Lo, Y, Z⟩ ⟨Hi, Y, Z⟩ = (IntRange Lo (Hi + 1)).map fun X => ⟨X, Y, Z⟩ := by
  rw [IntRange_eq_range Lo Hi h, List.map_map]
  simp only [SegmentPoints, FIntVector.sub_def, sub_self, Int.natAbs_zero, Int.sign_zero,
    mul_zero, add_zero, max_self, Nat.zero_le, max_eq_left]
  apply List.map_congr_left
  intro K hK
  simp only [Function.comp, List.mem_range] at hK ⊢
  rw [step_sign Lo Hi h K hK]

theorem SegmentPoints_Y (X Lo Hi Z : Int) (h : Lo ≤ Hi) :
    SegmentPoints ⟨X, Lo, Z⟩ ⟨X, Hi, Z⟩ = (IntRange Lo (Hi + 1)).map fun Y => ⟨X, Y, Z⟩ := by
  rw [IntRange_eq_range Lo Hi h, List.map_map]
  simp only [SegmentPoints, FIntVector.sub_def, sub_self, Int.natAbs_zero, Int.sign_zero,
    mul_zero, add_zero, max_self, Nat.zero_le, max_eq_left, max_eq_right]
  apply List.map_congr_left
  intro K hK
  simp only [Function.comp, List.mem_range] at hK ⊢
  rw [step_sign Lo Hi h K hK]

theorem SegmentPoints_Z (X Y Lo Hi : Int) (h : Lo ≤ Hi) :
    SegmentPoints ⟨X, Y, Lo⟩ ⟨X, Y, Hi⟩ = (IntRange Lo (Hi + 1)).map fun Z => ⟨X, Y, Z⟩ := by
  rw [IntRange_eq_range Lo Hi h, List.map_map]
  simp only [SegmentPoints, FIntVector.sub_def, sub_self, Int.natAbs_zero, Int.sign_zero,
    mul_zero, add_zero, max_self, Nat.zero_le, max_eq_left, max_eq_right]
  apply List.map_congr_left
  intro K hK
  simp only [Function.comp, List.mem_range] at hK ⊢
  rw [step_sign Lo Hi h K hK]

theorem LatticePoints_eq_SegmentPoints (Start End : FIntVector)
    (hRej : AVoxelWorld.GetIntersection.Rejects (End - Start) = false) :
    LatticePoints (AVoxelWorld.GetIntersection.RealStart Start End)
        (AVoxelWorld.GetIntersection.RealEnd Start End) =
      SegmentPoints (AVoxelWorld.GetIntersection.RealStart Start End)
        (AVoxelWorld.GetIntersection.LastPoint Start End) := by
  have hAx : ¬ 1 < AxesVarying Start End := by
    rw [← Rejects_iff, hRej]; simp
  simp only [AxesVarying] at hAx
  simp only [AVoxelWorld.GetIntersection.RealStart, AVoxelWorld.GetIntersection.RealEnd,
    AVoxelWorld.GetIntersection.LastPoint, LatticePoints]
  by_cases h1 : Start.X = End.X
  · by_cases h2 : Start.Y = End.Y
    · simp only [h1, h2, min_self, max_self, IntRange_succ, List.flatMap_cons,
        List.flatMap_nil, List.append_nil]
      rw [SegmentPoints_Z _ _ _ _ min_le_max]
    · by_cases h3 : Start.Z = End.Z
      · simp only [h1, h3, min_self, max_self, IntRange_succ, List.flatMap_cons,
          List.flatMap_nil, List.append_nil, List.map_cons, List.map_nil]
        rw [SegmentPoints_Y _ _ _ _ min_le_max, List.map_eq_flatMap]
      · simp [h1, h2, h3] at hAx
  · by_cases h2 : Start.Y = End.Y
    · by_cases h3 : Start.Z = End.Z
      · simp only [h2, h3, min_self, max_self, IntRange_succ, List.flatMap_cons,
          List.flatMap_nil, List.append_nil, List.map_cons, List.map_nil]
        rw [SegmentPoints_X _ _ _ _ min_le_max, List.map_eq_flatMap]
      · simp [h1, h2, h3] at hAx
    · simp [h1, h2] at hAx
      omega

theorem SegmentPoints_head (A B : FIntVector) : ∃ T, SegmentPoints A B = A :: T := by
  simp only [SegmentPoints]
  rw [List.range_succ_eq_map, List.map_cons]
  have hA : (⟨A.X + ((0 : Nat) : Int) * (B - A).X.sign, A.Y + ((0 : Nat) : Int) * (B - A).Y.sign,
      A.Z + ((0 : Nat) : Int) * (B - A).Z.sign⟩ : FIntVector) = A := by
    simp
  rw [hA]
  exact ⟨_, rfl⟩

theorem RealStart_inside (Start End : FIntVector) :
    FIntBox.IsInside ⟨AVoxelWorld.GetIntersection.RealStart Start End,
      AVoxelWorld.GetIntersection.RealEnd Start End⟩
      (AVoxelWorld.GetIntersection.RealStart Start End) = true := by
  simp only [FIntBox.IsInside, AVoxelWorld.GetIntersection.RealStart,
    AVoxelWorld.GetIntersection.RealEnd, decide_eq_true_eq]
  omega

/-- C5 (amended). For a segment that varies along exactly one axis, all of whose
lattice points are in the world and readable, if `GetIntersection` returns `true`
then `OutVoxelPosition` is the first lattice point, in the order of increasing
coordinate from the componentwise minimum of `Start` and `End` to their maximum,
whose value does not have the same sign as the preceding sample (the first
point being compared with its own value, so never reported when `HaveSameSign`
is reflexive). That order is the order from `Start` towards `End` when no
coordinate of `End` is smaller than that of `Start`. -/
theorem GetIntersection_first_sign_change {σ : Type} (Ops : FVoxelDataOps σ)
    (HaveSameSign : ℚ → ℚ → Bool) (W : AVoxelWorld σ) (D D1 : σ) (Octrees : FOctreeIds)
    (Value : FIntVector → ℚ) (Start End : FIntVector) (R : FIntersection)
    (hAxis : AxesVarying Start End = 1)
    (hData : W.Data = some D)
    (hBegin : Ops.BeginGet D ⟨AVoxelWorld.GetIntersection.RealStart Start End,
      AVoxelWorld.GetIntersection.RealEnd Start End⟩ = some (Octrees, D1))
    (hSegment : ∀ P ∈ SegmentPoints (AVoxelWorld.GetIntersection.RealStart Start End)
        (AVoxelWorld.GetIntersection.LastPoint Start End),
      Ops.IsInWorld D1 P = true ∧ Ops.GetValue D1 P = some (Value P))
    (hReturn : (W.GetIntersection Ops HaveSameSign Start End).Return = .ok R)
    (hFound : R.bFound = true) :
    (∃ P, R.OutVoxelPosition = some P) ∧
    R.OutVoxelPosition =
      FirstSignChange HaveSameSign Value
        (Value (AVoxelWorld.GetIntersection.RealStart Start End))
        (SegmentPoints (AVoxelWorld.GetIntersection.RealStart Start End)
          (AVoxelWorld.GetIntersection.LastPoint Start End)) ∧
    ((∀ V, HaveSameSign V V = true) →
      R.OutVoxelPosition =
        FirstSignChangeAlong HaveSameSign Value
          (SegmentPoints (AVoxelWorld.GetIntersection.RealStart Start End)
            (AVoxelWorld.GetIntersection.LastPoint Start End))) ∧
    (Start.X ≤ End.X ∧ Start.Y ≤ End.Y ∧ Start.Z ≤ End.Z →
      SegmentPoints (AVoxelWorld.GetIntersection.RealStart Start End)
        (AVoxelWorld.GetIntersection.LastPoint Start End) = SegmentPoints Start End) := by
  have hRej : AVoxelWorld.GetIntersection.Rejects (End - Start) = false := by
    have := Rejects_iff Start End
    rw [hAxis] at this
    cases h : AVoxelWorld.GetIntersection.Rejects (End - Start)
    · rfl
    · exact absurd (this.1 h) (by decide)
  obtain ⟨T, hT⟩ := SegmentPoints_head (AVoxelWorld.GetIntersection.RealStart Start End)
    (AVoxelWorld.GetIntersection.LastPoint Start End)
  have hOld := (hSegment (AVoxelWorld.GetIntersection.RealStart Start End)
    (by rw [hT]; simp)).2
  rw [GetIntersection_eq_Scan Ops HaveSameSign D W Start End Octrees D1 _ hRej hData hBegin hOld,
    LatticePoints_eq_SegmentPoints Start End hRej] at hReturn
  obtain ⟨hExit, hSome, -⟩ := Scan_spec Ops HaveSameSign D1 Value
    (AVoxelWorld.GetIntersection.Enter
      (((W.SetData D1).Call (.BeginGet ⟨AVoxelWorld.GetIntersection.RealStart Start End,
        AVoxelWorld.GetIntersection.RealEnd Start End⟩ (some Octrees))).Call
        (.GetValue (AVoxelWorld.GetIntersection.RealStart Start End)))
      (Value (AVoxelWorld.GetIntersection.RealStart Start End))
      (AVoxelWorld.GetIntersection.RealStart Start End))
    (SegmentPoints (AVoxelWorld.GetIntersection.RealStart Start End)
      (AVoxelWorld.GetIntersection.LastPoint Start End)) rfl rfl hSegment
  have key : ∃ P, R.OutVoxelPosition = some P ∧
      FirstSignChange HaveSameSign Value
        (Value (AVoxelWorld.GetIntersection.RealStart Start End))
        (SegmentPoints (AVoxelWorld.GetIntersection.RealStart Start End)
          (AVoxelWorld.GetIntersection.LastPoint Start End)) = some P := by
    rcases hExit with hExit | hExit
    · simp only [hExit] at hReturn
      cases hEnd : Ops.EndGet D1 Octrees with
      | none => simp [hEnd] at hReturn
      | some D2 =>
        simp only [hEnd, Except.ok.injEq] at hReturn
        subst hReturn
        obtain ⟨P, -, hP1, hP2⟩ := hSome hFound
        exact ⟨P, hP1, hP2⟩
    · simp [hExit] at hReturn
  obtain ⟨P, hP1, hP2⟩ := key
  refine ⟨⟨P, hP1⟩, by rw [hP1, hP2], ?_, ?_⟩
  · intro hRefl
    rw [hP1, ← hP2, hT]
    simp [FirstSignChange, FirstSignChangeAlong, hRefl]
  · rintro ⟨hX, hY, hZ⟩
    simp [AVoxelWorld.GetIntersection.RealStart, AVoxelWorld.GetIntersection.LastPoint,
      min_eq_left hX, min_eq_left hY, min_eq_left hZ,
      max_eq_right hX, max_eq_right hY, max_eq_right hZ]


theorem ofPosition_inside (P : FIntVector) : (FIntBox.ofPosition P).IsInside P = true := by
  simp [FIntBox.ofPosition, FIntBox.IsInside, FIntVector.add_def]

theorem Covered_reads (Box : FIntBox) (L T : List FDataCall)
    (h : ∀ C ∈ L, ∃ P, (C = .IsInWorld P ∨ C = .GetValue P) ∧ Box.IsInside P = true) :
    Covered (some (false, Box)) (L ++ T) = Covered (some (false, Box)) T := by
  induction L with
  | nil => rfl
  | cons C L ih =>
    obtain ⟨P, hC, hP⟩ := h C (by simp)
    have ih2 := ih (fun C2 hC2 => h C2 (List.mem_cons_of_mem _ hC2))
    rcases hC with rfl | rfl
    · simpa [Covered] using ih2
    · simpa [Covered, hP] using ih2

theorem GetValue_covered {σ : Type} (Ops : FVoxelDataOps σ) (W : AVoxelWorld σ)
    (P : FIntVector) : Covered none (NewCalls W (W.GetValue Ops P)) = true := by
  cases hD : W.Data with
  | none => simp [AVoxelWorld.GetValue, hD, NewCalls, Covered]
  | some D =>
    by_cases hIn : Ops.IsInWorld D P = true
    · cases hB : Ops.BeginGet D (FIntBox.ofPosition P) with
      | none => simp [AVoxelWorld.GetValue, hD, hIn, hB, NewCalls, Covered, AVoxelWorld.Call]
      | some R =>
        obtain ⟨Octrees, D1⟩ := R
        cases hV : Ops.GetValueAndMaterial D1 P with
        | none =>
          simp [AVoxelWorld.GetValue, hD, hIn, hB, hV, NewCalls, Covered, AVoxelWorld.Call,
            AVoxelWorld.SetData, ofPosition_inside]
        | some V =>
          cases hE : Ops.EndGet D1 Octrees <;>
            simp [AVoxelWorld.GetValue, hD, hIn, hB, hV, hE, NewCalls, Covered, AVoxelWorld.Call,
              AVoxelWorld.SetData, ofPosition_inside]
    · simp [AVoxelWorld.GetValue, hD, hIn, NewCalls, Covered, AVoxelWorld.Call,
        AVoxelWorld.LogError]

theorem GetMaterial_covered {σ : Type} (Ops : FVoxelDataOps σ) (W : AVoxelWorld σ)
    (P : FIntVector) : Covered none (NewCalls W (W.GetMaterial Ops P)) = true := by
  cases hD : W.Data with
  | none => simp [AVoxelWorld.GetMaterial, hD, NewCalls, Covered]
  | some D =>
    by_cases hIn : Ops.IsInWorld D P = true
    · cases hB : Ops.BeginGet D (FIntBox.ofPosition P) with
      | none => simp [AVoxelWorld.GetMaterial, hD, hIn, hB, NewCalls, Covered, AVoxelWorld.Call]
      | some R =>
        obtain ⟨Octrees, D1⟩ := R
        cases hV : Ops.GetValueAndMaterial D1 P with
        | none =>
          simp [AVoxelWorld.GetMaterial, hD, hIn, hB, hV, NewCalls, Covered, AVoxelWorld.Call,
            AVoxelWorld.SetData, ofPosition_inside]
        | some V =>
          cases hE : Ops.EndGet D1 Octrees <;>
            simp [AVoxelWorld.GetMaterial, hD, hIn, hB, hV, hE, NewCalls, Covered,
              AVoxelWorld.Call, AVoxelWorld.SetData, ofPosition_inside]
    · simp [AVoxelWorld.GetMaterial, hD, hIn, NewCalls, Covered, AVoxelWorld.Call,
        AVoxelWorld.LogError]

theorem SetValue_covered {σ : Type} (Ops : FVoxelDataOps σ) (W : AVoxelWorld σ)
    (P : FIntVector) (V : ℚ) : Covered none (NewCalls W (W.SetValue Ops P V)) = true := by
  cases hD : W.Data with
  | none => simp [AVoxelWorld.SetValue, hD, NewCalls, Covered]
  | some D =>
    by_cases hIn : Ops.IsInWorld D P = true
    · cases hB : Ops.BeginSet D (FIntBox.ofPosition P) with
      | none => simp [AVoxelWorld.SetValue, hD, hIn, hB, NewCalls, Covered, AVoxelWorld.Call]
      | some R =>
        obtain ⟨Octrees, D1⟩ := R
        cases hV : Ops.SetValue D1 P V with
        | none =>
          simp [AVoxelWorld.SetValue, hD, hIn, hB, hV, NewCalls, Covered, AVoxelWorld.Call,
            AVoxelWorld.SetData, ofPosition_inside]
        | some D2 =>
          cases hE : Ops.EndSet D2 Octrees <;>
            simp [AVoxelWorld.SetValue, hD, hIn, hB, hV, hE, NewCalls, Covered,
              AVoxelWorld.Call, AVoxelWorld.SetData, ofPosition_inside]
    · simp [AVoxelWorld.SetValue, hD, hIn, NewCalls, Covered, AVoxelWorld.Call,
        AVoxelWorld.LogError]

theorem SetMaterial_covered {σ : Type} (Ops : FVoxelDataOps σ) (W : AVoxelWorld σ)
    (P : FIntVector) (M : FVoxelMaterial) :
    Covered none (NewCalls W (W.SetMaterial Ops P M)) = true := by
  cases hD : W.Data with
  | none => simp [AVoxelWorld.SetMaterial, hD, NewCalls, Covered]
  | some D =>
    by_cases hIn : Ops.IsInWorld D P = true
    · cases hB : Ops.BeginSet D (FIntBox.ofPosition P) with
      | none => simp [AVoxelWorld.SetMaterial, hD, hIn, hB, NewCalls, Covered, AVoxelWorld.Call]
      | some R =>
        obtain ⟨Octrees, D1⟩ := R
        cases hV : Ops.SetMaterial D1 P M with
        | none =>
          simp [AVoxelWorld.SetMaterial, hD, hIn, hB, hV, NewCalls, Covered, AVoxelWorld.Call,
            AVoxelWorld.SetData, ofPosition_inside]
        | some D2 =>
          cases hE : Ops.EndSet D2 Octrees <;>
            simp [AVoxelWorld.SetMaterial, hD, hIn, hB, hV, hE, NewCalls, Covered,
              AVoxelWorld.Call, AVoxelWorld.SetData, ofPosition_inside]
    · simp [AVoxelWorld.SetMaterial, hD, hIn, NewCalls, Covered, AVoxelWorld.Call,
        AVoxelWorld.LogError]


theorem GetIntersection_covered {σ : Type} (Ops : FVoxelDataOps σ)
    (HaveSameSign : ℚ → ℚ → Bool) (W : AVoxelWorld σ) (Start End : FIntVector) :
    Covered none (NewCalls W (W.GetIntersection Ops HaveSameSign Start End)) = true := by
  by_cases hRej : AVoxelWorld.GetIntersection.Rejects (End - Start) = true
  · simp [AVoxelWorld.GetIntersection, hRej, NewCalls, Covered, AVoxelWorld.LogError]
  have hRej2 : AVoxelWorld.GetIntersection.Rejects (End - Start) = false := by simpa using hRej
  have hIn := RealStart_inside Start End
  cases hD : W.Data with
  | none => simp [AVoxelWorld.GetIntersection, hRej2, hD, NewCalls, Covered]
  | some D =>
    cases hB : Ops.BeginGet D ⟨AVoxelWorld.GetIntersection.RealStart Start End,
        AVoxelWorld.GetIntersection.RealEnd Start End⟩ with
    | none =>
      simp only [AVoxelWorld.GetIntersection.RealStart, AVoxelWorld.GetIntersection.RealEnd] at hB
      simp [AVoxelWorld.GetIntersection, hRej2, hD, hB, NewCalls, Covered, AVoxelWorld.Call]
    | some R =>
      obtain ⟨Octrees, D1⟩ := R
      cases hV : Ops.GetValue D1 (AVoxelWorld.GetIntersection.RealStart Start End) with
      | none =>
        simp only [AVoxelWorld.GetIntersection.RealStart, AVoxelWorld.GetIntersection.RealEnd]
          at hB hV hIn
        simp [AVoxelWorld.GetIntersection, hRej2, hD, hB, hV, NewCalls, Covered,
          AVoxelWorld.Call, AVoxelWorld.SetData, hIn]
      | some OldValue =>
        rw [GetIntersection_eq_Scan Ops HaveSameSign D W Start End Octrees D1 OldValue hRej2 hD
          hB hV]
        obtain ⟨L, hL, -, hLmem⟩ := Scan_calls Ops HaveSameSign D1
          (AVoxelWorld.GetIntersection.Enter
            (((W.SetData D1).Call (.BeginGet ⟨AVoxelWorld.GetIntersection.RealStart Start End,
              AVoxelWorld.GetIntersection.RealEnd Start End⟩ (some Octrees))).Call
              (.GetValue (AVoxelWorld.GetIntersection.RealStart Start End)))
            OldValue (AVoxelWorld.GetIntersection.RealStart Start End))
          (LatticePoints (AVoxelWorld.GetIntersection.RealStart Start End)
            (AVoxelWorld.GetIntersection.RealEnd Start End))
        have hCov : ∀ T, Covered (some (false, ⟨AVoxelWorld.GetIntersection.RealStart Start End,
            AVoxelWorld.GetIntersection.RealEnd Start End⟩)) T = true → Covered none
            (FDataCall.BeginGet ⟨AVoxelWorld.GetIntersection.RealStart Start End,
                AVoxelWorld.GetIntersection.RealEnd Start End⟩ (some Octrees) ::
              FDataCall.GetValue (AVoxelWorld.GetIntersection.RealStart Start End) :: (L ++ T)) =
            true := by
          intro T hT
          simp only [Covered, hIn, Bool.true_and]
          rw [← hT]
          apply Covered_reads
          intro C hC
          obtain ⟨P, hP, hCP⟩ := hLmem C hC
          refine ⟨P, hCP, ?_⟩
          rw [mem_LatticePoints] at hP
          simpa [FIntBox.IsInside] using hP
        have hCalls : (AVoxelWorld.GetIntersection.Enter
            (((W.SetData D1).Call (.BeginGet ⟨AVoxelWorld.GetIntersection.RealStart Start End,
              AVoxelWorld.GetIntersection.RealEnd Start End⟩ (some Octrees))).Call
              (.GetValue (AVoxelWorld.GetIntersection.RealStart Start End)))
            OldValue (AVoxelWorld.GetIntersection.RealStart Start End)).World.Calls =
            W.Calls ++ [FDataCall.BeginGet ⟨AVoxelWorld.GetIntersection.RealStart Start End,
                AVoxelWorld.GetIntersection.RealEnd Start End⟩ (some Octrees),
              FDataCall.GetValue (AVoxelWorld.GetIntersection.RealStart Start End)] := by
          simp [AVoxelWorld.GetIntersection.Enter, AVoxelWorld.Call, AVoxelWorld.SetData]
        rw [hCalls] at hL
        generalize AVoxelWorld.GetIntersection.Scan Ops HaveSameSign D1 _ _ = S at hL ⊢
        have h0 := hCov [] rfl
        have h1 := hCov [FDataCall.EndGet Octrees] rfl
        rw [List.append_nil] at h0
        cases hExit : S.Exit with
        | none =>
          cases hE : Ops.EndGet D1 Octrees with
          | none =>
            simp only [hExit, hE, NewCalls, AVoxelWorld.Call, hL, List.append_assoc,
              List.drop_left]
            simpa using h1
          | some D2 =>
            simp only [hExit, hE, NewCalls, AVoxelWorld.Call, AVoxelWorld.SetData, hL,
              List.append_assoc, List.drop_left]
            simpa using h1
        | some E =>
          cases E with
          | error F =>
            simp only [hExit, NewCalls, hL, List.append_assoc, List.drop_left]
            simpa using h0
          | ok B =>
            simp only [hExit, NewCalls, hL, List.append_assoc, List.drop_left]
            simpa using h0


theorem GetIntersection_first_calls {σ : Type} (Ops : FVoxelDataOps σ)
    (HaveSameSign : ℚ → ℚ → Bool) (W : AVoxelWorld σ) (D : σ) (Start End : FIntVector)
    (hRej : AVoxelWorld.GetIntersection.Rejects (End - Start) = false)
    (hD : W.Data = some D) :
    ∃ Rest, NewCalls W (W.GetIntersection Ops HaveSameSign Start End) =
        .BeginGet ⟨AVoxelWorld.GetIntersection.RealStart Start End,
          AVoxelWorld.GetIntersection.RealEnd Start End⟩
          ((Ops.BeginGet D ⟨AVoxelWorld.GetIntersection.RealStart Start End,
            AVoxelWorld.GetIntersection.RealEnd Start End⟩).map Prod.fst) :: Rest ∧
      ((Ops.BeginGet D ⟨AVoxelWorld.GetIntersection.RealStart Start End,
            AVoxelWorld.GetIntersection.RealEnd Start End⟩).isSome = true →
        ∃ Rest2, Rest = .GetValue (AVoxelWorld.GetIntersection.RealStart Start End) :: Rest2) := by
  cases hB : Ops.BeginGet D ⟨AVoxelWorld.GetIntersection.RealStart Start End,
      AVoxelWorld.GetIntersection.RealEnd Start End⟩ with
  | none =>
    refine ⟨[], ?_, by simp⟩
    simp only [AVoxelWorld.GetIntersection.RealStart, AVoxelWorld.GetIntersection.RealEnd] at hB
    simp [AVoxelWorld.GetIntersection, hRej, hD, hB, NewCalls, AVoxelWorld.Call,
      AVoxelWorld.GetIntersection.RealStart, AVoxelWorld.GetIntersection.RealEnd]
  | some R =>
    obtain ⟨Octrees, D1⟩ := R
    cases hV : Ops.GetValue D1 (AVoxelWorld.GetIntersection.RealStart Start End) with
    | none =>
      refine ⟨[.GetValue (AVoxelWorld.GetIntersection.RealStart Start End)], ?_, fun _ => ⟨[], rfl⟩⟩
      simp only [AVoxelWorld.GetIntersection.RealStart, AVoxelWorld.GetIntersection.RealEnd]
        at hB hV
      simp [AVoxelWorld.GetIntersection, hRej, hD, hB, hV, NewCalls, AVoxelWorld.Call,
        AVoxelWorld.SetData, AVoxelWorld.GetIntersection.RealStart,
        AVoxelWorld.GetIntersection.RealEnd]
    | some OldValue =>
      rw [GetIntersection_eq_Scan Ops HaveSameSign D W Start End Octrees D1 OldValue hRej hD
        hB hV]
      obtain ⟨L, hL, -, -⟩ := Scan_calls Ops HaveSameSign D1
        (AVoxelWorld.GetIntersection.Enter
          (((W.SetData D1).Call (.BeginGet ⟨AVoxelWorld.GetIntersection.RealStart Start End,
            AVoxelWorld.GetIntersection.RealEnd Start End⟩ (some Octrees))).Call
            (.GetValue (AVoxelWorld.GetIntersection.RealStart Start End)))
          OldValue (AVoxelWorld.GetIntersection.RealStart Start End))
        (LatticePoints (AVoxelWorld.GetIntersection.RealStart Start End)
          (AVoxelWorld.GetIntersection.RealEnd Start End))
      have hCalls : (AVoxelWorld.GetIntersection.Enter
          (((W.SetData D1).Call (.BeginGet ⟨AVoxelWorld.GetIntersection.RealStart Start End,
            AVoxelWorld.GetIntersection.RealEnd Start End⟩ (some Octrees))).Call
            (.GetValue (AVoxelWorld.GetIntersection.RealStart Start End)))
          OldValue (AVoxelWorld.GetIntersection.RealStart Start End)).World.Calls =
          W.Calls ++ [FDataCall.BeginGet ⟨AVoxelWorld.GetIntersection.RealStart Start End,
              AVoxelWorld.GetIntersection.RealEnd Start End⟩ (some Octrees),
            FDataCall.GetValue (AVoxelWorld.GetIntersection.RealStart Start End)] := by
        simp [AVoxelWorld.GetIntersection.Enter, AVoxelWorld.Call, AVoxelWorld.SetData]
      rw [hCalls] at hL
      generalize AVoxelWorld.GetIntersection.Scan Ops HaveSameSign D1 _ _ = S at hL ⊢
      cases hExit : S.Exit with
      | none =>
        cases hE : Ops.EndGet D1 Octrees with
        | none =>
          exact ⟨.GetValue (AVoxelWorld.GetIntersection.RealStart Start End) ::
              (L ++ [.EndGet Octrees]),
            by simp [hExit, hE, NewCalls, AVoxelWorld.Call, hL], fun _ => ⟨_, rfl⟩⟩
        | some D2 =>
          exact ⟨.GetValue (AVoxelWorld.GetIntersection.RealStart Start End) ::
              (L ++ [.EndGet Octrees]),
            by simp [hExit, hE, NewCalls, AVoxelWorld.Call, AVoxelWorld.SetData, hL],
            fun _ => ⟨_, rfl⟩⟩
      | some E =>
        cases E with
        | error F =>
          exact ⟨.GetValue (AVoxelWorld.GetIntersection.RealStart Start End) :: L,
            by simp [hExit, NewCalls, hL], fun _ => ⟨_, rfl⟩⟩
        | ok B =>
          exact ⟨.GetValue (AVoxelWorld.GetIntersection.RealStart Start End) :: L,
            by simp [hExit, NewCalls, hL], fun _ => ⟨_, rfl⟩⟩

/-- C9 (amended). `GetIntersection` treats every segment that varies along more than
one axis as a contract violation: it logs the error and returns `false` without
any call on the store (no transaction, no voxel read) and leaves the store as it
was. A segment with `Start = End` is not rejected: with a valid store the first
call is `BeginGet` on the one-voxel box of `Start`, and once the transaction is
open the voxel at `Start` is read. -/
theorem GetIntersection_contract_violation {σ : Type} (Ops : FVoxelDataOps σ)
    (HaveSameSign : ℚ → ℚ → Bool) (W : AVoxelWorld σ) (Start End : FIntVector) :
    (1 < AxesVarying Start End →
      W.GetIntersection Ops HaveSameSign Start End =
        ⟨.ok ⟨false, none, none⟩,
          W.LogError "GetIntersection: Start and end should have 2 common coordinates"⟩ ∧
      NewCalls W (W.GetIntersection Ops HaveSameSign Start End) = [] ∧
      (W.GetIntersection Ops HaveSameSign Start End).World.Data = W.Data) ∧
    (AxesVarying Start End = 0 → ∀ D, W.Data = some D →
      ∃ Rest, NewCalls W (W.GetIntersection Ops HaveSameSign Start End) =
          .BeginGet (FIntBox.ofPosition Start)
            ((Ops.BeginGet D (FIntBox.ofPosition Start)).map Prod.fst) :: Rest ∧
        ((Ops.BeginGet D (FIntBox.ofPosition Start)).isSome = true →
          ∃ Rest2, Rest = .GetValue Start :: Rest2)) := by
  constructor
  · intro h
    have hRej := (Rejects_iff Start End).2 h
    simp [AVoxelWorld.GetIntersection, hRej, NewCalls, AVoxelWorld.LogError]
  · intro h D hD
    have hRej : AVoxelWorld.GetIntersection.Rejects (End - Start) = false := by
      have := Rejects_iff Start End
      rw [h] at this
      cases h2 : AVoxelWorld.GetIntersection.Rejects (End - Start)
      · rfl
      · exact absurd (this.1 h2) (by decide)
    have hEq : End = Start := by
      simp only [AxesVarying] at h
      have hX : Start.X = End.X := by by_contra hne; simp [hne] at h
      have hY : Start.Y = End.Y := by by_contra hne; simp [hne] at h
      have hZ : Start.Z = End.Z := by by_contra hne; simp [hne] at h
      cases Start; cases End; simp_all
    subst hEq
    have h1 : AVoxelWorld.GetIntersection.RealStart End End = End := by
      simp [AVoxelWorld.GetIntersection.RealStart]
    have h2 : (⟨AVoxelWorld.GetIntersection.RealStart End End,
        AVoxelWorld.GetIntersection.RealEnd End End⟩ : FIntBox) = FIntBox.ofPosition End := by
      simp [AVoxelWorld.GetIntersection.RealStart, AVoxelWorld.GetIntersection.RealEnd,
        FIntBox.ofPosition, FIntVector.add_def]
    have := GetIntersection_first_calls Ops HaveSameSign W D End End hRej hD
    rw [h2, h1] at this
    exact this


theorem SizeSquared_cast (V Center : FIntVector) :
    ((((V - Center).SizeSquared : Int) : ℚ) : ℝ) =
      ((V.X : ℝ) - Center.X) ^ 2 + ((V.Y : ℝ) - Center.Y) ^ 2 + ((V.Z : ℝ) - Center.Z) ^ 2 := by
  simp only [FIntVector.SizeSquared, FIntVector.sub_def]
  push_cast
  ring

theorem SphereIsInside_iff_sqrt (Center : FIntVector) (Radius : ℚ) (V : FIntVector) :
    FVoxelSphereShapeWorldGenerator.IsInside Center Radius V = true ↔
      Real.sqrt (((V.X : ℝ) - Center.X) ^ 2 + ((V.Y : ℝ) - Center.Y) ^ 2 +
        ((V.Z : ℝ) - Center.Z) ^ 2) < (Radius : ℝ) := by
  have hS := SizeSquared_cast V Center
  have hNonneg : (0 : ℝ) ≤ ((V.X : ℝ) - Center.X) ^ 2 + ((V.Y : ℝ) - Center.Y) ^ 2 +
      ((V.Z : ℝ) - Center.Z) ^ 2 := by positivity
  simp only [FVoxelSphereShapeWorldGenerator.IsInside, decide_eq_true_eq]
  rw [← hS] at hNonneg ⊢
  constructor
  · rintro ⟨hR, hLt⟩
    have hR2 : (0 : ℝ) < Radius := by exact_mod_cast hR
    rw [Real.sqrt_lt' hR2]
    have : ((((V - Center).SizeSquared : Int) : ℚ) : ℝ) < ((Radius * Radius : ℚ) : ℝ) := by
      exact_mod_cast hLt
    rw [pow_two]
    exact_mod_cast this
  · intro h
    have hR2 : (0 : ℝ) < Radius := lt_of_le_of_lt (Real.sqrt_nonneg _) h
    rw [Real.sqrt_lt' hR2, pow_two] at h
    refine ⟨by exact_mod_cast hR2, ?_⟩
    exact_mod_cast h

theorem ofPosition_valid (P : FIntVector) : (FIntBox.ofPosition P).IsValid = true := by
  simp [FIntBox.ofPosition, FIntBox.IsValid, FIntVector.add_def]

theorem FVoxelData.Read_SetValue (D : FVoxelData) (P : FIntVector) (V : ℚ)
    (M : FVoxelMaterial) (bSetMaterial : Bool) :
    ((D.SetValueAndMaterial P V M true bSetMaterial).Read P).1 = V := by
  have h : (D.SetValueAndMaterial P V M true bSetMaterial).ChunkOf P = D.ChunkOf P := rfl
  have h2 : (D.SetValueAndMaterial P V M true bSetMaterial).IndexFromCoordinates P =
      D.IndexFromCoordinates P := rfl
  simp only [FVoxelData.Read, FVoxelData.DirtyLeaf, h, h2]
  simp [FVoxelData.SetValueAndMaterial]

theorem FVoxelData.Read_SetMaterial (D : FVoxelData) (P : FIntVector) (V : ℚ)
    (M : FVoxelMaterial) (bSetValue : Bool) :
    ((D.SetValueAndMaterial P V M bSetValue true).Read P).2 = M := by
  have h : (D.SetValueAndMaterial P V M bSetValue true).ChunkOf P = D.ChunkOf P := rfl
  have h2 : (D.SetValueAndMaterial P V M bSetValue true).IndexFromCoordinates P =
      D.IndexFromCoordinates P := rfl
  simp only [FVoxelData.Read, FVoxelData.DirtyLeaf, h, h2]
  simp [FVoxelData.SetValueAndMaterial]

theorem FVoxelData.GetValue_run (W : AVoxelWorld FVoxelData) (D : FVoxelData) (P : FIntVector)
    (hData : W.Data = some D) (hP : D.IsInWorld P = true) :
    (W.GetValue FVoxelData.Ops P).Return = .ok (D.Read P).1 ∧
    (W.GetMaterial FVoxelData.Ops P).Return = .ok (D.Read P).2 := by
  have hB : FVoxelData.Ops.BeginGet D (FIntBox.ofPosition P) =
      some (D.IdsOfBox (FIntBox.ofPosition P),
        { D with Transactions :=
            ⟨D.IdsOfBox (FIntBox.ofPosition P), false, FIntBox.ofPosition P⟩ :: D.Transactions }) := by
    simp [FVoxelData.Ops, FVoxelData.BeginGet, ofPosition_valid]
  have hV : FVoxelData.Ops.GetValueAndMaterial
      { D with Transactions :=
          ⟨D.IdsOfBox (FIntBox.ofPosition P), false, FIntBox.ofPosition P⟩ :: D.Transactions } P =
      some (D.Read P) := by
    have hP2 : FVoxelData.IsInWorld { D with Transactions :=
          ⟨D.IdsOfBox (FIntBox.ofPosition P), false, FIntBox.ofPosition P⟩ :: D.Transactions } P
        = true := hP
    simp only [FVoxelData.Ops, FVoxelData.GetValueAndMaterial, hP2, List.any_cons,
      ofPosition_inside, Bool.true_or, Bool.and_self, if_true]
    rfl
  have hE : FVoxelData.Ops.EndGet
      { D with Transactions :=
          ⟨D.IdsOfBox (FIntBox.ofPosition P), false, FIntBox.ofPosition P⟩ :: D.Transactions }
      (D.IdsOfBox (FIntBox.ofPosition P)) = some D := by
    simp [FVoxelData.Ops, FVoxelData.End]
  have hI : FVoxelData.Ops.IsInWorld D P = true := hP
  constructor
  · simp [AVoxelWorld.GetValue, hData, hI, hB, hV, hE]
  · simp [AVoxelWorld.GetMaterial, hData, hI, hB, hV, hE]

theorem FVoxelData.SetValue_run (W : AVoxelWorld FVoxelData) (D : FVoxelData) (P : FIntVector)
    (V : ℚ) (hData : W.Data = some D) (hP : D.IsInWorld P = true) :
    (W.SetValue FVoxelData.Ops P V).Return = .ok () ∧
    (W.SetValue FVoxelData.Ops P V).World.Data =
      some (D.SetValueAndMaterial P V default true false) := by
  have hB : FVoxelData.Ops.BeginSet D (FIntBox.ofPosition P) =
      some (D.IdsOfBox (FIntBox.ofPosition P),
        { D with Transactions :=
            ⟨D.IdsOfBox (FIntBox.ofPosition P), true, FIntBox.ofPosition P⟩ :: D.Transactions }) := by
    simp [FVoxelData.Ops, FVoxelData.BeginSet, ofPosition_valid]
  have hV : FVoxelData.Ops.SetValue
      { D with Transactions :=
          ⟨D.IdsOfBox (FIntBox.ofPosition P), true, FIntBox.ofPosition P⟩ :: D.Transactions } P V =
      some { D.SetValueAndMaterial P V default true false with Transactions :=
          ⟨D.IdsOfBox (FIntBox.ofPosition P), true, FIntBox.ofPosition P⟩ :: D.Transactions } := by
    have hP2 : FVoxelData.IsInWorld { D with Transactions :=
          ⟨D.IdsOfBox (FIntBox.ofPosition P), true, FIntBox.ofPosition P⟩ :: D.Transactions } P
        = true := hP
    simp only [FVoxelData.Ops, FVoxelData.SetValue, hP2, List.any_cons,
      ofPosition_inside, Bool.true_or, Bool.and_self, if_true]
    rfl
  have hE : FVoxelData.Ops.EndSet
      { D.SetValueAndMaterial P V default true false with Transactions :=
          ⟨D.IdsOfBox (FIntBox.ofPosition P), true, FIntBox.ofPosition P⟩ :: D.Transactions }
      (D.IdsOfBox (FIntBox.ofPosition P)) = some (D.SetValueAndMaterial P V default true false) := by
    simp [FVoxelData.Ops, FVoxelData.End]
    rfl
  have hI : FVoxelData.Ops.IsInWorld D P = true := hP
  simp [AVoxelWorld.SetValue, hData, hI, hB, hV, hE, AVoxelWorld.SetData, AVoxelWorld.Call]

theorem FVoxelData.SetMaterial_run (W : AVoxelWorld FVoxelData) (D : FVoxelData)
    (P : FIntVector) (M : FVoxelMaterial) (hData : W.Data = some D)
    (hP : D.IsInWorld P = true) :
    (W.SetMaterial FVoxelData.Ops P M).Return = .ok () ∧
    (W.SetMaterial FVoxelData.Ops P M).World.Data =
      some (D.SetValueAndMaterial P 0 M false true) := by
  have hB : FVoxelData.Ops.BeginSet D (FIntBox.ofPosition P) =
      some (D.IdsOfBox (FIntBox.ofPosition P),
        { D with Transactions :=
            ⟨D.IdsOfBox (FIntBox.ofPosition P), true, FIntBox.ofPosition P⟩ :: D.Transactions }) := by
    simp [FVoxelData.Ops, FVoxelData.BeginSet, ofPosition_valid]
  have hV : FVoxelData.Ops.SetMaterial
      { D with Transactions :=
          ⟨D.IdsOfBox (FIntBox.ofPosition P), true, FIntBox.ofPosition P⟩ :: D.Transactions } P M =
      some { D.SetValueAndMaterial P 0 M false true with Transactions :=
          ⟨D.IdsOfBox (FIntBox.ofPosition P), true, FIntBox.ofPosition P⟩ :: D.Transactions } := by
    have hP2 : FVoxelData.IsInWorld { D with Transactions :=
          ⟨D.IdsOfBox (FIntBox.ofPosition P), true, FIntBox.ofPosition P⟩ :: D.Transactions } P
        = true := hP
    simp only [FVoxelData.Ops, FVoxelData.SetMaterial, hP2, List.any_cons,
      ofPosition_inside, Bool.true_or, Bool.and_self, if_true]
    rfl
  have hE : FVoxelData.Ops.EndSet
      { D.SetValueAndMaterial P 0 M false true with Transactions :=
          ⟨D.IdsOfBox (FIntBox.ofPosition P), true, FIntBox.ofPosition P⟩ :: D.Transactions }
      (D.IdsOfBox (FIntBox.ofPosition P)) = some (D.SetValueAndMaterial P 0 M false true) := by
    simp [FVoxelData.Ops, FVoxelData.End]
    rfl
  have hI : FVoxelData.Ops.IsInWorld D P = true := hP
  simp [AVoxelWorld.SetMaterial, hData, hI, hB, hV, hE, AVoxelWorld.SetData, AVoxelWorld.Call]

/-- C2. Read-after-write on the store modelled from the specification: for every
in-world position `P`, `SetValue(P, V)` returns and a following `GetValue(P)`
returns `V`; `SetMaterial(P, M)` returns and a following `GetMaterial(P)`
returns `M`. -/
theorem SetValue_then_GetValue (W : AVoxelWorld FVoxelData) (D : FVoxelData) (P : FIntVector)
    (V : ℚ) (M : FVoxelMaterial) (hData : W.Data = some D) (hP : D.IsInWorld P = true) :
    (W.SetValue FVoxelData.Ops P V).Return = .ok () ∧
    ((W.SetValue FVoxelData.Ops P V).World.GetValue FVoxelData.Ops P).Return = .ok V ∧
    (W.SetMaterial FVoxelData.Ops P M).Return = .ok () ∧
    ((W.SetMaterial FVoxelData.Ops P M).World.GetMaterial FVoxelData.Ops P).Return = .ok M := by
  obtain ⟨h1, h2⟩ := FVoxelData.SetValue_run W D P V hData hP
  obtain ⟨h3, h4⟩ := FVoxelData.SetMaterial_run W D P M hData hP
  refine ⟨h1, ?_, h3, ?_⟩
  · rw [(FVoxelData.GetValue_run _ _ P h2 hP).1, FVoxelData.Read_SetValue]
  · rw [(FVoxelData.GetValue_run _ _ P h4 hP).2, FVoxelData.Read_SetMaterial]

/-- C1 (amended). For every position that `IsInWorld` rejects, `GetValue` logs an
error and returns `0`, `GetMaterial` logs an error and returns the default
material; the only call made on the store is `IsInWorld`: no transaction is
opened and nothing is read. -/
theorem GetValue_not_in_world {σ : Type} (Ops : FVoxelDataOps σ) (W : AVoxelWorld σ) (D : σ)
    (Position : FIntVector) (hData : W.Data = some D)
    (hOut : Ops.IsInWorld D Position = false) :
    W.GetValue Ops Position =
      ⟨.ok 0,
        (W.Call (.IsInWorld Position)).LogError "Get value: Not in world: (%d, %d, %d)"⟩ ∧
    W.GetMaterial Ops Position =
      ⟨.ok ⟨0, 0, 0⟩,
        (W.Call (.IsInWorld Position)).LogError "Get material: Not in world: (%d, %d, %d)"⟩ := by
  constructor
  · simp [AVoxelWorld.GetValue, hData, hOut]
  · simp [AVoxelWorld.GetMaterial, hData, hOut]
    rfl

/-- C3. A save whose LOD differs from the LOD of the world is rejected wholesale,
whatever `bReset` is: `LoadFromSave` only logs the error, so the load routine of
the store is not called, the store and the renderer are as before, and no call
at all (in particular no `UpdateBox`) is made. -/
theorem LoadFromSave_LOD_mismatch {σ : Type} (Ops : FVoxelDataOps σ) (W : AVoxelWorld σ)
    (Save : FVoxelWorldSave) (bReset : Bool) (hLOD : Save.LOD ≠ W.LOD) :
    W.LoadFromSave Ops Save bReset =
      ⟨.ok (), W.LogError "LoadFromSave: Current Depth is %d while Save one is %d"⟩ ∧
    (W.LoadFromSave Ops Save bReset).World.Data = W.Data ∧
    (W.LoadFromSave Ops Save bReset).World.Render = W.Render ∧
    NewCalls W (W.LoadFromSave Ops Save bReset) = [] := by
  simp [AVoxelWorld.LoadFromSave, hLOD, AVoxelWorld.LogError, NewCalls]

/-- C8. Every voxel access made by `GetValue`, `GetMaterial`, `SetValue`,
`SetMaterial` and `GetIntersection` happens under a covering transaction of the
right kind: in the calls each of them makes, every read lies in the box of the
Get transaction open at that moment and every write in the box of the open Set
transaction (boxes with `Min` inclusive and `Max` exclusive). -/
theorem accesses_under_covering_transaction {σ : Type} (Ops : FVoxelDataOps σ)
    (HaveSameSign : ℚ → ℚ → Bool) (W : AVoxelWorld σ) (Position Start End : FIntVector)
    (Value : ℚ) (Material : FVoxelMaterial) :
    Covered none (NewCalls W (W.GetValue Ops Position)) = true ∧
    Covered none (NewCalls W (W.GetMaterial Ops Position)) = true ∧
    Covered none (NewCalls W (W.SetValue Ops Position Value)) = true ∧
    Covered none (NewCalls W (W.SetMaterial Ops Position Material)) = true ∧
    Covered none (NewCalls W (W.GetIntersection Ops HaveSameSign Start End)) = true :=
  ⟨GetValue_covered Ops W Position, GetMaterial_covered Ops W Position,
    SetValue_covered Ops W Position Value, SetMaterial_covered Ops W Position Material,
    GetIntersection_covered Ops HaveSameSign W Start End⟩

/-! ## Writes out of the world -/

/-- C12. For every position that `IsInWorld` rejects, `SetValue` and `SetMaterial`
give the operation up with nothing changed: each returns after logging an
error, the store behind `Data` is the one before the call, and the only call
made on the store is `IsInWorld` at the position asked: no `BeginSet` (no
transaction is opened) and no `SetValue` or `SetMaterial` at this or at any other
(clamped) position. -/
theorem SetValue_not_in_world {σ : Type} (Ops : FVoxelDataOps σ) (W : AVoxelWorld σ) (D : σ)
    (Position : FIntVector) (Value : ℚ) (Material : FVoxelMaterial)
    (hData : W.Data = some D) (hOut : Ops.IsInWorld D Position = false) :
    (W.SetValue Ops Position Value =
        ⟨.ok (),
          (W.Call (.IsInWorld Position)).LogError "Get material: Not in world: (%d, %d, %d)"⟩ ∧
      (W.SetValue Ops Position Value).World.Data = some D ∧
      NewCalls W (W.SetValue Ops Position Value) = [.IsInWorld Position]) ∧
    (W.SetMaterial Ops Position Material =
        ⟨.ok (),
          (W.Call (.IsInWorld Position)).LogError "Set material: Not in world: (%d, %d, %d)"⟩ ∧
      (W.SetMaterial Ops Position Material).World.Data = some D ∧
      NewCalls W (W.SetMaterial Ops Position Material) = [.IsInWorld Position]) := by
  have h1 : W.SetValue Ops Position Value =
      ⟨.ok (),
        (W.Call (.IsInWorld Position)).LogError "Get material: Not in world: (%d, %d, %d)"⟩ := by
    simp [AVoxelWorld.SetValue, hData, hOut]
  have h2 : W.SetMaterial Ops Position Material =
      ⟨.ok (),
        (W.Call (.IsInWorld Position)).LogError "Set material: Not in world: (%d, %d, %d)"⟩ := by
    simp [AVoxelWorld.SetMaterial, hData, hOut]
  refine ⟨⟨h1, ?_, ?_⟩, ⟨h2, ?_, ?_⟩⟩
  · rw [h1]; simpa [AVoxelWorld.Call, AVoxelWorld.LogError] using hData
  · rw [h1]; simp [NewCalls, AVoxelWorld.Call, AVoxelWorld.LogError]
  · rw [h2]; simpa [AVoxelWorld.Call, AVoxelWorld.LogError] using hData
  · rw [h2]; simp [NewCalls, AVoxelWorld.Call, AVoxelWorld.LogError]

/-! ## Replacing the world generator -/

/-- C14. On a created world and for a non-null `NewGenerator`,
`AVoxelWorld::SetWorldGenerator` makes two calls on the store, in this order:
`SetWorldGenerator` with the instance of the new generator, then
`DiscardValuesByPredicate` with the predicate that answers DISCARD (`-1`) for
every box. The store it leaves is the one the second call returns on the result
of the first, and the instance of the new generator is the one the actor keeps. -/
theorem SetWorldGenerator_replaces_then_discards_everything {σ : Type} (Ops : FVoxelDataOps σ)
    (W : AVoxelWorld σ) (NewGenerator : UVoxelWorldGenerator) (D D1 D2 : σ)
    (hCreated : W.bIsCreated = true) (hData : W.Data = some D)
    (hSet : Ops.SetWorldGenerator D NewGenerator.GetWorldGenerator = some D1)
    (hDiscard : Ops.DiscardValuesByPredicate D1 (fun _ => -1) = some D2) :
    (W.SetWorldGenerator Ops (some NewGenerator)).Return = .ok () ∧
    (W.SetWorldGenerator Ops (some NewGenerator)).World.Data = some D2 ∧
    (W.SetWorldGenerator Ops (some NewGenerator)).World.InstancedWorldGenerator =
      some NewGenerator.GetWorldGenerator ∧
    NewCalls W (W.SetWorldGenerator Ops (some NewGenerator)) =
      [.SetWorldGenerator, .DiscardValuesByPredicate] := by
  simp [AVoxelWorld.SetWorldGenerator, hCreated, hData, hSet, hDiscard, NewCalls,
    AVoxelWorld.Call, AVoxelWorld.SetData]

/-- C16. On the modelled store, in a world whose store holds no dirty chunk
(freshly created, never written), `AVoxelWorld::GetValue` at a position of the
world returns the value the active world generator of the store evaluates at
that position. -/
theorem GetValue_unmodified_world (W : AVoxelWorld FVoxelData) (D : FVoxelData)
    (Position : FIntVector) (hData : W.Data = some D) (hFresh : D.DirtyChunks = [])
    (hIn : D.IsInWorld Position = true) :
    (W.GetValue FVoxelData.Ops Position).Return = .ok (D.WorldGenerator Position).1 := by
  rw [(FVoxelData.GetValue_run W D Position hData hIn).1]
  simp [FVoxelData.Read, FVoxelData.DirtyLeaf, hFresh]

/-! ## The crossing point of `GetIntersection` -/
theorem IntRange_head (Lo Hi : Int) (h : Lo < Hi) : ∃ T, IntRange Lo Hi = Lo :: T := by
  have hN : (Hi - Lo).toNat = ((Hi - Lo).toNat - 1) + 1 := by omega
  simp only [IntRange]
  rw [hN, List.range_succ_eq_map, List.map_cons]
  exact ⟨_, congrArg₂ List.cons (by simp) rfl⟩

theorem LatticePoints_head (Lo Hi : FIntVector) (hX : Lo.X < Hi.X) (hY : Lo.Y < Hi.Y)
    (hZ : Lo.Z < Hi.Z) : ∃ T, LatticePoints Lo Hi = Lo :: T := by
  obtain ⟨TX, hTX⟩ := IntRange_head Lo.X Hi.X hX
  obtain ⟨TY, hTY⟩ := IntRange_head Lo.Y Hi.Y hY
  obtain ⟨TZ, hTZ⟩ := IntRange_head Lo.Z Hi.Z hZ
  simp only [LatticePoints, hTX, hTY, hTZ, List.flatMap_cons, List.map_cons, List.cons_append]
  exact ⟨_, rfl⟩

theorem FVector_add_comm (A B : FVector) : A + B = B + A := by
  show FVector.mk _ _ _ = FVector.mk _ _ _
  rw [add_comm A.X, add_comm A.Y, add_comm A.Z]

theorem crossing_fraction_bounds (A B : ℚ) (hAB : A * B ≤ 0) (hNe : A - B ≠ 0) :
    0 ≤ A / (A - B) ∧ A / (A - B) ≤ 1 := by
  rcases lt_or_gt_of_ne hNe with h | h
  · -- A - B < 0
    have hA : A ≤ 0 := by
      by_contra hA
      push_neg at hA
      have : 0 < B := by linarith
      have := mul_pos hA this
      linarith
    have hB : 0 ≤ B := by
      by_contra hB
      push_neg at hB
      rcases eq_or_lt_of_le hA with h0 | h0
      · subst h0; linarith
      · have := mul_pos_of_neg_of_neg h0 hB
        linarith
    constructor
    · exact div_nonneg_of_nonpos hA h.le
    · rw [div_le_one_of_neg h]; linarith
  · have hA : 0 ≤ A := by
      by_contra hA
      push_neg at hA
      have hB : B < 0 := by linarith
      have := mul_pos_of_neg_of_neg hA hB
      linarith
    have hB : B ≤ 0 := by
      by_contra hB
      push_neg at hB
      have : 0 < A := by linarith
      have := mul_pos this hB
      linarith
    constructor
    · exact div_nonneg hA h.le
    · rw [div_le_one h]; linarith

section Interpolation
variable {σ : Type} (Ops : FVoxelDataOps σ) (HaveSameSign : ℚ → ℚ → Bool) (D : σ)

theorem Scan_interpolation (S : FIntersectionScan σ) (Ps : List FIntVector)
    (hE : S.Exit = none) (hF : S.bFound = false)
    (hOld : Ops.GetValue D S.OldPosition = some S.OldValue)
    (hFound : (AVoxelWorld.GetIntersection.Scan Ops HaveSameSign D S Ps).bFound = true) :
    ∃ (Pre Post : List FIntVector) (P0 P1 : FIntVector) (V0 V1 : ℚ),
      S.OldPosition :: Ps = Pre ++ P0 :: P1 :: Post ∧
      Ops.GetValue D P0 = some V0 ∧ Ops.GetValue D P1 = some V1 ∧
      HaveSameSign V0 V1 = false ∧ V0 - V1 ≠ 0 ∧
      (AVoxelWorld.GetIntersection.Scan Ops HaveSameSign D S Ps).OutVoxelPosition = some P1 ∧
      (AVoxelWorld.GetIntersection.Scan Ops HaveSameSign D S Ps).OutGlobalPosition =
        some (S.World.LocalToGlobalFloat
          ((V0 / (V0 - V1)) * P1.toFVector + (1 - V0 / (V0 - V1)) * P0.toFVector)) := by
  induction Ps generalizing S with
  | nil => simp [AVoxelWorld.GetIntersection.Scan, hF] at hFound
  | cons P Ps ih =>
    have hP : (⟨P.X, P.Y, P.Z⟩ : FIntVector) = P := rfl
    simp only [AVoxelWorld.GetIntersection.Scan] at hFound ⊢
    by_cases hIn : Ops.IsInWorld D P = true
    · cases hV : Ops.GetValue D P with
      | none =>
        have hB : AVoxelWorld.GetIntersection.Body Ops HaveSameSign D S P.X P.Y P.Z =
            { S with World := (S.World.Call (.IsInWorld P)).Call (.GetValue P),
                     Exit := some (.error .DataFault) } := by
          simp [AVoxelWorld.GetIntersection.Body, hP, hIn, hV]
        simp [hB, hF] at hFound
      | some Value =>
        by_cases hSign : HaveSameSign S.OldValue Value = true
        · have hB : AVoxelWorld.GetIntersection.Body Ops HaveSameSign D S P.X P.Y P.Z =
              { S with
                World := (S.World.Call (.IsInWorld P)).Call (.GetValue P)
                OldValue := Value
                OldPosition := P } := by
            simp [AVoxelWorld.GetIntersection.Body, hP, hIn, hV, hSign]
          simp only [hB, hE, hF, Option.isSome_none, Bool.or_self, Bool.false_eq_true,
            if_false] at hFound ⊢
          obtain ⟨Pre, Post, P0, P1, V0, V1, hL, h0, h1, hS, hNe, hO, hG⟩ :=
            ih ⟨_, Value, P, false, _, _, none⟩ rfl rfl hV hFound
          refine ⟨S.OldPosition :: Pre, Post, P0, P1, V0, V1, ?_, h0, h1, hS, hNe, hO, ?_⟩
          · rw [List.cons_append, ← hL]
          · rw [hG]
            simp [AVoxelWorld.Call, AVoxelWorld.LocalToGlobalFloat]
        · have hSign2 : HaveSameSign S.OldValue Value = false := by simpa using hSign
          by_cases hZero : S.OldValue - Value = 0
          · have hB : AVoxelWorld.GetIntersection.Body Ops HaveSameSign D S P.X P.Y P.Z =
                { S with World := (S.World.Call (.IsInWorld P)).Call (.GetValue P),
                         Exit := some (.error .CheckFailed) } := by
              simp [AVoxelWorld.GetIntersection.Body, hP, hIn, hV, hSign2, hZero]
            simp [hB, hF] at hFound
          · have hB : AVoxelWorld.GetIntersection.Body Ops HaveSameSign D S P.X P.Y P.Z =
                { S with
                  World := (S.World.Call (.IsInWorld P)).Call (.GetValue P)
                  OutGlobalPosition :=
                    some (((S.World.Call (.IsInWorld P)).Call (.GetValue P)).LocalToGlobalFloat
                      ((S.OldValue / (S.OldValue - Value)) * P.toFVector +
                        (1 - S.OldValue / (S.OldValue - Value)) * S.OldPosition.toFVector))
                  OutVoxelPosition := some P
                  bFound := true
                  OldValue := Value
                  OldPosition := P } := by
              simp [AVoxelWorld.GetIntersection.Body, hP, hIn, hV, hSign2, hZero]
            refine ⟨[], Ps, S.OldPosition, P, S.OldValue, Value, rfl, hOld, hV, hSign2, hZero, ?_, ?_⟩
            · simp [hB]
            · simp [hB, AVoxelWorld.Call, AVoxelWorld.LocalToGlobalFloat]
    · have hB : AVoxelWorld.GetIntersection.Body Ops HaveSameSign D S P.X P.Y P.Z =
          { S with World := (S.World.Call (.IsInWorld P)).LogError "GetIntersection: Out of world!",
                   Exit := some (.ok false) } := by
        simp [AVoxelWorld.GetIntersection.Body, hP, hIn]
      simp [hB, hF] at hFound

theorem Scan_exit_ok (S : FIntersectionScan σ) (Ps : List FIntVector) (B : Bool)
    (hE : S.Exit = none)
    (hExit : (AVoxelWorld.GetIntersection.Scan Ops HaveSameSign D S Ps).Exit = some (.ok B)) :
    B = false := by
  induction Ps generalizing S with
  | nil => simp [AVoxelWorld.GetIntersection.Scan, hE] at hExit
  | cons P Ps ih =>
    simp only [AVoxelWorld.GetIntersection.Scan] at hExit
    have hBody : (AVoxelWorld.GetIntersection.Body Ops HaveSameSign D S P.X P.Y P.Z).Exit = none ∨
        (AVoxelWorld.GetIntersection.Body Ops HaveSameSign D S P.X P.Y P.Z).Exit =
          some (.ok false) ∨
        ∃ F, (AVoxelWorld.GetIntersection.Body Ops HaveSameSign D S P.X P.Y P.Z).Exit =
          some (.error F) := by
      unfold AVoxelWorld.GetIntersection.Body
      by_cases hIn : Ops.IsInWorld D ⟨P.X, P.Y, P.Z⟩ = true
      · cases hV : Ops.GetValue D ⟨P.X, P.Y, P.Z⟩ with
        | none => simp [hIn, hV]
        | some Value =>
          simp only [hIn, hV, Bool.not_true, Bool.false_eq_true, if_false]
          split_ifs <;> simp [hE]
      · simp [hIn]
    split_ifs at hExit with hStop
    · rcases hBody with h | h | ⟨F, h⟩
      · rw [h] at hExit; simp at hExit
      · rw [h] at hExit
        simpa using hExit.symm
      · rw [h] at hExit; simp at hExit
    · have hN : (AVoxelWorld.GetIntersection.Body Ops HaveSameSign D S P.X P.Y P.Z).Exit = none := by
        cases hX : (AVoxelWorld.GetIntersection.Body Ops HaveSameSign D S P.X P.Y P.Z).Exit with
        | none => rfl
        | some E => simp [hX] at hStop
      exact ih _ hN hExit

end Interpolation

theorem FVoxelUtilities.HaveSameSign_false (A B : ℚ)
    (h : FVoxelUtilities.HaveSameSign A B = false) : A * B ≤ 0 := by
  simp only [FVoxelUtilities.HaveSameSign] at h
  by_cases hA : 0 ≤ A
  · by_cases hB : 0 ≤ B
    · simp [hA, hB] at h
    · exact mul_nonpos_of_nonneg_of_nonpos hA (le_of_lt (not_le.1 hB))
  · by_cases hB : 0 ≤ B
    · exact mul_nonpos_of_nonpos_of_nonneg (le_of_lt (not_le.1 hA)) hB
    · simp [hA, hB] at h

/-- C20. Let `HaveSameSign` report a sign change only between two values on
opposite sides of zero (`A * B ≤ 0`; the function itself is outside the sources).
When `GetIntersection` returns `true`, there are two consecutive points `P0`, `P1`
of the scan, with values `V0`, `V1` read from the store, between which the sign
changes; `V0 - V1` is not zero, the fraction `t = V0 / (V0 - V1)` satisfies
`0 ≤ t ≤ 1`, `OutVoxelPosition` is `P1`, and `OutGlobalPosition` is
`LocalToGlobalFloat((1 - t) * P0 + t * P1)`, a convex combination of `P0` and `P1`
(exact arithmetic). -/
theorem GetIntersection_interpolation {σ : Type} (Ops : FVoxelDataOps σ)
    (HaveSameSign : ℚ → ℚ → Bool) (W : AVoxelWorld σ) (Start End : FIntVector)
    (Result : FIntersection)
    (hSign : ∀ A B : ℚ, HaveSameSign A B = false → A * B ≤ 0)
    (hReturn : (W.GetIntersection Ops HaveSameSign Start End).Return = .ok Result)
    (hFound : Result.bFound = true) :
    ∃ (D D1 : σ) (Octrees : FOctreeIds) (Pre Post : List FIntVector) (P0 P1 : FIntVector)
        (V0 V1 : ℚ),
      W.Data = some D ∧
      Ops.BeginGet D ⟨AVoxelWorld.GetIntersection.RealStart Start End,
        AVoxelWorld.GetIntersection.RealEnd Start End⟩ = some (Octrees, D1) ∧
      LatticePoints (AVoxelWorld.GetIntersection.RealStart Start End)
        (AVoxelWorld.GetIntersection.RealEnd Start End) = Pre ++ P0 :: P1 :: Post ∧
      Ops.GetValue D1 P0 = some V0 ∧ Ops.GetValue D1 P1 = some V1 ∧
      HaveSameSign V0 V1 = false ∧ V0 - V1 ≠ 0 ∧
      0 ≤ V0 / (V0 - V1) ∧ V0 / (V0 - V1) ≤ 1 ∧
      Result.OutVoxelPosition = some P1 ∧
      Result.OutGlobalPosition =
        some (W.LocalToGlobalFloat
          ((1 - V0 / (V0 - V1)) * P0.toFVector + (V0 / (V0 - V1)) * P1.toFVector)) := by
  by_cases hRej : AVoxelWorld.GetIntersection.Rejects (End - Start) = true
  · simp [AVoxelWorld.GetIntersection, hRej] at hReturn
    rw [← hReturn] at hFound
    simp at hFound
  have hRej2 : AVoxelWorld.GetIntersection.Rejects (End - Start) = false := by simpa using hRej
  cases hData : W.Data with
  | none => simp [AVoxelWorld.GetIntersection, hRej2, hData] at hReturn
  | some D =>
    cases hBegin : Ops.BeginGet D ⟨AVoxelWorld.GetIntersection.RealStart Start End,
        AVoxelWorld.GetIntersection.RealEnd Start End⟩ with
    | none =>
      simp only [AVoxelWorld.GetIntersection.RealStart, AVoxelWorld.GetIntersection.RealEnd]
        at hBegin
      simp [AVoxelWorld.GetIntersection, hRej2, hData, hBegin] at hReturn
    | some OD =>
      obtain ⟨Octrees, D1⟩ := OD
      cases hOld : Ops.GetValue D1 (AVoxelWorld.GetIntersection.RealStart Start End) with
      | none =>
        simp only [AVoxelWorld.GetIntersection.RealStart, AVoxelWorld.GetIntersection.RealEnd]
          at hBegin hOld
        simp [AVoxelWorld.GetIntersection, hRej2, hData, hBegin, hOld] at hReturn
      | some OldValue =>
        rw [GetIntersection_eq_Scan Ops HaveSameSign D W Start End Octrees D1 OldValue hRej2 hData
          hBegin hOld] at hReturn
        have hInterp := Scan_interpolation Ops HaveSameSign D1
          (AVoxelWorld.GetIntersection.Enter
            (((W.SetData D1).Call (.BeginGet ⟨AVoxelWorld.GetIntersection.RealStart Start End,
              AVoxelWorld.GetIntersection.RealEnd Start End⟩ (some Octrees))).Call
              (.GetValue (AVoxelWorld.GetIntersection.RealStart Start End)))
            OldValue (AVoxelWorld.GetIntersection.RealStart Start End))
          (LatticePoints (AVoxelWorld.GetIntersection.RealStart Start End)
            (AVoxelWorld.GetIntersection.RealEnd Start End)) rfl rfl hOld
        have hExitOk := Scan_exit_ok Ops HaveSameSign D1
          (AVoxelWorld.GetIntersection.Enter
            (((W.SetData D1).Call (.BeginGet ⟨AVoxelWorld.GetIntersection.RealStart Start End,
              AVoxelWorld.GetIntersection.RealEnd Start End⟩ (some Octrees))).Call
              (.GetValue (AVoxelWorld.GetIntersection.RealStart Start End)))
            OldValue (AVoxelWorld.GetIntersection.RealStart Start End))
          (LatticePoints (AVoxelWorld.GetIntersection.RealStart Start End)
            (AVoxelWorld.GetIntersection.RealEnd Start End))
        generalize AVoxelWorld.GetIntersection.Scan Ops HaveSameSign D1
          (AVoxelWorld.GetIntersection.Enter
            (((W.SetData D1).Call (.BeginGet ⟨AVoxelWorld.GetIntersection.RealStart Start End,
              AVoxelWorld.GetIntersection.RealEnd Start End⟩ (some Octrees))).Call
              (.GetValue (AVoxelWorld.GetIntersection.RealStart Start End)))
            OldValue (AVoxelWorld.GetIntersection.RealStart Start End))
          (LatticePoints (AVoxelWorld.GetIntersection.RealStart Start End)
            (AVoxelWorld.GetIntersection.RealEnd Start End)) = S at hReturn hInterp hExitOk
        have hS : S.bFound = true ∧ Result.OutVoxelPosition = S.OutVoxelPosition ∧
            Result.OutGlobalPosition = S.OutGlobalPosition := by
          cases hX : S.Exit with
          | some E =>
            cases E with
            | error F => simp [hX] at hReturn
            | ok B =>
              have hB := hExitOk B rfl hX
              subst hB
              simp [hX] at hReturn
              rw [← hReturn] at hFound
              simp at hFound
          | none =>
            cases hEnd : Ops.EndGet D1 Octrees with
            | none => simp [hX, hEnd] at hReturn
            | some D2 =>
              simp [hX, hEnd] at hReturn
              rw [← hReturn] at hFound ⊢
              exact ⟨hFound, rfl, rfl⟩
        obtain ⟨Pre, Post, P0, P1, V0, V1, hL, h0, h1, hSg, hNe, hO, hG⟩ := hInterp hS.1
        have hT := crossing_fraction_bounds V0 V1 (hSign V0 V1 hSg) hNe
        have hOut : Result.OutGlobalPosition =
            some (W.LocalToGlobalFloat
              ((1 - V0 / (V0 - V1)) * P0.toFVector + (V0 / (V0 - V1)) * P1.toFVector)) := by
          rw [hS.2.2, hG, FVector_add_comm]
          rfl
        cases Pre with
        | nil =>
          exfalso
          obtain ⟨T, hT2⟩ := LatticePoints_head (AVoxelWorld.GetIntersection.RealStart Start End)
            (AVoxelWorld.GetIntersection.RealEnd Start End)
            (by simp only [AVoxelWorld.GetIntersection.RealStart,
                  AVoxelWorld.GetIntersection.RealEnd]; omega)
            (by simp only [AVoxelWorld.GetIntersection.RealStart,
                  AVoxelWorld.GetIntersection.RealEnd]; omega)
            (by simp only [AVoxelWorld.GetIntersection.RealStart,
                  AVoxelWorld.GetIntersection.RealEnd]; omega)
          rw [hT2] at hL
          simp only [AVoxelWorld.GetIntersection.Enter, List.nil_append, List.cons.injEq] at hL
          obtain ⟨hA, hB, -⟩ := hL
          rw [← hA] at h0
          rw [← hB] at h1
          rw [h0] at h1
          exact hNe (by rw [Option.some.inj h1]; ring)
        | cons Q Pre2 =>
          simp only [AVoxelWorld.GetIntersection.Enter, List.cons_append, List.cons.injEq] at hL
          exact ⟨D, D1, Octrees, Pre2, Post, P0, P1, V0, V1, rfl, hBegin, hL.2, h0, h1, hSg,
            hNe, hT.1, hT.2, by rw [hS.2.1, hO], hOut⟩

/-! ## Diff queues applied twice -/

theorem FVoxelData.LoadDiff_eq (D : FVoxelData) (E : FVoxelValueDiff ⊕ FVoxelMaterialDiff) :
    D.LoadDiff E =
      match D.ChunkOfId (FVoxelDiffId E) with
      | some Chunk => D.UpdateLeaf Chunk (fun Leaf => Leaf.LoadDiff E)
      | none => D := by
  cases E <;> rfl

theorem FValueOctree.LoadDiff_agree (E1 E2 : FVoxelValueDiff ⊕ FVoxelMaterialDiff)
    (A B : FValueOctree) (h : A.LoadDiff E1 = B.LoadDiff E1) :
    (A.LoadDiff E2).LoadDiff E1 = (B.LoadDiff E2).LoadDiff E1 := by
  obtain ⟨AV, AM, ADV, ADM, AN⟩ := A
  obtain ⟨BV, BM, BDV, BDM, BN⟩ := B
  cases E1 with
  | inl D1 =>
    cases E2 with
    | inl D2 =>
      simp only [FValueOctree.LoadDiff, FValueOctree.LoadValueDiff, FValueOctree.mk.injEq] at h ⊢
      obtain ⟨hV, hM, hDV, hDM, hN⟩ := h
      refine ⟨?_, hM, hDV, hDM, hN⟩
      funext I
      have := congrFun hV I
      by_cases h1 : I = D1.Index
      · simp [h1]
      · simp only [h1, if_false] at this ⊢
        rw [this]
    | inr D2 =>
      simp only [FValueOctree.LoadDiff, FValueOctree.LoadValueDiff,
        FValueOctree.LoadMaterialDiff, FValueOctree.mk.injEq] at h ⊢
      obtain ⟨hV, hM, hDV, hDM, hN⟩ := h
      exact ⟨hV, by rw [hM], hDV, hDM, hN⟩
  | inr D1 =>
    cases E2 with
    | inl D2 =>
      simp only [FValueOctree.LoadDiff, FValueOctree.LoadValueDiff,
        FValueOctree.LoadMaterialDiff, FValueOctree.mk.injEq] at h ⊢
      obtain ⟨hV, hM, hDV, hDM, hN⟩ := h
      exact ⟨by rw [hV], hM, hDV, hDM, hN⟩
    | inr D2 =>
      simp only [FValueOctree.LoadDiff, FValueOctree.LoadMaterialDiff,
        FValueOctree.mk.injEq] at h ⊢
      obtain ⟨hV, hM, hDV, hDM, hN⟩ := h
      refine ⟨hV, ?_, hDV, hDM, hN⟩
      funext I
      have := congrFun hM I
      by_cases h1 : I = D1.Index
      · simp [h1]
      · simp only [h1, if_false] at this ⊢
        rw [this]

theorem FValueOctree.LoadDiff_idem (E : FVoxelValueDiff ⊕ FVoxelMaterialDiff)
    (A : FValueOctree) : (A.LoadDiff E).LoadDiff E = A.LoadDiff E := by
  obtain ⟨AV, AM, ADV, ADM, AN⟩ := A
  cases E with
  | inl D1 =>
    simp only [FValueOctree.LoadDiff, FValueOctree.LoadValueDiff, FValueOctree.mk.injEq,
      and_true]
    funext I
    by_cases h1 : I = D1.Index <;> simp [h1]
  | inr D1 =>
    simp only [FValueOctree.LoadDiff, FValueOctree.LoadMaterialDiff, FValueOctree.mk.injEq,
      and_true, true_and]
    funext I
    by_cases h1 : I = D1.Index <;> simp [h1]

theorem find?_filter_ne {α : Type} (L : List (FIntVector × α)) (K K2 : FIntVector)
    (h : K2 ≠ K) :
    (L.filter (fun E => decide (E.1 ≠ K))).find? (fun E => decide (E.1 = K2)) =
      L.find? (fun E => decide (E.1 = K2)) := by
  rw [List.find?_filter]
  congr 1
  funext E
  by_cases h2 : E.1 = K2
  · have h1 : ¬ E.1 = K := fun h3 => h (h2 ▸ h3)
    simp [h1, h2, h]
  · simp [h2]


theorem LoadDiff_absorb_step (D : FVoxelData) (L1 : List (FIntVector × FValueOctree))
    (K : FIntVector) (X E : FVoxelValueDiff ⊕ FVoxelMaterialDiff)
    (hF : L1.filter (fun E => decide (E.1 ≠ K)) =
      D.DirtyChunks.filter (fun E => decide (E.1 ≠ K)))
    (hL : ((FVoxelData.DirtyLeaf { D with DirtyChunks := L1 } K).getD
        (D.SetAsDirtyAndSetDefaultValues K)).LoadDiff X =
      ((D.DirtyLeaf K).getD (D.SetAsDirtyAndSetDefaultValues K)).LoadDiff X) :
    ∃ L2, FVoxelData.LoadDiff { D with DirtyChunks := L1 } E =
        { D.LoadDiff E with DirtyChunks := L2 } ∧
      L2.filter (fun E => decide (E.1 ≠ K)) =
        (D.LoadDiff E).DirtyChunks.filter (fun E => decide (E.1 ≠ K)) ∧
      ((FVoxelData.DirtyLeaf { D.LoadDiff E with DirtyChunks := L2 } K).getD
          ((D.LoadDiff E).SetAsDirtyAndSetDefaultValues K)).LoadDiff X =
        (((D.LoadDiff E).DirtyLeaf K).getD
          ((D.LoadDiff E).SetAsDirtyAndSetDefaultValues K)).LoadDiff X := by
  rw [FVoxelData.LoadDiff_eq, FVoxelData.LoadDiff_eq]
  have hId : FVoxelData.ChunkOfId { D with DirtyChunks := L1 } (FVoxelDiffId E) =
      D.ChunkOfId (FVoxelDiffId E) := rfl
  rw [hId]
  cases hK : D.ChunkOfId (FVoxelDiffId E) with
  | none => exact ⟨L1, rfl, hF, hL⟩
  | some K2 =>
    simp only [FVoxelData.UpdateLeaf, FVoxelData.DirtyLeaf,
      FVoxelData.SetAsDirtyAndSetDefaultValues] at hL ⊢
    refine ⟨_, rfl, ?_, ?_⟩
    · by_cases hKK : K2 = K
      · subst hKK
        simp only [List.filter_cons, ne_eq, not_true_eq_false, decide_False,
          Bool.false_eq_true, if_false, List.filter_filter, Bool.and_self]
        exact hF
      · simp only [List.filter_cons, ne_eq, hKK, not_false_eq_true, decide_True, if_true]
        rw [List.filter_comm
            (fun E : FIntVector × FValueOctree => decide (E.1 ≠ K)), hF, List.filter_comm,
          ← find?_filter_ne L1 K K2 hKK, ← find?_filter_ne D.DirtyChunks K K2 hKK, hF]
        rfl
    · by_cases hKK : K2 = K
      · subst hKK
        simp only [List.find?_cons, decide_True, Option.map_some', Option.getD_some]
        exact FValueOctree.LoadDiff_agree X E _ _ hL
      · have hKK2 : ¬ K = K2 := fun h => hKK h.symm
        simp only [List.find?_cons, hKK, decide_False]
        rw [find?_filter_ne L1 K2 K hKK2, find?_filter_ne D.DirtyChunks K2 K hKK2]
        exact hL


theorem LoadDiff_absorb_foldl (Y : List (FVoxelValueDiff ⊕ FVoxelMaterialDiff))
    (D : FVoxelData) (L1 : List (FIntVector × FValueOctree))
    (K : FIntVector) (X : FVoxelValueDiff ⊕ FVoxelMaterialDiff)
    (hF : L1.filter (fun E => decide (E.1 ≠ K)) =
      D.DirtyChunks.filter (fun E => decide (E.1 ≠ K)))
    (hL : ((FVoxelData.DirtyLeaf { D with DirtyChunks := L1 } K).getD
        (D.SetAsDirtyAndSetDefaultValues K)).LoadDiff X =
      ((D.DirtyLeaf K).getD (D.SetAsDirtyAndSetDefaultValues K)).LoadDiff X) :
    ∃ L2, Y.foldl FVoxelData.LoadDiff { D with DirtyChunks := L1 } =
        { Y.foldl FVoxelData.LoadDiff D with DirtyChunks := L2 } ∧
      L2.filter (fun E => decide (E.1 ≠ K)) =
        (Y.foldl FVoxelData.LoadDiff D).DirtyChunks.filter (fun E => decide (E.1 ≠ K)) ∧
      ((FVoxelData.DirtyLeaf { Y.foldl FVoxelData.LoadDiff D with DirtyChunks := L2 } K).getD
          ((Y.foldl FVoxelData.LoadDiff D).SetAsDirtyAndSetDefaultValues K)).LoadDiff X =
        (((Y.foldl FVoxelData.LoadDiff D).DirtyLeaf K).getD
          ((Y.foldl FVoxelData.LoadDiff D).SetAsDirtyAndSetDefaultValues K)).LoadDiff X := by
  induction Y generalizing D L1 with
  | nil => exact ⟨L1, rfl, hF, hL⟩
  | cons E Y ih =>
    obtain ⟨L2, h1, h2, h3⟩ := LoadDiff_absorb_step D L1 K X E hF hL
    simp only [List.foldl_cons]
    rw [h1]
    exact ih (D.LoadDiff E) L2 h2 h3

theorem LoadDiff_ChunkOfId_foldl (Y : List (FVoxelValueDiff ⊕ FVoxelMaterialDiff))
    (D : FVoxelData) : (Y.foldl FVoxelData.LoadDiff D).ChunkOfId = D.ChunkOfId := by
  induction Y generalizing D with
  | nil => rfl
  | cons E Y ih =>
    simp only [List.foldl_cons]
    rw [ih]
    rw [FVoxelData.LoadDiff_eq]
    cases D.ChunkOfId (FVoxelDiffId E) <;> rfl

theorem LoadDiff_absorb (Y : List (FVoxelValueDiff ⊕ FVoxelMaterialDiff)) (D : FVoxelData)
    (X : FVoxelValueDiff ⊕ FVoxelMaterialDiff) :
    (Y.foldl FVoxelData.LoadDiff (D.LoadDiff X)).LoadDiff X =
      (Y.foldl FVoxelData.LoadDiff D).LoadDiff X := by
  cases hK : D.ChunkOfId (FVoxelDiffId X) with
  | none =>
    have h1 : D.LoadDiff X = D := by rw [FVoxelData.LoadDiff_eq, hK]
    rw [h1]
  | some K =>
    have h1 : D.LoadDiff X = { D with DirtyChunks := (D.LoadDiff X).DirtyChunks } := by
      rw [FVoxelData.LoadDiff_eq, hK]; rfl
    have hF : (D.LoadDiff X).DirtyChunks.filter (fun E => decide (E.1 ≠ K)) =
        D.DirtyChunks.filter (fun E => decide (E.1 ≠ K)) := by
      rw [FVoxelData.LoadDiff_eq, hK]
      simp [FVoxelData.UpdateLeaf, List.filter_cons, List.filter_filter]
    have hL : ((FVoxelData.DirtyLeaf { D with DirtyChunks := (D.LoadDiff X).DirtyChunks } K).getD
          (D.SetAsDirtyAndSetDefaultValues K)).LoadDiff X =
        ((D.DirtyLeaf K).getD (D.SetAsDirtyAndSetDefaultValues K)).LoadDiff X := by
      rw [FVoxelData.LoadDiff_eq, hK]
      simp only [FVoxelData.UpdateLeaf, FVoxelData.DirtyLeaf, List.find?_cons, decide_True,
        Option.map_some', Option.getD_some]
      exact FValueOctree.LoadDiff_idem X _
    obtain ⟨L2, h2, h3, h4⟩ :=
      LoadDiff_absorb_foldl Y D (D.LoadDiff X).DirtyChunks K X hF hL
    rw [h1, h2]
    have hK2 : (Y.foldl FVoxelData.LoadDiff D).ChunkOfId (FVoxelDiffId X) = some K := by
      rw [LoadDiff_ChunkOfId_foldl, hK]
    have hK3 : FVoxelData.ChunkOfId { Y.foldl FVoxelData.LoadDiff D with DirtyChunks := L2 }
        (FVoxelDiffId X) = some K := hK2
    rw [FVoxelData.LoadDiff_eq, FVoxelData.LoadDiff_eq, hK2, hK3]
    simp only [FVoxelData.UpdateLeaf]
    have h5 : ((FVoxelData.DirtyLeaf { Y.foldl FVoxelData.LoadDiff D with DirtyChunks := L2 }
          K).getD (FVoxelData.SetAsDirtyAndSetDefaultValues
            { Y.foldl FVoxelData.LoadDiff D with DirtyChunks := L2 } K)).LoadDiff X =
        (((Y.foldl FVoxelData.LoadDiff D).DirtyLeaf K).getD
          ((Y.foldl FVoxelData.LoadDiff D).SetAsDirtyAndSetDefaultValues K)).LoadDiff X := h4
    rw [h5, h3]

theorem LoadDiff_foldl_idem (Y : List (FVoxelValueDiff ⊕ FVoxelMaterialDiff)) (D : FVoxelData) :
    Y.foldl FVoxelData.LoadDiff (Y.foldl FVoxelData.LoadDiff D) =
      Y.foldl FVoxelData.LoadDiff D := by
  induction Y using List.reverseRecOn generalizing D with
  | nil => rfl
  | append_singleton Y X ih =>
    simp only [List.foldl_append, List.foldl_cons, List.foldl_nil]
    rw [LoadDiff_absorb, ih]


theorem LoadDiff_foldl_config (Y : List (FVoxelValueDiff ⊕ FVoxelMaterialDiff))
    (D : FVoxelData) :
    Y.foldl FVoxelData.LoadDiff D =
      { D with DirtyChunks := (Y.foldl FVoxelData.LoadDiff D).DirtyChunks } := by
  have h : ∀ (Y : List (FVoxelValueDiff ⊕ FVoxelMaterialDiff)) (D : FVoxelData),
      ∃ L, Y.foldl FVoxelData.LoadDiff D = { D with DirtyChunks := L } := by
    intro Y
    induction Y with
    | nil => exact fun D => ⟨D.DirtyChunks, rfl⟩
    | cons E Y ih =>
      intro D
      have h2 : ∃ L0, D.LoadDiff E = { D with DirtyChunks := L0 } := by
        rw [FVoxelData.LoadDiff_eq]
        cases D.ChunkOfId (FVoxelDiffId E) with
        | none => exact ⟨D.DirtyChunks, rfl⟩
        | some K => exact ⟨_, rfl⟩
      obtain ⟨L0, hL0⟩ := h2
      obtain ⟨L, hL⟩ := ih { D with DirtyChunks := L0 }
      exact ⟨L, by rw [List.foldl_cons, hL0, hL]⟩
  obtain ⟨L, hL⟩ := h Y D
  rw [hL]

theorem LoadDiff_foldl_queues (VQ : List FVoxelValueDiff) (MQ : List FVoxelMaterialDiff)
    (D : FVoxelData) :
    MQ.foldl FVoxelData.LoadMaterialDiff (VQ.foldl FVoxelData.LoadValueDiff D) =
      (VQ.map Sum.inl ++ MQ.map Sum.inr).foldl FVoxelData.LoadDiff D := by
  rw [List.foldl_append, List.foldl_map, List.foldl_map]
  rfl

theorem FVoxelData.LoadFromDiffQueues_idem (D D1 : FVoxelData) (VQ : List FVoxelValueDiff)
    (MQ : List FVoxelMaterialDiff) (Mod : List FIntVector)
    (h : D.LoadFromDiffQueuesAndGetModifiedPositions VQ MQ = some (D1, Mod)) :
    D1.LoadFromDiffQueuesAndGetModifiedPositions VQ MQ = some (D1, Mod) := by
  unfold FVoxelData.LoadFromDiffQueuesAndGetModifiedPositions at h ⊢
  split_ifs at h with hValid
  simp only [Option.some.injEq, Prod.mk.injEq] at h
  obtain ⟨h1, h2⟩ := h
  rw [LoadDiff_foldl_queues] at h1
  have hC : D1 = { D with DirtyChunks := D1.DirtyChunks } := by
    rw [← h1]; exact LoadDiff_foldl_config _ D
  have hV : D1.IsValidDiff = D.IsValidDiff := by rw [hC]; rfl
  have hP : D1.DiffPosition = D.DiffPosition := by rw [hC]; rfl
  rw [hV, hP, if_pos hValid, h2, LoadDiff_foldl_queues]
  have h3 := LoadDiff_foldl_idem (VQ.map Sum.inl ++ MQ.map Sum.inr) D
  rw [h1] at h3
  rw [h3]

theorem ReceiveData_Loop_data {σ : Type} (W : AVoxelWorld σ) (L : List FIntVector) :
    (AVoxelWorld.ReceiveData.Loop W L).World.Data = W.Data ∧
    (AVoxelWorld.ReceiveData.Loop W L).World.TcpClient = W.TcpClient := by
  induction L generalizing W with
  | nil => exact ⟨rfl, rfl⟩
  | cons P L ih =>
    simp only [AVoxelWorld.ReceiveData.Loop, AVoxelWorld.UpdateChunksAtPosition]
    cases hR : W.Render with
    | none => exact ⟨rfl, rfl⟩
    | some R =>
      simp only []
      exact ih _

/-! ## Save and load -/

theorem index_lt_cube (C a b c : Nat) (ha : a < C) (hb : b < C) (hc : c < C) :
    a + C * b + C * C * c < C * C * C := by
  have h1 : C * b + C ≤ C * C := by
    have : C * (b + 1) ≤ C * C := Nat.mul_le_mul_left C hb
    simpa [Nat.mul_add] using this
  have h2 : C * C * c + C * C ≤ C * C * C := by
    have : C * C * (c + 1) ≤ C * C * C := Nat.mul_le_mul_left (C * C) hc
    simpa [Nat.mul_add] using this
  omega

theorem emod_toNat_lt (X : Int) (C : Nat) (hC : 0 < C) : (X % (C : Int)).toNat < C := by
  have h1 : 0 ≤ X % (C : Int) := Int.emod_nonneg _ (by omega)
  have h2 : X % (C : Int) < C := Int.emod_lt_of_pos _ (by omega)
  omega

theorem FVoxelData.IndexFromCoordinates_lt (D : FVoxelData) (P : FIntVector)
    (hC : 0 < D.ChunkSize) :
    D.IndexFromCoordinates P < D.ChunkSize * D.ChunkSize * D.ChunkSize :=
  index_lt_cube _ _ _ _ (emod_toNat_lt _ _ hC) (emod_toNat_lt _ _ hC) (emod_toNat_lt _ _ hC)

theorem index_decompose (C a b c : Nat) (ha : a < C) (hb : b < C) :
    (a + C * b + C * C * c) % C = a ∧ (a + C * b + C * C * c) / C % C = b ∧
    (a + C * b + C * C * c) / (C * C) = c := by
  have hC : 0 < C := by omega
  have e1 : a + C * b + C * C * c = a + C * (b + C * c) := by ring
  have e2 : a + C * b + C * C * c = (a + C * b) + (C * C) * c := by ring
  have hab : a + C * b < C * C := by
    have : C * (b + 1) ≤ C * C := Nat.mul_le_mul_left C hb
    have : C * b + C ≤ C * C := by simpa [Nat.mul_add] using this
    omega
  refine ⟨?_, ?_, ?_⟩
  · rw [e1, Nat.add_mul_mod_self_left, Nat.mod_eq_of_lt ha]
  · rw [e1, Nat.add_mul_div_left _ _ hC, Nat.div_eq_of_lt ha, Nat.zero_add,
      Nat.add_mul_mod_self_left, Nat.mod_eq_of_lt hb]
  · rw [e2, Nat.add_mul_div_left _ _ (Nat.mul_pos hC hC), Nat.div_eq_of_lt hab, Nat.zero_add]

theorem FVoxelData.CoordinatesFromIndex_IndexFromCoordinates (D : FVoxelData) (P : FIntVector)
    (hC : 0 < D.ChunkSize) :
    D.CoordinatesFromIndex (D.ChunkOf P) (D.IndexFromCoordinates P) = P := by
  obtain ⟨h1, h2, h3⟩ := index_decompose D.ChunkSize _ _ (P.Z % (D.ChunkSize : Int)).toNat
    (emod_toNat_lt P.X _ hC) (emod_toNat_lt P.Y _ hC)
  have hN : ∀ X : Int, ((X % (D.ChunkSize : Int)).toNat : Int) = X % (D.ChunkSize : Int) :=
    fun X => Int.toNat_of_nonneg (Int.emod_nonneg _ (by omega))
  simp only [FVoxelData.CoordinatesFromIndex, FVoxelData.IndexFromCoordinates, FVoxelData.ChunkOf,
    h1, h2, h3, hN]
  rw [Int.ediv_add_emod', Int.ediv_add_emod', Int.ediv_add_emod']

theorem chunk_of_offset (K : Int) (C r : Nat) (hr : r < C) :
    (K * (C : Int) + (r : Int)) / (C : Int) = K := by
  have hC : (0 : Int) < C := by omega
  rw [add_comm, Int.add_mul_ediv_right _ _ (ne_of_gt hC),
    Int.ediv_eq_zero_of_lt (by omega) (by omega), zero_add]

theorem FVoxelData.ChunkOf_CoordinatesFromIndex (D : FVoxelData) (K : FIntVector) (I : Nat)
    (hC : 0 < D.ChunkSize) (hI : I < D.ChunkSize * D.ChunkSize * D.ChunkSize) :
    D.ChunkOf (D.CoordinatesFromIndex K I) = K := by
  simp only [FVoxelData.ChunkOf, FVoxelData.CoordinatesFromIndex]
  rw [chunk_of_offset _ _ _ (Nat.mod_lt _ hC), chunk_of_offset _ _ _ (Nat.mod_lt _ hC),
    chunk_of_offset _ _ _ (by
      rw [Nat.div_lt_iff_lt_mul (Nat.mul_pos hC hC)]
      calc I < D.ChunkSize * D.ChunkSize * D.ChunkSize := hI
        _ = D.ChunkSize * (D.ChunkSize * D.ChunkSize) := by ring)]

theorem FVoxelData.mem_GetPositionsToUpdate (D : FVoxelData) (K P : FIntVector)
    (hC : 0 < D.ChunkSize) :
    P ∈ D.GetPositionsToUpdate K ↔ D.ChunkOf P = K := by
  simp only [FVoxelData.GetPositionsToUpdate, List.mem_map, List.mem_range]
  constructor
  · rintro ⟨I, hI, rfl⟩
    exact D.ChunkOf_CoordinatesFromIndex K I hC hI
  · rintro rfl
    exact ⟨D.IndexFromCoordinates P, D.IndexFromCoordinates_lt P hC,
      D.CoordinatesFromIndex_IndexFromCoordinates P hC⟩

theorem FVoxelData.ChunkOf_ChunkSave (D : FVoxelData) (E : FIntVector × FValueOctree)
    (hC : 0 < D.ChunkSize) : D.ChunkOf (D.ChunkSave E).Position = E.1 := by
  have h := fun K : Int => chunk_of_offset K D.ChunkSize 0 hC
  simp only [Nat.cast_zero, add_zero] at h
  simp only [FVoxelData.ChunkOf, FVoxelData.ChunkSave, h]


theorem FVoxelData.LoadChunk_foldl_config (RS : List FVoxelChunkSave) (D : FVoxelData) :
    ∃ L, RS.foldl FVoxelData.LoadChunk D = { D with DirtyChunks := L } := by
  induction RS generalizing D with
  | nil => exact ⟨D.DirtyChunks, rfl⟩
  | cons R RS ih =>
    obtain ⟨L, hL⟩ := ih (D.LoadChunk R)
    exact ⟨L, by rw [List.foldl_cons, hL]; rfl⟩

theorem FVoxelData.LoadChunk_foldl_leaf (D : FVoxelData) (RS : List FVoxelChunkSave)
    (hNodup : (RS.map fun R => D.ChunkOf R.Position).Nodup) (R : FVoxelChunkSave)
    (hR : R ∈ RS) :
    (RS.foldl FVoxelData.LoadChunk D).DirtyLeaf (D.ChunkOf R.Position) =
      some { Values := fun I => R.Values.getD I 0
             Materials := fun I => R.Materials.getD I default
             DirtyValues := []
             DirtyMaterials := []
             bIsNetworkDirty := false } := by
  induction RS using List.reverseRecOn with
  | nil => simp at hR
  | append_singleton RS R2 ih =>
    obtain ⟨L, hL⟩ := FVoxelData.LoadChunk_foldl_config RS D
    rw [List.foldl_append, List.foldl_cons, List.foldl_nil]
    rw [List.map_append, List.nodup_append] at hNodup
    obtain ⟨hN1, -, hDisj⟩ := hNodup
    have hCh : (RS.foldl FVoxelData.LoadChunk D).ChunkOf = D.ChunkOf := by rw [hL]; rfl
    rcases List.mem_append.1 hR with hR1 | hR2
    · have hNe : D.ChunkOf R.Position ≠ D.ChunkOf R2.Position := by
        intro hEq
        exact hDisj (List.mem_map.2 ⟨R, hR1, rfl⟩) (by simp [hEq])
      have ih2 := ih hN1 hR1
      simp only [FVoxelData.LoadChunk, FVoxelData.DirtyLeaf, hCh] at ih2 ⊢
      rw [List.find?_cons]
      simp only [hNe.symm, decide_False]
      rw [find?_filter_ne _ _ _ hNe]
      exact ih2
    · simp only [List.mem_singleton] at hR2
      subst hR2
      simp only [FVoxelData.LoadChunk, FVoxelData.DirtyLeaf, hCh]
      simp

theorem AVoxelWorld.LoadFromSave.Loop_data {σ : Type} (Ops : FVoxelDataOps σ)
    (W : AVoxelWorld σ) (L : List FIntVector) :
    (AVoxelWorld.LoadFromSave.Loop Ops W L).World.Data = W.Data := by
  induction L generalizing W with
  | nil => rfl
  | cons P L ih =>
    simp only [AVoxelWorld.LoadFromSave.Loop, AVoxelWorld.IsInWorld]
    cases hD : W.Data with
    | none => simp [hD]
    | some D =>
      simp only []
      cases hIn : Ops.IsInWorld D P with
      | false =>
        simp only []
        rw [ih]
        simp [AVoxelWorld.Call, hD]
      | true =>
        simp only [AVoxelWorld.UpdateChunksAtPosition]
        cases hR : (W.Call (.IsInWorld P)).Render with
        | none => simp [AVoxelWorld.Call, hD]
        | some R =>
          simp only []
          rw [ih]
          simp [AVoxelWorld.Call, hD]


theorem FVoxelData.DirtyLeaf_isSome_iff (D : FVoxelData) (K : FIntVector) :
    (D.DirtyLeaf K).isSome = true ↔ ∃ E ∈ D.DirtyChunks, E.1 = K := by
  simp only [FVoxelData.DirtyLeaf, Option.isSome_map', List.find?_isSome, decide_eq_true_eq]

theorem FVoxelData.DirtyLeaf_mem (D : FVoxelData) (K : FIntVector) (Leaf : FValueOctree)
    (h : D.DirtyLeaf K = some Leaf) : (K, Leaf) ∈ D.DirtyChunks := by
  simp only [FVoxelData.DirtyLeaf, Option.map_eq_some'] at h
  obtain ⟨E, hE, rfl⟩ := h
  have h1 := List.find?_some hE
  have h2 := List.mem_of_find?_eq_some hE
  simp only [decide_eq_true_eq] at h1
  rw [← h1]
  exact h2

theorem GetSave_LoadFromSave_store (W W0 : AVoxelWorld FVoxelData) (D : FVoxelData)
    (bReset : Bool) (hData : W.Data = some D) (hChunk : 0 < D.ChunkSize)
    (hNodup : (D.DirtyChunks.map fun E => E.1).Nodup)
    (hFresh : W0.Data = some { D with DirtyChunks := [], Transactions := [] })
    (hLOD : W0.LOD = (D.LOD : Int)) :
    ∃ (Save : FVoxelWorldSave) (D1 : FVoxelData) (ModifiedPositions : List FIntVector),
      (W.GetSave FVoxelData.Ops).Return = .ok Save ∧
      FVoxelData.LoadFromSaveAndGetModifiedPositions
        { D with DirtyChunks := [], Transactions := [] } Save bReset =
          some (D1, ModifiedPositions) ∧
      (W0.LoadFromSave FVoxelData.Ops Save bReset).World.Data = some D1 ∧
      (∀ P, (D.DirtyLeaf (D.ChunkOf P)).isSome = true → D1.Read P = D.Read P) ∧
      (∀ P, P ∈ ModifiedPositions ↔ (D.DirtyLeaf (D.ChunkOf P)).isSome = true) ∧
      D1.Bounds = D.Bounds := by
  let D0 : FVoxelData := { D with DirtyChunks := [], Transactions := [] }
  have hPerm : (List.insertionSort (fun A B => D.ChunkId A.1 ≤ D.ChunkId B.1) D.DirtyChunks).Perm
      D.DirtyChunks := List.perm_insertionSort _ _
  have hValid : D.GetSave.Chunks.all (fun Record =>
      decide (Record.Values.length = D0.ChunkSize * D0.ChunkSize * D0.ChunkSize ∧
        Record.Materials.length = D0.ChunkSize * D0.ChunkSize * D0.ChunkSize)) = true := by
    simp only [FVoxelData.GetSave, FVoxelData.ChunkSave, D0, List.all_eq_true, List.mem_map,
      decide_eq_true_eq]
    rintro R ⟨E, -, rfl⟩
    simp
  have hReset : (if bReset then { D0 with DirtyChunks := [] } else D0) = D0 := by
    cases bReset <;> rfl
  have hLoad : D0.LoadFromSaveAndGetModifiedPositions D.GetSave bReset =
      some (D.GetSave.Chunks.reverse.foldl FVoxelData.LoadChunk D0,
        D.GetSave.Chunks.reverse.flatMap fun Record =>
          D0.GetPositionsToUpdate (D0.ChunkOf Record.Position)) := by
    unfold FVoxelData.LoadFromSaveAndGetModifiedPositions
    rw [if_pos hValid, hReset]
  have hMemRec : ∀ R, R ∈ D.GetSave.Chunks.reverse ↔ ∃ E ∈ D.DirtyChunks, D.ChunkSave E = R := by
    intro R
    simp only [FVoxelData.GetSave, List.mem_reverse, List.mem_map, hPerm.mem_iff]
  have hKeys : (D.GetSave.Chunks.reverse.map fun R => D0.ChunkOf R.Position).Nodup := by
    have h1 : (D.GetSave.Chunks.reverse.map fun R => D0.ChunkOf R.Position) =
        ((List.insertionSort (fun A B => D.ChunkId A.1 ≤ D.ChunkId B.1)
          D.DirtyChunks).map fun E => E.1).reverse := by
      simp only [FVoxelData.GetSave, List.map_reverse, List.map_map]
      congr 1
      apply List.map_congr_left
      intro E _
      exact D.ChunkOf_ChunkSave E hChunk
    rw [h1, List.nodup_reverse]
    exact (hPerm.map _).nodup_iff.2 hNodup
  obtain ⟨L, hL⟩ := FVoxelData.LoadChunk_foldl_config D.GetSave.Chunks.reverse D0
  refine ⟨D.GetSave, _, _, ?_, hLoad, ?_, ?_, ?_, by rw [hL]⟩
  · simp [AVoxelWorld.GetSave, hData, FVoxelData.Ops]
  · have hLoad2 : FVoxelData.Ops.LoadFromSaveAndGetModifiedPositions D0 D.GetSave bReset =
        some (D.GetSave.Chunks.reverse.foldl FVoxelData.LoadChunk D0,
          D.GetSave.Chunks.reverse.flatMap fun Record =>
            D0.GetPositionsToUpdate (D0.ChunkOf Record.Position)) := hLoad
    have hSL : D.GetSave.LOD = W0.LOD := by rw [hLOD]; rfl
    simp only [AVoxelWorld.LoadFromSave, hSL, hFresh, hLoad2, if_true]
    rw [AVoxelWorld.LoadFromSave.Loop_data]
    rfl
  · intro P hP
    cases hLeaf : D.DirtyLeaf (D.ChunkOf P) with
    | none => simp [hLeaf] at hP
    | some Leaf =>
      have hMem := D.DirtyLeaf_mem _ _ hLeaf
      have hR : D.ChunkSave (D.ChunkOf P, Leaf) ∈ D.GetSave.Chunks.reverse :=
        (hMemRec _).2 ⟨_, hMem, rfl⟩
      have hLeaf1 := FVoxelData.LoadChunk_foldl_leaf D0 _ hKeys _ hR
      have hKey : D0.ChunkOf (D.ChunkSave (D.ChunkOf P, Leaf)).Position = D.ChunkOf P :=
        D.ChunkOf_ChunkSave _ hChunk
      rw [hKey] at hLeaf1
      have hCh : (D.GetSave.Chunks.reverse.foldl FVoxelData.LoadChunk D0).ChunkOf P =
          D.ChunkOf P := by rw [hL]; rfl
      have hIx : (D.GetSave.Chunks.reverse.foldl FVoxelData.LoadChunk D0).IndexFromCoordinates P =
          D.IndexFromCoordinates P := by rw [hL]; rfl
      have hLt := D.IndexFromCoordinates_lt P hChunk
      simp only [FVoxelData.Read, hCh, hIx, hLeaf1, hLeaf, FVoxelData.ChunkSave]
      rw [List.getD_eq_getElem _ _ (by simpa using hLt),
        List.getD_eq_getElem _ _ (by simpa using hLt)]
      simp
  · intro P
    rw [D.DirtyLeaf_isSome_iff]
    simp only [List.mem_flatMap]
    constructor
    · rintro ⟨R, hR, hP⟩
      obtain ⟨E, hE, rfl⟩ := (hMemRec R).1 hR
      have hKey : D0.ChunkOf (D.ChunkSave E).Position = E.1 := D.ChunkOf_ChunkSave E hChunk
      rw [hKey] at hP
      exact ⟨E, hE, ((D0.mem_GetPositionsToUpdate E.1 P hChunk).1 hP).symm⟩
    · rintro ⟨E, hE, hK⟩
      refine ⟨D.ChunkSave E, (hMemRec _).2 ⟨E, hE, rfl⟩, ?_⟩
      have hKey : D0.ChunkOf (D.ChunkSave E).Position = E.1 := D.ChunkOf_ChunkSave E hChunk
      rw [hKey]
      exact (D0.mem_GetPositionsToUpdate E.1 P hChunk).2 hK.symm

/-- C17. On the modelled store, let a world hold a store with chunks of positive
edge and one leaf per dirty chunk. `GetSave` returns a save; `LoadFromSave` of
that save into a world of the same LOD whose store has the same configuration
and no dirty chunk is accepted by the store, and leaves a store in which every
position of a chunk that was dirty in the saved world reads the value and the
material it read there. The positions the store reports as modified are exactly
the positions of the chunks that were dirty. -/
theorem GetSave_LoadFromSave_round_trip (W W0 : AVoxelWorld FVoxelData) (D : FVoxelData)
    (bReset : Bool) (hData : W.Data = some D) (hChunk : 0 < D.ChunkSize)
    (hNodup : (D.DirtyChunks.map fun E => E.1).Nodup)
    (hFresh : W0.Data = some { D with DirtyChunks := [], Transactions := [] })
    (hLOD : W0.LOD = (D.LOD : Int)) :
    ∃ (Save : FVoxelWorldSave) (D1 : FVoxelData) (ModifiedPositions : List FIntVector),
      (W.GetSave FVoxelData.Ops).Return = .ok Save ∧
      FVoxelData.LoadFromSaveAndGetModifiedPositions
        { D with DirtyChunks := [], Transactions := [] } Save bReset =
          some (D1, ModifiedPositions) ∧
      (W0.LoadFromSave FVoxelData.Ops Save bReset).World.Data = some D1 ∧
      (∀ P, (D.DirtyLeaf (D.ChunkOf P)).isSome = true → D1.Read P = D.Read P) ∧
      (∀ P, (D.DirtyLeaf (D.ChunkOf P)).isSome = true → D.IsInWorld P = true →
        ((W0.LoadFromSave FVoxelData.Ops Save bReset).World.GetValue FVoxelData.Ops P).Return =
          (W.GetValue FVoxelData.Ops P).Return ∧
        ((W0.LoadFromSave FVoxelData.Ops Save bReset).World.GetMaterial
            FVoxelData.Ops P).Return = (W.GetMaterial FVoxelData.Ops P).Return) ∧
      (∀ P, P ∈ ModifiedPositions ↔ (D.DirtyLeaf (D.ChunkOf P)).isSome = true) := by
  obtain ⟨Save, D1, ModifiedPositions, h1, h2, h3, h4, h5, hB⟩ :=
    GetSave_LoadFromSave_store W W0 D bReset hData hChunk hNodup hFresh hLOD
  refine ⟨Save, D1, ModifiedPositions, h1, h2, h3, h4, fun P hP hIn => ?_, h5⟩
  have hIn2 : D1.IsInWorld P = true := by
    simpa only [FVoxelData.IsInWorld, hB] using hIn
  obtain ⟨a1, a2⟩ := FVoxelData.GetValue_run _ D1 P h3 hIn2
  obtain ⟨b1, b2⟩ := FVoxelData.GetValue_run W D P hData hIn
  rw [a1, a2, b1, b2, h4 P hP]
  exact ⟨rfl, rfl⟩

/-! ## Diff queues: the last write wins -/

theorem FVoxelData.ChunkOfId_some (D : FVoxelData) (Id : Nat) (K : FIntVector)
    (h : D.ChunkOfId Id = some K) : D.ChunkId K = Id := by
  have := List.find?_some h
  simpa using this

theorem FVoxelData.IndexFromCoordinates_CoordinatesFromIndex (D : FVoxelData) (K : FIntVector)
    (I : Nat) (hI : I < D.ChunkSize * D.ChunkSize * D.ChunkSize) :
    D.IndexFromCoordinates (D.CoordinatesFromIndex K I) = I := by
  have hC : 0 < D.ChunkSize := by
    rcases Nat.eq_zero_or_pos D.ChunkSize with h | h
    · rw [h] at hI; simp at hI
    · exact h
  have hZ : I / (D.ChunkSize * D.ChunkSize) < D.ChunkSize := by
    rw [Nat.div_lt_iff_lt_mul (Nat.mul_pos hC hC)]
    calc I < D.ChunkSize * D.ChunkSize * D.ChunkSize := hI
      _ = D.ChunkSize * (D.ChunkSize * D.ChunkSize) := by ring
  have hm : ∀ (A : Int) (r : Nat), r < D.ChunkSize →
      ((A * (D.ChunkSize : Int) + (r : Int)) % (D.ChunkSize : Int)).toNat = r := by
    intro A r hr
    rw [add_comm, Int.add_mul_emod_self, Int.emod_eq_of_lt (by omega) (by omega)]
    simp
  simp only [FVoxelData.IndexFromCoordinates, FVoxelData.CoordinatesFromIndex]
  rw [hm _ _ (Nat.mod_lt _ hC), hm _ _ (Nat.mod_lt _ hC), hm _ _ hZ]
  have h1 := Nat.mod_add_div I D.ChunkSize
  have h2 := Nat.mod_add_div (I / D.ChunkSize) D.ChunkSize
  have h3 : I / D.ChunkSize / D.ChunkSize = I / (D.ChunkSize * D.ChunkSize) :=
    Nat.div_div_eq_div_mul _ _ _
  rw [h3] at h2
  calc I % D.ChunkSize + D.ChunkSize * (I / D.ChunkSize % D.ChunkSize) +
        D.ChunkSize * D.ChunkSize * (I / (D.ChunkSize * D.ChunkSize))
      = I % D.ChunkSize + D.ChunkSize * (I / D.ChunkSize % D.ChunkSize +
          D.ChunkSize * (I / (D.ChunkSize * D.ChunkSize))) := by ring
    _ = I := by rw [h2, h1]

theorem LoadDiff_foldl_value_kept (Y : List (FVoxelValueDiff ⊕ FVoxelMaterialDiff))
    (D : FVoxelData) (K : FIntVector) (Id I : Nat) (V : ℚ)
    (hK : D.ChunkOfId Id = some K)
    (hLeaf : ∃ Leaf, D.DirtyLeaf K = some Leaf ∧ Leaf.Values I = V)
    (hY : ∀ Diff, Sum.inl Diff ∈ Y → Diff.Id = Id → Diff.Index ≠ I) :
    ∃ Leaf, (Y.foldl FVoxelData.LoadDiff D).DirtyLeaf K = some Leaf ∧ Leaf.Values I = V := by
  induction Y generalizing D with
  | nil => exact hLeaf
  | cons E Y ih =>
    rw [List.foldl_cons]
    have hY2 : ∀ Diff, Sum.inl Diff ∈ Y → Diff.Id = Id → Diff.Index ≠ I :=
      fun Diff h => hY Diff (List.mem_cons_of_mem _ h)
    obtain ⟨Leaf, hL1, hL2⟩ := hLeaf
    have hStep : (D.LoadDiff E).ChunkOfId Id = some K ∧
        ∃ Leaf, (D.LoadDiff E).DirtyLeaf K = some Leaf ∧ Leaf.Values I = V := by
      rw [FVoxelData.LoadDiff_eq]
      cases hK2 : D.ChunkOfId (FVoxelDiffId E) with
      | none => exact ⟨hK, Leaf, hL1, hL2⟩
      | some K2 =>
        refine ⟨hK, ?_⟩
        by_cases hKK : K2 = K
        · subst hKK
          have hId : FVoxelDiffId E = Id := by
            rw [← D.ChunkOfId_some _ _ hK2, D.ChunkOfId_some _ _ hK]
          refine ⟨Leaf.LoadDiff E, ?_, ?_⟩
          · simp only [FVoxelData.UpdateLeaf, FVoxelData.DirtyLeaf] at hL1 ⊢
            simp [hL1]
          · cases E with
            | inl Diff =>
              have hNe := hY Diff (by simp) hId
              simp only [FValueOctree.LoadDiff, FValueOctree.LoadValueDiff]
              rw [if_neg (fun h => hNe h.symm)]
              exact hL2
            | inr Diff => exact hL2
        · refine ⟨Leaf, ?_, hL2⟩
          have hKK2 : ¬ K = K2 := fun h => hKK h.symm
          simp only [FVoxelData.UpdateLeaf, FVoxelData.DirtyLeaf] at hL1 ⊢
          rw [List.find?_cons]
          simp only [hKK, decide_False]
          rw [find?_filter_ne _ _ _ hKK2]
          exact hL1
    exact ih (D.LoadDiff E) hStep.1 hStep.2 hY2

theorem LoadDiff_foldl_material_kept (Y : List (FVoxelValueDiff ⊕ FVoxelMaterialDiff))
    (D : FVoxelData) (K : FIntVector) (Id I : Nat) (M : FVoxelMaterial)
    (hK : D.ChunkOfId Id = some K)
    (hLeaf : ∃ Leaf, D.DirtyLeaf K = some Leaf ∧ Leaf.Materials I = M)
    (hY : ∀ Diff, Sum.inr Diff ∈ Y → Diff.Id = Id → Diff.Index ≠ I) :
    ∃ Leaf, (Y.foldl FVoxelData.LoadDiff D).DirtyLeaf K = some Leaf ∧ Leaf.Materials I = M := by
  induction Y generalizing D with
  | nil => exact hLeaf
  | cons E Y ih =>
    rw [List.foldl_cons]
    have hY2 : ∀ Diff, Sum.inr Diff ∈ Y → Diff.Id = Id → Diff.Index ≠ I :=
      fun Diff h => hY Diff (List.mem_cons_of_mem _ h)
    obtain ⟨Leaf, hL1, hL2⟩ := hLeaf
    have hStep : (D.LoadDiff E).ChunkOfId Id = some K ∧
        ∃ Leaf, (D.LoadDiff E).DirtyLeaf K = some Leaf ∧ Leaf.Materials I = M := by
      rw [FVoxelData.LoadDiff_eq]
      cases hK2 : D.ChunkOfId (FVoxelDiffId E) with
      | none => exact ⟨hK, Leaf, hL1, hL2⟩
      | some K2 =>
        refine ⟨hK, ?_⟩
        by_cases hKK : K2 = K
        · subst hKK
          have hId : FVoxelDiffId E = Id := by
            rw [← D.ChunkOfId_some _ _ hK2, D.ChunkOfId_some _ _ hK]
          refine ⟨Leaf.LoadDiff E, ?_, ?_⟩
          · simp only [FVoxelData.UpdateLeaf, FVoxelData.DirtyLeaf] at hL1 ⊢
            simp [hL1]
          · cases E with
            | inr Diff =>
              have hNe := hY Diff (by simp) hId
              simp only [FValueOctree.LoadDiff, FValueOctree.LoadMaterialDiff]
              rw [if_neg (fun h => hNe h.symm)]
              exact hL2
            | inl Diff => exact hL2
        · refine ⟨Leaf, ?_, hL2⟩
          have hKK2 : ¬ K = K2 := fun h => hKK h.symm
          simp only [FVoxelData.UpdateLeaf, FVoxelData.DirtyLeaf] at hL1 ⊢
          rw [List.find?_cons]
          simp only [hKK, decide_False]
          rw [find?_filter_ne _ _ _ hKK2]
          exact hL1
    exact ih (D.LoadDiff E) hStep.1 hStep.2 hY2

theorem LoadDiff_leaf_after (D : FVoxelData) (E : FVoxelValueDiff ⊕ FVoxelMaterialDiff)
    (K : FIntVector) (hK : D.ChunkOfId (FVoxelDiffId E) = some K) :
    (D.LoadDiff E).DirtyLeaf K =
      some (((D.DirtyLeaf K).getD (D.SetAsDirtyAndSetDefaultValues K)).LoadDiff E) := by
  rw [FVoxelData.LoadDiff_eq, hK]
  simp [FVoxelData.UpdateLeaf, FVoxelData.DirtyLeaf]

theorem FVoxelData.LoadFromDiffQueues_last_write (D D1 : FVoxelData)
    (VQ : List FVoxelValueDiff) (MQ : List FVoxelMaterialDiff) (Mod : List FIntVector)
    (h : D.LoadFromDiffQueuesAndGetModifiedPositions VQ MQ = some (D1, Mod)) :
    (∀ Pre Diff Post K, VQ = Pre ++ Diff :: Post →
      (∀ Later ∈ Post, Later.Id = Diff.Id → Later.Index ≠ Diff.Index) →
      D.ChunkOfId Diff.Id = some K →
      (D1.Read (D.CoordinatesFromIndex K Diff.Index)).1 = Diff.Value) ∧
    (∀ Pre Diff Post K, MQ = Pre ++ Diff :: Post →
      (∀ Later ∈ Post, Later.Id = Diff.Id → Later.Index ≠ Diff.Index) →
      D.ChunkOfId Diff.Id = some K →
      (D1.Read (D.CoordinatesFromIndex K Diff.Index)).2 = Diff.Material) := by
  unfold FVoxelData.LoadFromDiffQueuesAndGetModifiedPositions at h
  split_ifs at h with hValid
  simp only [Option.some.injEq, Prod.mk.injEq] at h
  obtain ⟨h1, -⟩ := h
  rw [LoadDiff_foldl_queues] at h1
  simp only [Bool.and_eq_true, List.all_eq_true, FVoxelData.IsValidDiff, decide_eq_true_eq]
    at hValid
  have hC : D1 = { D with DirtyChunks := D1.DirtyChunks } := by
    rw [← h1]; exact LoadDiff_foldl_config _ D
  have hRead : ∀ (K : FIntVector) (I : Nat) (Leaf : FValueOctree),
      I < D.ChunkSize * D.ChunkSize * D.ChunkSize → D1.DirtyLeaf K = some Leaf →
      D1.Read (D.CoordinatesFromIndex K I) = (Leaf.Values I, Leaf.Materials I) := by
    intro K I Leaf hI hLeaf
    have hPos : 0 < D.ChunkSize := by
      rcases Nat.eq_zero_or_pos D.ChunkSize with h0 | h0
      · rw [h0] at hI; simp at hI
      · exact h0
    have e1 : D1.ChunkOf (D.CoordinatesFromIndex K I) = K := by
      rw [hC]; exact D.ChunkOf_CoordinatesFromIndex K I hPos hI
    have e2 : D1.IndexFromCoordinates (D.CoordinatesFromIndex K I) = I := by
      rw [hC]; exact D.IndexFromCoordinates_CoordinatesFromIndex K I hI
    simp only [FVoxelData.Read, e1, e2, hLeaf]
  constructor
  · intro Pre Diff Post K hVQ hPost hK
    have hI : Diff.Index < D.ChunkSize * D.ChunkSize * D.ChunkSize :=
      (hValid.1 Diff (by rw [hVQ]; simp)).2
    have hSplit : VQ.map Sum.inl ++ MQ.map Sum.inr =
        Pre.map Sum.inl ++ Sum.inl Diff :: (Post.map Sum.inl ++ MQ.map Sum.inr) := by
      rw [hVQ]; simp
    rw [hSplit, List.foldl_append, List.foldl_cons] at h1
    have hKa : (List.foldl FVoxelData.LoadDiff D (Pre.map Sum.inl)).ChunkOfId Diff.Id = some K := by
      rw [LoadDiff_ChunkOfId_foldl]; exact hK
    have hLeafB := LoadDiff_leaf_after _ (Sum.inl Diff) K hKa
    have hKb : ((List.foldl FVoxelData.LoadDiff D (Pre.map Sum.inl)).LoadDiff
        (Sum.inl Diff)).ChunkOfId Diff.Id = some K := by
      have := LoadDiff_ChunkOfId_foldl (Pre.map Sum.inl ++ [Sum.inl Diff]) D
      rw [List.foldl_append, List.foldl_cons, List.foldl_nil] at this
      rw [this]; exact hK
    obtain ⟨Leaf, hL1, hL2⟩ := LoadDiff_foldl_value_kept (Post.map Sum.inl ++ MQ.map Sum.inr) _ K
      Diff.Id Diff.Index Diff.Value hKb
      ⟨_, hLeafB, by simp [FValueOctree.LoadDiff, FValueOctree.LoadValueDiff]⟩
      (by
        intro Later hMem hId
        simp only [List.mem_append, List.mem_map, Sum.inl.injEq, exists_eq_right,
          reduceCtorEq, and_false, exists_false, or_false] at hMem
        exact hPost Later hMem hId)
    rw [h1] at hL1
    rw [hRead K Diff.Index Leaf hI hL1]
    exact hL2
  · intro Pre Diff Post K hMQ hPost hK
    have hI : Diff.Index < D.ChunkSize * D.ChunkSize * D.ChunkSize :=
      (hValid.2 Diff (by rw [hMQ]; simp)).2
    have hSplit : VQ.map Sum.inl ++ MQ.map Sum.inr =
        (VQ.map Sum.inl ++ Pre.map Sum.inr) ++ Sum.inr Diff :: Post.map Sum.inr := by
      rw [hMQ]; simp
    rw [hSplit, List.foldl_append, List.foldl_cons] at h1
    have hKa : (List.foldl FVoxelData.LoadDiff D
        (VQ.map Sum.inl ++ Pre.map Sum.inr)).ChunkOfId Diff.Id = some K := by
      rw [LoadDiff_ChunkOfId_foldl]; exact hK
    have hLeafB := LoadDiff_leaf_after _ (Sum.inr Diff) K hKa
    have hKb : ((List.foldl FVoxelData.LoadDiff D
        (VQ.map Sum.inl ++ Pre.map Sum.inr)).LoadDiff (Sum.inr Diff)).ChunkOfId Diff.Id =
          some K := by
      have := LoadDiff_ChunkOfId_foldl ((VQ.map Sum.inl ++ Pre.map Sum.inr) ++ [Sum.inr Diff]) D
      rw [List.foldl_append, List.foldl_cons, List.foldl_nil] at this
      rw [this]; exact hK
    obtain ⟨Leaf, hL1, hL2⟩ := LoadDiff_foldl_material_kept (Post.map Sum.inr) _ K
      Diff.Id Diff.Index Diff.Material hKb
      ⟨_, hLeafB, by simp [FValueOctree.LoadDiff, FValueOctree.LoadMaterialDiff]⟩
      (by
        intro Later hMem hId
        simp only [List.mem_map, Sum.inr.injEq, exists_eq_right] at hMem
        exact hPost Later hMem hId)
    rw [h1] at hL1
    rw [hRead K Diff.Index Leaf hI hL1]
    exact hL2

/-- C18. On the modelled store, when the client of a world hands over the same
value and material diff queues in two successive `ReceiveData`, and the store
accepts them, the store after the second call is the store after the first one:
`LoadFromDiffQueuesAndGetModifiedPositions` applied to its own result gives that
result again, with the same modified positions. In that store the last write
wins for every voxel: a voxel reads the value of the last value diff that names
it, and the material of the last material diff that names it. -/
theorem ReceiveData_diff_queues_idempotent (W : AVoxelWorld FVoxelData) (D D1 : FVoxelData)
    (VQ : List FVoxelValueDiff) (MQ : List FVoxelMaterialDiff) (Mod : List FIntVector)
    (hClient : W.TcpClient = true) (hData : W.Data = some D)
    (hLoad : D.LoadFromDiffQueuesAndGetModifiedPositions VQ MQ = some (D1, Mod)) :
    (W.ReceiveData FVoxelData.Ops (.DiffQueues VQ MQ)).World.Data = some D1 ∧
    ((W.ReceiveData FVoxelData.Ops (.DiffQueues VQ MQ)).World.ReceiveData FVoxelData.Ops
      (.DiffQueues VQ MQ)).World.Data = some D1 ∧
    D1.LoadFromDiffQueuesAndGetModifiedPositions VQ MQ = some (D1, Mod) ∧
    (∀ Pre Diff Post K, VQ = Pre ++ Diff :: Post →
      (∀ Later ∈ Post, Later.Id = Diff.Id → Later.Index ≠ Diff.Index) →
      D.ChunkOfId Diff.Id = some K →
      (D1.Read (D.CoordinatesFromIndex K Diff.Index)).1 = Diff.Value) ∧
    (∀ Pre Diff Post K, MQ = Pre ++ Diff :: Post →
      (∀ Later ∈ Post, Later.Id = Diff.Id → Later.Index ≠ Diff.Index) →
      D.ChunkOfId Diff.Id = some K →
      (D1.Read (D.CoordinatesFromIndex K Diff.Index)).2 = Diff.Material) := by
  have hIdem := FVoxelData.LoadFromDiffQueues_idem D D1 VQ MQ Mod hLoad
  have hLast := FVoxelData.LoadFromDiffQueues_last_write D D1 VQ MQ Mod hLoad
  have hRun : ∀ (W0 : AVoxelWorld FVoxelData) (D0 : FVoxelData), W0.TcpClient = true →
      W0.Data = some D0 →
      D0.LoadFromDiffQueuesAndGetModifiedPositions VQ MQ = some (D1, Mod) →
      (W0.ReceiveData FVoxelData.Ops (.DiffQueues VQ MQ)).World.Data = some D1 ∧
      (W0.ReceiveData FVoxelData.Ops (.DiffQueues VQ MQ)).World.TcpClient = true := by
    intro W0 D0 hC hD hL
    have hL2 : FVoxelData.Ops.LoadFromDiffQueuesAndGetModifiedPositions D0 VQ MQ =
        some (D1, Mod) := hL
    simp only [AVoxelWorld.ReceiveData, hC, hD, hL2, if_true]
    obtain ⟨a, b⟩ := ReceiveData_Loop_data
      ((W0.Call (.LoadFromDiffQueuesAndGetModifiedPositions VQ MQ)).SetData D1) Mod
    rw [a, b]
    exact ⟨rfl, hC⟩
  obtain ⟨h1, h2⟩ := hRun W D hClient hData hLoad
  exact ⟨h1, (hRun _ D1 h2 h1 hIdem).1, hIdem, hLast.1, hLast.2⟩

/-! ## Normal, configuration, lifecycle, networking and coordinates -/

/-- C21. When the store accepts the three calls, `GetNormal` at `Position` returns
the gradient the store computes at `Position`, and the calls it makes are, in
this order, one `BeginGet` on the box `[Position - 1, Position + 2)`, one
`GetGradient` at `Position` and the `EndGet` of the handle of that `BeginGet`: one
Get transaction is opened, the gradient is read inside it, and it is closed. A
position lies in that box (`Min` inclusive, `Max` exclusive) exactly when each of
its coordinates differs by at most `1` from the coordinate of `Position`: the box
holds the 27 positions made of `Position` and its 26 neighbours, and no other. -/
theorem GetNormal_single_transaction {σ : Type} (Ops : FVoxelDataOps σ) (W : AVoxelWorld σ)
    (D D1 D2 : σ) (Position : FIntVector) (Octrees : FOctreeIds) (Gradient : FVector)
    (hData : W.Data = some D)
    (hBegin : Ops.BeginGet D
      ⟨⟨Position.X - 1, Position.Y - 1, Position.Z - 1⟩,
       ⟨Position.X + 2, Position.Y + 2, Position.Z + 2⟩⟩ = some (Octrees, D1))
    (hGradient : Ops.GetGradient D1 Position = some Gradient)
    (hEnd : Ops.EndGet D1 Octrees = some D2) :
    (W.GetNormal Ops Position).Return = .ok Gradient ∧
    (W.GetNormal Ops Position).World.Data = some D2 ∧
    NewCalls W (W.GetNormal Ops Position) =
      [.BeginGet ⟨⟨Position.X - 1, Position.Y - 1, Position.Z - 1⟩,
          ⟨Position.X + 2, Position.Y + 2, Position.Z + 2⟩⟩ (some Octrees),
        .GetGradient Position, .EndGet Octrees] ∧
    (∀ Q : FIntVector,
      FIntBox.IsInside ⟨⟨Position.X - 1, Position.Y - 1, Position.Z - 1⟩,
          ⟨Position.X + 2, Position.Y + 2, Position.Z + 2⟩⟩ Q = true ↔
        |Q.X - Position.X| ≤ 1 ∧ |Q.Y - Position.Y| ≤ 1 ∧ |Q.Z - Position.Z| ≤ 1) ∧
    (LatticePoints ⟨Position.X - 1, Position.Y - 1, Position.Z - 1⟩
      ⟨Position.X + 2, Position.Y + 2, Position.Z + 2⟩).length = 27 := by
  refine ⟨?_, ?_, ?_, ?_, ?_⟩
  · simp [AVoxelWorld.GetNormal, hData, hBegin, hGradient, hEnd]
  · simp [AVoxelWorld.GetNormal, hData, hBegin, hGradient, hEnd, AVoxelWorld.SetData,
      AVoxelWorld.Call]
  · simp [AVoxelWorld.GetNormal, hData, hBegin, hGradient, hEnd, AVoxelWorld.SetData,
      AVoxelWorld.Call, NewCalls]
  · intro Q
    simp only [FIntBox.IsInside, decide_eq_true_eq, abs_le]
    constructor <;> intro h <;> omega
  · have h : ∀ A : Int, (IntRange (A - 1) (A + 2)).length = 3 := by
      intro A
      simp only [IntRange, List.length_map, List.length_range]
      omega
    have e : ∀ A : Int, IntRange (A - 1) (A + 2) = [A - 1, A - 1 + 1, A - 1 + 2] := by
      intro A
      have : (A + 2 - (A - 1)).toNat = 3 := by omega
      simp [IntRange, this, List.range_succ]
    simp [LatticePoints, e]

/-- C22. `SetLOD` and `SetSeed` assign their argument exactly when the world is
not created. On a world that is not created they change `LOD`, respectively
`Seed`, to the argument and nothing else; on a created world they log an error
and change no field of the actor (for `SetLOD` the argument is a `uint8`). -/
theorem SetLOD_SetSeed_frozen {σ : Type} (W : AVoxelWorld σ) (NewLOD : Nat) (InSeed : Int)
    (hLOD : NewLOD < 256) :
    (W.bIsCreated = false →
      W.SetLOD NewLOD = ⟨.ok (), { W with LOD := (NewLOD : Int) }⟩ ∧
      W.SetSeed InSeed = ⟨.ok (), { W with Seed := InSeed }⟩) ∧
    (W.bIsCreated = true →
      W.SetLOD NewLOD = ⟨.ok (), W.LogError "SetLOD: World is created"⟩ ∧
      W.SetSeed InSeed = ⟨.ok (), W.LogError "Can't set seed when created"⟩) ∧
    ((NewLOD : Int) ≠ W.LOD →
      ((W.SetLOD NewLOD).World.LOD = (NewLOD : Int) ↔ W.bIsCreated = false)) ∧
    (InSeed ≠ W.Seed → ((W.SetSeed InSeed).World.Seed = InSeed ↔ W.bIsCreated = false)) := by
  have hMod : NewLOD % 256 = NewLOD := Nat.mod_eq_of_lt hLOD
  refine ⟨?_, ?_, ?_, ?_⟩
  · intro h
    simp [AVoxelWorld.SetLOD, AVoxelWorld.SetSeed, h, hMod]
  · intro h
    simp [AVoxelWorld.SetLOD, AVoxelWorld.SetSeed, h]
  · intro hNe
    cases h : W.bIsCreated with
    | false => simp [AVoxelWorld.SetLOD, h, hMod]
    | true =>
      simp only [AVoxelWorld.SetLOD, h, Bool.not_true, Bool.false_eq_true, if_false,
        AVoxelWorld.LogError]
      simpa using fun h2 => hNe h2.symm
  · intro hNe
    cases h : W.bIsCreated with
    | false => simp [AVoxelWorld.SetSeed, h]
    | true =>
      simp only [AVoxelWorld.SetSeed, h, if_true, AVoxelWorld.LogError]
      simpa using fun h2 => hNe h2.symm

/-- C26. `GetIntersection` depends only on the unordered pair of its endpoints:
called on the same actor with `Start` and `End` exchanged it gives the same
outcome, that is the same return value, the same two output positions, the same
calls and the same store. -/
theorem GetIntersection_symmetric {σ : Type} (Ops : FVoxelDataOps σ)
    (HaveSameSign : ℚ → ℚ → Bool) (W : AVoxelWorld σ) (Start End : FIntVector) :
    W.GetIntersection Ops HaveSameSign Start End =
      W.GetIntersection Ops HaveSameSign End Start := by
  have hRej : AVoxelWorld.GetIntersection.Rejects (End - Start) =
      AVoxelWorld.GetIntersection.Rejects (Start - End) := by
    simp only [AVoxelWorld.GetIntersection.Rejects, FIntVector.sub_def]
    have hx : End.X - Start.X ≠ 0 ↔ Start.X - End.X ≠ 0 := by omega
    have hy : End.Y - Start.Y ≠ 0 ↔ Start.Y - End.Y ≠ 0 := by omega
    have hz : End.Z - Start.Z ≠ 0 ↔ Start.Z - End.Z ≠ 0 := by omega
    simp only [hx, hy, hz]
  simp only [AVoxelWorld.GetIntersection, hRej, min_comm Start.X, min_comm Start.Y,
    min_comm Start.Z, max_comm Start.X, max_comm Start.Y, max_comm Start.Z]

/-- C30. For an actor transform whose `InverseTransformPosition` undoes its
`TransformPosition`, and a voxel size that is not zero, `GlobalToLocal` of
`LocalToGlobal` of an integer voxel position is that position (exact
arithmetic, `RoundToInt` rounding to the nearest integer). -/
theorem GlobalToLocal_LocalToGlobal {σ : Type} (W : AVoxelWorld σ) (Position : FIntVector)
    (hInvertible : ∀ V, W.ActorTransform.InverseTransformPosition
      (W.ActorTransform.TransformPosition V) = V)
    (hSize : W.VoxelSize ≠ 0) :
    W.GlobalToLocal (W.LocalToGlobal Position) = Position := by
  have hR : ∀ N : Int, FMath.RoundToInt (W.VoxelSize * (N : ℚ) / W.VoxelSize) = N := by
    intro N
    rw [mul_div_cancel_left₀ _ hSize]
    simp only [FMath.RoundToInt]
    rw [Int.floor_eq_iff]
    constructor
    · linarith
    · linarith
  simp only [AVoxelWorld.GlobalToLocal, AVoxelWorld.LocalToGlobal, AVoxelWorld.LocalToGlobalFloat,
    hInvertible]
  show FIntVector.mk _ _ _ = Position
  have e : ∀ (s : ℚ) (V : FVector), (s * V : FVector) = ⟨s * V.X, s * V.Y, s * V.Z⟩ :=
    fun _ _ => rfl
  have e2 : ∀ (V : FVector) (s : ℚ), (V / s : FVector) = ⟨V.X / s, V.Y / s, V.Z / s⟩ :=
    fun _ _ => rfl
  simp only [e, e2, FIntVector.toFVector, hR]

/-- C29. After every sequence of `StartServer`, `ConnectClient` and `EndPlay` on a
freshly constructed actor, `TcpServer` and `TcpClient` are not both valid.
`StartServer` makes `TcpServer` valid when there is no client and leaves both
pointers as they are when there is one; `ConnectClient` makes `TcpClient` valid
when there is no server and leaves both pointers as they are when there is one. -/
theorem network_roles_exclusive {σ : Type} (ActorTransform : FTransform)
    (Calls : List FNetworkCall) (W : AVoxelWorld σ) (Ip : String) (Port : Int) :
    (((AVoxelWorld.Construct σ ActorTransform).RunNetwork Calls).TcpServer &&
      ((AVoxelWorld.Construct σ ActorTransform).RunNetwork Calls).TcpClient) = false ∧
    (W.StartServer Ip Port).World.TcpServer = (if W.TcpClient then W.TcpServer else true) ∧
    (W.StartServer Ip Port).World.TcpClient = W.TcpClient ∧
    (W.ConnectClient Ip Port).World.TcpClient = (if W.TcpServer then W.TcpClient else true) ∧
    (W.ConnectClient Ip Port).World.TcpServer = W.TcpServer := by
  have hStep : ∀ (Calls : List FNetworkCall) (W : AVoxelWorld σ),
      (W.TcpServer && W.TcpClient) = false →
      ((W.RunNetwork Calls).TcpServer && (W.RunNetwork Calls).TcpClient) = false := by
    intro Calls
    induction Calls with
    | nil => exact fun W h => h
    | cons C Calls ih =>
      intro W h
      cases C with
      | StartServer Ip Port =>
        simp only [AVoxelWorld.RunNetwork]
        apply ih
        cases hM : W.bMultiplayer <;> cases hC : W.TcpClient <;>
          simp_all [AVoxelWorld.StartServer, AVoxelWorld.LogError]
      | ConnectClient Ip Port =>
        simp only [AVoxelWorld.RunNetwork]
        apply ih
        cases hM : W.bMultiplayer <;> cases hC : W.TcpServer <;>
          simp_all [AVoxelWorld.ConnectClient, AVoxelWorld.LogError]
      | EndPlay =>
        simp only [AVoxelWorld.RunNetwork]
        apply ih
        simp [AVoxelWorld.EndPlay]
  refine ⟨hStep Calls _ rfl, ?_, ?_, ?_, ?_⟩
  · cases hM : W.bMultiplayer <;> cases hC : W.TcpClient <;>
      simp [AVoxelWorld.StartServer, AVoxelWorld.LogError, hM, hC]
  · cases hM : W.bMultiplayer <;> cases hC : W.TcpClient <;>
      simp [AVoxelWorld.StartServer, AVoxelWorld.LogError, hM, hC]
  · cases hM : W.bMultiplayer <;> cases hC : W.TcpServer <;>
      simp [AVoxelWorld.ConnectClient, AVoxelWorld.LogError, hM, hC]
  · cases hM : W.bMultiplayer <;> cases hC : W.TcpServer <;>
      simp [AVoxelWorld.ConnectClient, AVoxelWorld.LogError, hM, hC]

theorem Body_no_check_failure {σ : Type} (Ops : FVoxelDataOps σ) (HaveSameSign : ℚ → ℚ → Bool)
    (D : σ) (hGuard : ∀ A B : ℚ, HaveSameSign A B = false → A - B ≠ 0)
    (S : FIntersectionScan σ) (X Y Z : Int)
    (hE : S.Exit ≠ some (.error .CheckFailed)) :
    (AVoxelWorld.GetIntersection.Body Ops HaveSameSign D S X Y Z).Exit ≠
      some (.error .CheckFailed) := by
  unfold AVoxelWorld.GetIntersection.Body
  by_cases hIn : Ops.IsInWorld D ⟨X, Y, Z⟩ = true
  · cases hV : Ops.GetValue D ⟨X, Y, Z⟩ with
    | none => simp [hIn, hV]
    | some Value =>
      simp only [hIn, hV, Bool.not_true, Bool.false_eq_true, if_false]
      by_cases hS : HaveSameSign S.OldValue Value = true
      · simpa [hS] using hE
      · have hS2 : HaveSameSign S.OldValue Value = false := by simpa using hS
        have hNe := hGuard _ _ hS2
        simpa [hS2, hNe] using hE
  · simp [hIn]

theorem Scan_no_check_failure {σ : Type} (Ops : FVoxelDataOps σ) (HaveSameSign : ℚ → ℚ → Bool)
    (D : σ) (hGuard : ∀ A B : ℚ, HaveSameSign A B = false → A - B ≠ 0)
    (S : FIntersectionScan σ) (Ps : List FIntVector)
    (hE : S.Exit ≠ some (.error .CheckFailed)) :
    (AVoxelWorld.GetIntersection.Scan Ops HaveSameSign D S Ps).Exit ≠
      some (.error .CheckFailed) := by
  induction Ps generalizing S with
  | nil => exact hE
  | cons P Ps ih =>
    simp only [AVoxelWorld.GetIntersection.Scan]
    have hB := Body_no_check_failure Ops HaveSameSign D hGuard S P.X P.Y P.Z hE
    split_ifs
    · exact hB
    · exact ih _ hB

theorem GetIntersection_no_check_failure {σ : Type} (Ops : FVoxelDataOps σ)
    (HaveSameSign : ℚ → ℚ → Bool)
    (hGuard : ∀ A B : ℚ, HaveSameSign A B = false → A - B ≠ 0)
    (W : AVoxelWorld σ) (Start End : FIntVector) :
    (W.GetIntersection Ops HaveSameSign Start End).Return ≠ .error .CheckFailed := by
  by_cases hRej : AVoxelWorld.GetIntersection.Rejects (End - Start) = true
  · simp [AVoxelWorld.GetIntersection, hRej]
  have hRej2 : AVoxelWorld.GetIntersection.Rejects (End - Start) = false := by simpa using hRej
  cases hData : W.Data with
  | none => simp [AVoxelWorld.GetIntersection, hRej2, hData]
  | some D =>
    cases hBegin : Ops.BeginGet D ⟨AVoxelWorld.GetIntersection.RealStart Start End,
        AVoxelWorld.GetIntersection.RealEnd Start End⟩ with
    | none =>
      simp only [AVoxelWorld.GetIntersection.RealStart, AVoxelWorld.GetIntersection.RealEnd]
        at hBegin
      simp [AVoxelWorld.GetIntersection, hRej2, hData, hBegin]
    | some OD =>
      obtain ⟨Octrees, D1⟩ := OD
      cases hOld : Ops.GetValue D1 (AVoxelWorld.GetIntersection.RealStart Start End) with
      | none =>
        simp only [AVoxelWorld.GetIntersection.RealStart, AVoxelWorld.GetIntersection.RealEnd]
          at hBegin hOld
        simp [AVoxelWorld.GetIntersection, hRej2, hData, hBegin, hOld]
      | some OldValue =>
        rw [GetIntersection_eq_Scan Ops HaveSameSign D W Start End Octrees D1 OldValue hRej2 hData
          hBegin hOld]
        have hScan := Scan_no_check_failure Ops HaveSameSign D1 hGuard
          (AVoxelWorld.GetIntersection.Enter
            (((W.SetData D1).Call (.BeginGet ⟨AVoxelWorld.GetIntersection.RealStart Start End,
              AVoxelWorld.GetIntersection.RealEnd Start End⟩ (some Octrees))).Call
              (.GetValue (AVoxelWorld.GetIntersection.RealStart Start End)))
            OldValue (AVoxelWorld.GetIntersection.RealStart Start End))
          (LatticePoints (AVoxelWorld.GetIntersection.RealStart Start End)
            (AVoxelWorld.GetIntersection.RealEnd Start End))
          (by simp [AVoxelWorld.GetIntersection.Enter])
        generalize AVoxelWorld.GetIntersection.Scan Ops HaveSameSign D1
          (AVoxelWorld.GetIntersection.Enter
            (((W.SetData D1).Call (.BeginGet ⟨AVoxelWorld.GetIntersection.RealStart Start End,
              AVoxelWorld.GetIntersection.RealEnd Start End⟩ (some Octrees))).Call
              (.GetValue (AVoxelWorld.GetIntersection.RealStart Start End)))
            OldValue (AVoxelWorld.GetIntersection.RealStart Start End))
          (LatticePoints (AVoxelWorld.GetIntersection.RealStart Start End)
            (AVoxelWorld.GetIntersection.RealEnd Start End)) = S at hScan
        cases hX : S.Exit with
        | some E =>
          cases E with
          | error F =>
            simp only [hX]
            intro h
            apply hScan
            rw [hX]
            simpa using h
          | ok B => simp [hX]
        | none =>
          cases hEnd : Ops.EndGet D1 Octrees with
          | none => simp [hX, hEnd]
          | some D2 => simp [hX, hEnd]

/-- C27. With `HaveSameSign` modelled as "both non-negative or both negative",
two samples that do not have the same sign are different, so `OldValue - Value`
is not zero and the division that gives `t` is defined; `GetIntersection` with
that `HaveSameSign` never ends on the failure of `check(OldValue - Value != 0)`,
whatever the store answers. -/
theorem HaveSameSign_guards_division {σ : Type} (Ops : FVoxelDataOps σ) (W : AVoxelWorld σ)
    (Start End : FIntVector) (OldValue Value : ℚ)
    (hSign : FVoxelUtilities.HaveSameSign OldValue Value = false) :
    OldValue - Value ≠ 0 ∧
    (W.GetIntersection Ops FVoxelUtilities.HaveSameSign Start End).Return ≠
      .error .CheckFailed := by
  have hGuard : ∀ A B : ℚ, FVoxelUtilities.HaveSameSign A B = false → A - B ≠ 0 := by
    intro A B h hEq
    have hAB : A = B := sub_eq_zero.1 hEq
    subst hAB
    simp [FVoxelUtilities.HaveSameSign] at h
  exact ⟨hGuard _ _ hSign, GetIntersection_no_check_failure Ops _ hGuard W Start End⟩

/-- C24. For every `Center` and every `Radius` (so for every `Radius ≥ 0`), a
position whose distance to `Center` is less than `Radius` lies in `SphereBox`
(`Min` inclusive, `Max` exclusive); hence a box that does not intersect
`SphereBox` does not contain that position. -/
theorem SphereBox_contains_sphere (Center : FIntVector) (Radius : ℚ) (P : FIntVector)
    (hInside : Real.sqrt (((P.X : ℝ) - Center.X) ^ 2 + ((P.Y : ℝ) - Center.Y) ^ 2 +
      ((P.Z : ℝ) - Center.Z) ^ 2) < (Radius : ℝ)) :
    (AVoxelWorld.SwapWorldGeneratorSphere.SphereBox Center Radius).IsInside P = true ∧
    ∀ Box : FIntBox,
      (AVoxelWorld.SwapWorldGeneratorSphere.SphereBox Center Radius).Intersect Box = false →
      Box.IsInside P = false := by
  have h := (SphereIsInside_iff_sqrt Center Radius P).2 hInside
  simp only [FVoxelSphereShapeWorldGenerator.IsInside, decide_eq_true_eq,
    FIntVector.SizeSquared, FIntVector.sub_def] at h
  obtain ⟨hR, hLt⟩ := h
  have hCeil : Radius ≤ (⌈Radius⌉ : ℚ) := Int.le_ceil Radius
  have hBound : ∀ d e f : Int, ((d * d + e * e + f * f : Int) : ℚ) < Radius * Radius →
      -⌈Radius⌉ < d ∧ d < ⌈Radius⌉ := by
    intro d e f hd
    have h1 : ((d : ℚ)) * d < Radius * Radius := by
      have he : (0 : ℚ) ≤ (e : ℚ) * e := mul_self_nonneg _
      have hf : (0 : ℚ) ≤ (f : ℚ) * f := mul_self_nonneg _
      push_cast at hd
      linarith
    have h2 : |(d : ℚ)| < Radius :=
      abs_lt_of_sq_lt_sq (by rw [pow_two, pow_two]; exact h1) (le_of_lt hR)
    have h3 := abs_lt.1 h2
    constructor
    · have : (-(⌈Radius⌉ : ℚ)) < d := by linarith
      exact_mod_cast this
    · have : (d : ℚ) < ⌈Radius⌉ := by linarith
      exact_mod_cast this
  have hX := hBound (P.X - Center.X) (P.Y - Center.Y) (P.Z - Center.Z) hLt
  have hY := hBound (P.Y - Center.Y) (P.X - Center.X) (P.Z - Center.Z)
    (by have := hLt; push_cast at this ⊢; linarith)
  have hZ := hBound (P.Z - Center.Z) (P.X - Center.X) (P.Y - Center.Y)
    (by have := hLt; push_cast at this ⊢; linarith)
  have hIn : (AVoxelWorld.SwapWorldGeneratorSphere.SphereBox Center Radius).IsInside P = true := by
    simp only [AVoxelWorld.SwapWorldGeneratorSphere.SphereBox, FIntBox.IsInside,
      FIntVector.sub_def, FIntVector.add_def, decide_eq_true_eq]
    omega
  refine ⟨hIn, fun Box hBox => ?_⟩
  by_contra hP
  have hP2 : Box.IsInside P = true := by simpa using hP
  simp only [FIntBox.IsInside, FIntBox.Intersect, decide_eq_true_eq, decide_eq_false_iff_not]
    at hIn hP2 hBox
  apply hBox
  omega

/-- The editor path keeps the size of the world in step with `LOD`: for
`0 < CHUNK_SIZE < 4096` and `LOD` in `1..19`, `PostEditChangeProperty` returns and
leaves `WorldSizeInVoxel = CHUNK_SIZE * 2^LOD` and every other field as it was,
and the product stays below `2^31` (no overflow of a 32-bit `int`). -/
theorem PostEditChangeProperty_sets_WorldSizeInVoxel {σ : Type} (CHUNK_SIZE : Int)
    (W : AVoxelWorld σ)
    (hSize : 0 < CHUNK_SIZE ∧ CHUNK_SIZE < 4096) (hLOD : 1 ≤ W.LOD ∧ W.LOD ≤ 19) :
    W.PostEditChangeProperty CHUNK_SIZE =
      ⟨.ok (), { W with WorldSizeInVoxel := some (CHUNK_SIZE * 2 ^ W.LOD.toNat) }⟩ ∧
    CHUNK_SIZE * 2 ^ W.LOD.toNat < (2 : Int) ^ 31 := by
  have hN : W.LOD.toNat ≤ 19 := by omega
  have hP : (2 : Int) ^ W.LOD.toNat ≤ 2 ^ 19 := pow_le_pow_right₀ (by norm_num) hN
  have hP0 : (0 : Int) < 2 ^ W.LOD.toNat := by positivity
  have h1 : CHUNK_SIZE * 2 ^ W.LOD.toNat < (2 : Int) ^ 31 := by
    have : CHUNK_SIZE * 2 ^ W.LOD.toNat ≤ 4095 * 2 ^ 19 := by
      have a : CHUNK_SIZE * 2 ^ W.LOD.toNat ≤ 4095 * 2 ^ W.LOD.toNat :=
        mul_le_mul_of_nonneg_right (by omega) (le_of_lt hP0)
      have b : (4095 : Int) * 2 ^ W.LOD.toNat ≤ 4095 * 2 ^ 19 :=
        mul_le_mul_of_nonneg_left hP (by norm_num)
      exact le_trans a b
    have e : (4095 : Int) * 2 ^ 19 < 2 ^ 31 := by norm_num
    exact lt_of_le_of_lt this e
  have h2 : -(2 : Int) ^ 31 ≤ CHUNK_SIZE * 2 ^ W.LOD.toNat := by
    have : (0 : Int) ≤ CHUNK_SIZE * 2 ^ W.LOD.toNat :=
      mul_nonneg (by omega) (le_of_lt hP0)
    have e : -(2 : Int) ^ 31 ≤ 0 := by norm_num
    exact le_trans e this
  refine ⟨?_, h1⟩
  unfold AVoxelWorld.PostEditChangeProperty
  rw [if_pos ⟨by omega, by omega, h2, h1⟩]

theorem GetValue_served {σ : Type} (Ops : FVoxelDataOps σ) (W : AVoxelWorld σ) (D : σ)
    (Q : FIntVector) (V : FIntVector → ℚ) (hData : W.Data = some D)
    (hServe : Ops.IsInWorld D Q = true →
      ∃ Octrees D1 Material, Ops.BeginGet D (FIntBox.ofPosition Q) = some (Octrees, D1) ∧
        Ops.GetValueAndMaterial D1 Q = some (V Q, Material) ∧
        Ops.EndGet D1 Octrees = some D) :
    (W.GetValue Ops Q).Return = .ok (if Ops.IsInWorld D Q then V Q else 0) ∧
    (W.GetValue Ops Q).World.Data = some D := by
  cases hIn : Ops.IsInWorld D Q with
  | false => simp [AVoxelWorld.GetValue, hData, hIn, AVoxelWorld.Call, AVoxelWorld.LogError]
  | true =>
    obtain ⟨Octrees, D1, Material, h1, h2, h3⟩ := hServe hIn
    simp [AVoxelWorld.GetValue, hData, hIn, h1, h2, h3, AVoxelWorld.Call, AVoxelWorld.SetData]

theorem IsInside_Loop_served {σ : Type} (Ops : FVoxelDataOps σ) (D : σ) (V : FIntVector → ℚ)
    (L : List FIntVector) (W : AVoxelWorld σ) (hData : W.Data = some D)
    (hServe : ∀ Q ∈ L, Ops.IsInWorld D Q = true →
      ∃ Octrees D1 Material, Ops.BeginGet D (FIntBox.ofPosition Q) = some (Octrees, D1) ∧
        Ops.GetValueAndMaterial D1 Q = some (V Q, Material) ∧
        Ops.EndGet D1 Octrees = some D) :
    (AVoxelWorld.IsInside.Loop Ops W L).Return =
      .ok (L.any fun Q => decide ((if Ops.IsInWorld D Q then V Q else 0) ≤ 0)) := by
  induction L generalizing W with
  | nil => rfl
  | cons Q L ih =>
    obtain ⟨h1, h2⟩ := GetValue_served Ops W D Q V hData (hServe Q (by simp))
    have hRest := fun W1 hW1 => ih W1 hW1 (fun Q2 hQ2 => hServe Q2 (List.mem_cons_of_mem _ hQ2))
    simp only [AVoxelWorld.IsInside.Loop, List.any_cons]
    generalize W.GetValue Ops Q = Out at h1 h2
    obtain ⟨R, W1⟩ := Out
    simp only at h1 h2
    subst h1
    simp only []
    by_cases hV : (if Ops.IsInWorld D Q then V Q else 0) ≤ 0
    · simp [hV]
    · simp only [hV, if_false, decide_False, Bool.false_or]
      exact hRest W1 h2

/-- C28. Let the store serve every read at a neighbouring position that is in
the world (the Get transaction on that position is accepted, yields a value and
leaves the store as it was). Then `IsInside` returns, and it returns `true`
exactly when `GetValue` is at most `0` at one of the positions of
`GetNeighboringPositions`. At a neighbouring position that is not in the world
`GetValue` yields `0`, so if there is such a position `IsInside` returns `true`. -/
theorem IsInside_out_of_world_is_solid {σ : Type} (Ops : FVoxelDataOps σ) (W : AVoxelWorld σ)
    (D : σ) (Position : FVector) (V : FIntVector → ℚ) (hData : W.Data = some D)
    (hServe : ∀ Q ∈ W.GetNeighboringPositions Position, Ops.IsInWorld D Q = true →
      ∃ Octrees D1 Material, Ops.BeginGet D (FIntBox.ofPosition Q) = some (Octrees, D1) ∧
        Ops.GetValueAndMaterial D1 Q = some (V Q, Material) ∧
        Ops.EndGet D1 Octrees = some D) :
    (∃ Result, (W.IsInside Ops Position).Return = .ok Result ∧
      (Result = true ↔
        ∃ Q ∈ W.GetNeighboringPositions Position, ∃ Value,
          (W.GetValue Ops Q).Return = .ok Value ∧ Value ≤ 0)) ∧
    (∀ Q ∈ W.GetNeighboringPositions Position, Ops.IsInWorld D Q = false →
      (W.GetValue Ops Q).Return = .ok 0) ∧
    ((∃ Q ∈ W.GetNeighboringPositions Position, Ops.IsInWorld D Q = false) →
      (W.IsInside Ops Position).Return = .ok true) := by
  have hLoop := IsInside_Loop_served Ops D V (W.GetNeighboringPositions Position) W hData hServe
  have hVal : ∀ Q ∈ W.GetNeighboringPositions Position,
      (W.GetValue Ops Q).Return = .ok (if Ops.IsInWorld D Q then V Q else 0) :=
    fun Q hQ => (GetValue_served Ops W D Q V hData (hServe Q hQ)).1
  refine ⟨⟨_, hLoop, ?_⟩, ?_, ?_⟩
  · simp only [List.any_eq_true, decide_eq_true_eq]
    constructor
    · rintro ⟨Q, hQ, hLe⟩
      exact ⟨Q, hQ, _, hVal Q hQ, hLe⟩
    · rintro ⟨Q, hQ, Value, hRet, hLe⟩
      rw [hVal Q hQ] at hRet
      have : (if Ops.IsInWorld D Q = true then V Q else 0) = Value := by
        simpa using hRet
      exact ⟨Q, hQ, by rw [this]; exact hLe⟩
  · intro Q hQ hOut
    rw [hVal Q hQ]
    simp [hOut]
  · rintro ⟨Q, hQ, hOut⟩
    show (AVoxelWorld.IsInside.Loop Ops W (W.GetNeighboringPositions Position)).Return = _
    rw [hLoop]
    have : (W.GetNeighboringPositions Position).any
        (fun Q => decide ((if Ops.IsInWorld D Q then V Q else 0) ≤ 0)) = true := by
      rw [List.any_eq_true]
      exact ⟨Q, hQ, by simp [hOut]⟩
    rw [this]

theorem FVoxelData.Ops_serves (D : FVoxelData) (Q : FIntVector) (hIn : D.IsInWorld Q = true) :
    ∃ Octrees D1 Material,
      FVoxelData.Ops.BeginGet D (FIntBox.ofPosition Q) = some (Octrees, D1) ∧
      FVoxelData.Ops.GetValueAndMaterial D1 Q = some ((D.Read Q).1, Material) ∧
      FVoxelData.Ops.EndGet D1 Octrees = some D := by
  refine ⟨D.IdsOfBox (FIntBox.ofPosition Q),
    { D with Transactions :=
        ⟨D.IdsOfBox (FIntBox.ofPosition Q), false, FIntBox.ofPosition Q⟩ :: D.Transactions },
    (D.Read Q).2, ?_, ?_, ?_⟩
  · simp [FVoxelData.Ops, FVoxelData.BeginGet, ofPosition_valid]
  · have hP2 : FVoxelData.IsInWorld { D with Transactions :=
          ⟨D.IdsOfBox (FIntBox.ofPosition Q), false, FIntBox.ofPosition Q⟩ :: D.Transactions } Q
        = true := hIn
    simp only [FVoxelData.Ops, FVoxelData.GetValueAndMaterial, hP2, List.any_cons,
      ofPosition_inside, Bool.true_or, Bool.and_self, if_true]
    rfl
  · simp [FVoxelData.Ops, FVoxelData.End, List.eraseP_cons]

/-! ## Evaluations on the small world -/

section Evaluations

attribute [local semireducible] Rat.add Rat.mul Rat.sub Rat.inv

/-- C1, counterexample. In the world `[-16, 16)³` the position `(0, 0, 30)` is not
in the world, and `GetValue` returns the default value `0` and `GetMaterial` the
default material: both return, neither ends in a fault. -/
theorem GetValue_out_of_world_returns_default :
    (Example.World.IsInWorld FVoxelData.Ops ⟨0, 0, 30⟩).Return = .ok false ∧
    (Example.World.GetValue FVoxelData.Ops ⟨0, 0, 30⟩).Return = .ok 0 ∧
    (Example.World.GetMaterial FVoxelData.Ops ⟨0, 0, 30⟩).Return = .ok ⟨0, 0, 0⟩ :=
  ⟨rfl, rfl, rfl⟩

/-- C1, witness of the amended statement at the position `(0, 0, 30)`. -/
theorem GetValue_not_in_world_witness :
    Example.World.Data = some Example.Data ∧
    FVoxelData.Ops.IsInWorld Example.Data ⟨0, 0, 30⟩ = false ∧
    Example.World.GetValue FVoxelData.Ops ⟨0, 0, 30⟩ =
      ⟨.ok 0,
        (Example.World.Call (.IsInWorld ⟨0, 0, 30⟩)).LogError
          "Get value: Not in world: (%d, %d, %d)"⟩ ∧
    Example.World.GetMaterial FVoxelData.Ops ⟨0, 0, 30⟩ =
      ⟨.ok ⟨0, 0, 0⟩,
        (Example.World.Call (.IsInWorld ⟨0, 0, 30⟩)).LogError
          "Get material: Not in world: (%d, %d, %d)"⟩ :=
  ⟨rfl, rfl, GetValue_not_in_world FVoxelData.Ops Example.World Example.Data ⟨0, 0, 30⟩ rfl rfl⟩

/-- C2, witness: writing `5` and the material `(1, 0, 0)` at `(1, 2, 3)`. -/
theorem SetValue_then_GetValue_witness :
    Example.World.Data = some Example.Data ∧
    Example.Data.IsInWorld ⟨1, 2, 3⟩ = true ∧
    ((Example.World.SetValue FVoxelData.Ops ⟨1, 2, 3⟩ 5).World.GetValue FVoxelData.Ops
      ⟨1, 2, 3⟩).Return = .ok 5 ∧
    ((Example.World.SetMaterial FVoxelData.Ops ⟨1, 2, 3⟩ ⟨1, 0, 0⟩).World.GetMaterial
      FVoxelData.Ops ⟨1, 2, 3⟩).Return = .ok ⟨1, 0, 0⟩ :=
  have h := SetValue_then_GetValue Example.World Example.Data ⟨1, 2, 3⟩ 5 ⟨1, 0, 0⟩ rfl rfl
  ⟨rfl, rfl, h.2.1, h.2.2.2⟩

/-- C3, witness: a save of depth 2 offered to the world of depth 1. -/
theorem LoadFromSave_LOD_mismatch_witness :
    (⟨2, []⟩ : FVoxelWorldSave).LOD ≠ Example.World.LOD ∧
    (Example.World.LoadFromSave FVoxelData.Ops ⟨2, []⟩ true).World.Data = Example.World.Data ∧
    NewCalls Example.World (Example.World.LoadFromSave FVoxelData.Ops ⟨2, []⟩ true) = [] :=
  have h := LoadFromSave_LOD_mismatch FVoxelData.Ops Example.World ⟨2, []⟩ true (by decide)
  ⟨by decide, h.2.1, h.2.2.2⟩

/-- C4, evaluation at the failing input. For the sphere of centre `(8, 8, 8)` and
radius `10` the predicate returns DISCARD (`-1`) for the chunk box `[0, 16)³`,
although the box contains the centre of the sphere, which lies inside the sphere. -/
theorem SwapWorldGeneratorSphere_discards_box_around_center :
    AVoxelWorld.SwapWorldGeneratorSphere.Predicate ⟨8, 8, 8⟩ 10 ⟨⟨0, 0, 0⟩, ⟨16, 16, 16⟩⟩ = -1 ∧
    FIntBox.IsInside ⟨⟨0, 0, 0⟩, ⟨16, 16, 16⟩⟩ ⟨8, 8, 8⟩ = true ∧
    AVoxelWorld.SwapWorldGeneratorSphere.IsInside ⟨8, 8, 8⟩ 10 ⟨8, 8, 8⟩ = true := by
  decide

/-- C5, counterexample. The segment from `(0, 0, 2)` down to `(0, 0, -2)` varies along
one axis and lies in the world; the density is `Z + 1/2`. `GetIntersection`
returns `true` with `OutVoxelPosition = (0, 0, 0)`, while the first lattice point
in the order from `Start` towards `End` whose value changes sign with respect to
the preceding sample is `(0, 0, -1)`. -/
theorem GetIntersection_reversed_segment :
    AxesVarying ⟨0, 0, 2⟩ ⟨0, 0, -2⟩ = 1 ∧
    (∀ P ∈ SegmentPoints ⟨0, 0, 2⟩ ⟨0, 0, -2⟩, Example.Data.IsInWorld P = true) ∧
    (Example.World.GetIntersection FVoxelData.Ops FVoxelUtilities.HaveSameSign
        ⟨0, 0, 2⟩ ⟨0, 0, -2⟩).Return = .ok ⟨true, some ⟨0, 0, -50⟩, some ⟨0, 0, 0⟩⟩ ∧
    FirstSignChangeAlong FVoxelUtilities.HaveSameSign (fun P => (Example.Generator P).1)
        (SegmentPoints ⟨0, 0, 2⟩ ⟨0, 0, -2⟩) = some ⟨0, 0, -1⟩ :=
  ⟨by decide, by decide, by rfl, by decide⟩

/-- C5, witness of the amended statement on the segment from `(0, 0, -2)` up to
`(0, 0, 2)`: the position reported, `(0, 0, 0)`, is the first sign change from
`Start` towards `End`. -/
theorem GetIntersection_first_sign_change_witness :
    AxesVarying ⟨0, 0, -2⟩ ⟨0, 0, 2⟩ = 1 ∧
    Example.World.Data = some Example.Data ∧
    FVoxelData.Ops.BeginGet Example.Data
      ⟨AVoxelWorld.GetIntersection.RealStart ⟨0, 0, -2⟩ ⟨0, 0, 2⟩,
        AVoxelWorld.GetIntersection.RealEnd ⟨0, 0, -2⟩ ⟨0, 0, 2⟩⟩ =
      some ([3, 7], { Example.Data with
        Transactions := [⟨[3, 7], false, ⟨⟨0, 0, -2⟩, ⟨1, 1, 3⟩⟩⟩] }) ∧
    (∀ P ∈ SegmentPoints (AVoxelWorld.GetIntersection.RealStart ⟨0, 0, -2⟩ ⟨0, 0, 2⟩)
        (AVoxelWorld.GetIntersection.LastPoint ⟨0, 0, -2⟩ ⟨0, 0, 2⟩),
      FVoxelData.Ops.IsInWorld { Example.Data with
          Transactions := [⟨[3, 7], false, ⟨⟨0, 0, -2⟩, ⟨1, 1, 3⟩⟩⟩] } P = true ∧
        FVoxelData.Ops.GetValue { Example.Data with
          Transactions := [⟨[3, 7], false, ⟨⟨0, 0, -2⟩, ⟨1, 1, 3⟩⟩⟩] } P =
          some (Example.Generator P).1) ∧
    (Example.World.GetIntersection FVoxelData.Ops FVoxelUtilities.HaveSameSign
        ⟨0, 0, -2⟩ ⟨0, 0, 2⟩).Return = .ok ⟨true, some ⟨0, 0, -50⟩, some ⟨0, 0, 0⟩⟩ ∧
    FirstSignChangeAlong FVoxelUtilities.HaveSameSign (fun P => (Example.Generator P).1)
      (SegmentPoints ⟨0, 0, -2⟩ ⟨0, 0, 2⟩) = some ⟨0, 0, 0⟩ :=
  have h := GetIntersection_first_sign_change FVoxelData.Ops FVoxelUtilities.HaveSameSign
    Example.World Example.Data
    { Example.Data with Transactions := [⟨[3, 7], false, ⟨⟨0, 0, -2⟩, ⟨1, 1, 3⟩⟩⟩] }
    [3, 7] (fun P => (Example.Generator P).1) ⟨0, 0, -2⟩ ⟨0, 0, 2⟩
    ⟨true, some ⟨0, 0, -50⟩, some ⟨0, 0, 0⟩⟩ (by decide) rfl (by rfl) (by decide) (by rfl) rfl
  ⟨by decide, rfl, by rfl, by decide, by rfl,
    ((h.2.2.2 (by decide)) ▸ h.2.2.1 (fun V => by simp [FVoxelUtilities.HaveSameSign])).symm⟩

/-- C6, evaluation at the failing input. On the segment from `(0, 0, 14)` to
`(0, 0, 17)` the scan leaves the world at `(0, 0, 16)`: `GetIntersection` returns
`false` from inside its loops after `BeginGet` and without `EndGet`, so the store
has one open transaction at return and had none at entry. -/
theorem GetIntersection_leaves_transaction_open :
    (Example.World.GetIntersection FVoxelData.Ops FVoxelUtilities.HaveSameSign
        ⟨0, 0, 14⟩ ⟨0, 0, 17⟩).Return = .ok ⟨false, none, none⟩ ∧
    NewCalls Example.World (Example.World.GetIntersection FVoxelData.Ops
        FVoxelUtilities.HaveSameSign ⟨0, 0, 14⟩ ⟨0, 0, 17⟩) =
      [.BeginGet ⟨⟨0, 0, 14⟩, ⟨1, 1, 18⟩⟩ (some [7]), .GetValue ⟨0, 0, 14⟩,
       .IsInWorld ⟨0, 0, 14⟩, .GetValue ⟨0, 0, 14⟩,
       .IsInWorld ⟨0, 0, 15⟩, .GetValue ⟨0, 0, 15⟩,
       .IsInWorld ⟨0, 0, 16⟩] ∧
    Example.World.Data.map (fun D => D.Transactions.length) = some 0 ∧
    (Example.World.GetIntersection FVoxelData.Ops FVoxelUtilities.HaveSameSign
        ⟨0, 0, 14⟩ ⟨0, 0, 17⟩).World.Data.map (fun D => D.Transactions.length) = some 1 :=
  ⟨by rfl, by decide, by rfl, by rfl⟩

/-- C7, evaluation at the failing input. On the segment from `(0, 0, -17)` to
`(0, 0, -15)` the minimum corner `(0, 0, -17)` is not in the world, and the first
call after `BeginGet` is `GetValue` at that corner: no `IsInWorld` precedes it. -/
theorem GetIntersection_samples_out_of_world :
    Example.Data.IsInWorld ⟨0, 0, -17⟩ = false ∧
    NewCalls Example.World (Example.World.GetIntersection FVoxelData.Ops
        FVoxelUtilities.HaveSameSign ⟨0, 0, -17⟩ ⟨0, 0, -15⟩) =
      [.BeginGet ⟨⟨0, 0, -17⟩, ⟨1, 1, -14⟩⟩ (some [3]), .GetValue ⟨0, 0, -17⟩] :=
  ⟨by rfl, by decide⟩

/-- C9, counterexample. With `Start = End = (0, 0, 1)` the segment varies along no
axis, yet `GetIntersection` logs no error, opens a Get transaction, reads the
voxel and closes the transaction before it returns `false`. -/
theorem GetIntersection_same_point_not_rejected :
    AxesVarying ⟨0, 0, 1⟩ ⟨0, 0, 1⟩ = 0 ∧
    (Example.World.GetIntersection FVoxelData.Ops FVoxelUtilities.HaveSameSign
        ⟨0, 0, 1⟩ ⟨0, 0, 1⟩).Return = .ok ⟨false, none, none⟩ ∧
    (Example.World.GetIntersection FVoxelData.Ops FVoxelUtilities.HaveSameSign
        ⟨0, 0, 1⟩ ⟨0, 0, 1⟩).World.ErrorLog = [] ∧
    NewCalls Example.World (Example.World.GetIntersection FVoxelData.Ops
        FVoxelUtilities.HaveSameSign ⟨0, 0, 1⟩ ⟨0, 0, 1⟩) =
      [.BeginGet ⟨⟨0, 0, 1⟩, ⟨1, 1, 2⟩⟩ (some [7]), .GetValue ⟨0, 0, 1⟩,
       .IsInWorld ⟨0, 0, 1⟩, .GetValue ⟨0, 0, 1⟩, .EndGet [7]] :=
  ⟨by decide, by rfl, by rfl, by decide⟩

/-- C9, witness of the amended statement: the segment from `(0, 0, 0)` to `(1, 1, 0)`
varies along two axes and is rejected without any call on the store. -/
theorem GetIntersection_contract_violation_witness :
    1 < AxesVarying ⟨0, 0, 0⟩ ⟨1, 1, 0⟩ ∧
    (Example.World.GetIntersection FVoxelData.Ops FVoxelUtilities.HaveSameSign
        ⟨0, 0, 0⟩ ⟨1, 1, 0⟩).Return = .ok ⟨false, none, none⟩ ∧
    NewCalls Example.World (Example.World.GetIntersection FVoxelData.Ops
        FVoxelUtilities.HaveSameSign ⟨0, 0, 0⟩ ⟨1, 1, 0⟩) = [] :=
  have h := (GetIntersection_contract_violation FVoxelData.Ops FVoxelUtilities.HaveSameSign
    Example.World ⟨0, 0, 0⟩ ⟨1, 1, 0⟩).1 (by decide)
  ⟨by decide, by rw [h.1], h.2.1⟩

/-- C11, evaluation at the failing input. For the sphere of centre `(8, 8, 8)` and
radius `10`, `SphereBox` is `[-2, 19)³`; the chunk box `[0, 16)³` intersects it
(it lies inside it), and the predicate still returns DISCARD (`-1`) for that box. -/
theorem Predicate_discards_box_intersecting_SphereBox :
    AVoxelWorld.SwapWorldGeneratorSphere.Predicate ⟨8, 8, 8⟩ 10 ⟨⟨0, 0, 0⟩, ⟨16, 16, 16⟩⟩ = -1 ∧
    AVoxelWorld.SwapWorldGeneratorSphere.SphereBox ⟨8, 8, 8⟩ 10 =
      ⟨⟨-2, -2, -2⟩, ⟨19, 19, 19⟩⟩ ∧
    (AVoxelWorld.SwapWorldGeneratorSphere.SphereBox ⟨8, 8, 8⟩ 10).Intersect
      ⟨⟨0, 0, 0⟩, ⟨16, 16, 16⟩⟩ = true := by
  decide

/-- C12, witness at the position `(0, 0, 30)`, outside the world `[-16, 16)³`. -/
theorem SetValue_not_in_world_witness :
    Example.World.Data = some Example.Data ∧
    FVoxelData.Ops.IsInWorld Example.Data ⟨0, 0, 30⟩ = false ∧
    (Example.World.SetValue FVoxelData.Ops ⟨0, 0, 30⟩ 5).World.Data = some Example.Data ∧
    NewCalls Example.World (Example.World.SetValue FVoxelData.Ops ⟨0, 0, 30⟩ 5) =
      [.IsInWorld ⟨0, 0, 30⟩] ∧
    (Example.World.SetMaterial FVoxelData.Ops ⟨0, 0, 30⟩ ⟨1, 0, 0⟩).World.Data =
      some Example.Data ∧
    NewCalls Example.World (Example.World.SetMaterial FVoxelData.Ops ⟨0, 0, 30⟩ ⟨1, 0, 0⟩) =
      [.IsInWorld ⟨0, 0, 30⟩] :=
  have h := SetValue_not_in_world FVoxelData.Ops Example.World Example.Data ⟨0, 0, 30⟩ 5
    ⟨1, 0, 0⟩ rfl rfl
  ⟨rfl, rfl, h.1.2.1, h.1.2.2, h.2.2.1, h.2.2.2⟩

/-- C14, witness: the generator of constant density `7` set on the small world. -/
theorem SetWorldGenerator_replaces_then_discards_everything_witness :
    Example.World.bIsCreated = true ∧
    (Example.World.SetWorldGenerator FVoxelData.Ops (some Example.NewGenerator)).Return =
      .ok () ∧
    (Example.World.SetWorldGenerator FVoxelData.Ops (some Example.NewGenerator)).World.Data =
      some ((Example.Data.SetWorldGenerator
        Example.NewGenerator.GetWorldGenerator).DiscardValuesByPredicate (fun _ => -1)) ∧
    NewCalls Example.World
        (Example.World.SetWorldGenerator FVoxelData.Ops (some Example.NewGenerator)) =
      [.SetWorldGenerator, .DiscardValuesByPredicate] :=
  have h := SetWorldGenerator_replaces_then_discards_everything FVoxelData.Ops Example.World
    Example.NewGenerator Example.Data
    (Example.Data.SetWorldGenerator Example.NewGenerator.GetWorldGenerator)
    ((Example.Data.SetWorldGenerator
      Example.NewGenerator.GetWorldGenerator).DiscardValuesByPredicate (fun _ => -1))
    rfl rfl rfl rfl
  ⟨rfl, h.1, h.2.1, h.2.2.2⟩

/-- C16, witness: the small world is unmodified and `(1, 2, 3)` reads `3 + 1/2`. -/
theorem GetValue_unmodified_world_witness :
    Example.World.Data = some Example.Data ∧
    Example.Data.DirtyChunks = [] ∧
    Example.Data.IsInWorld ⟨1, 2, 3⟩ = true ∧
    (Example.World.GetValue FVoxelData.Ops ⟨1, 2, 3⟩).Return =
      .ok (Example.Data.WorldGenerator ⟨1, 2, 3⟩).1 ∧
    (Example.Data.WorldGenerator ⟨1, 2, 3⟩).1 = 7 / 2 :=
  ⟨rfl, rfl, rfl, GetValue_unmodified_world Example.World Example.Data ⟨1, 2, 3⟩ rfl rfl rfl,
    by rfl⟩

/-- C20, witness: on the segment from `(0, 0, -2)` to `(0, 0, 2)` the density
`Z + 1/2` changes sign between `(0, 0, -1)` and `(0, 0, 0)`; the crossing fraction
is `1/2` and the point returned is `100 * (0, 0, -1/2)`. -/
theorem GetIntersection_interpolation_witness :
    (∀ A B : ℚ, FVoxelUtilities.HaveSameSign A B = false → A * B ≤ 0) ∧
    (Example.World.GetIntersection FVoxelData.Ops FVoxelUtilities.HaveSameSign
        ⟨0, 0, -2⟩ ⟨0, 0, 2⟩).Return = .ok ⟨true, some ⟨0, 0, -50⟩, some ⟨0, 0, 0⟩⟩ ∧
    ∃ (P0 P1 : FIntVector) (V0 V1 : ℚ),
      0 ≤ V0 / (V0 - V1) ∧ V0 / (V0 - V1) ≤ 1 ∧
      (some ⟨0, 0, 0⟩ : Option FIntVector) = some P1 ∧
      (some ⟨0, 0, -50⟩ : Option FVector) =
        some (Example.World.LocalToGlobalFloat
          ((1 - V0 / (V0 - V1)) * P0.toFVector + (V0 / (V0 - V1)) * P1.toFVector)) :=
  have h := GetIntersection_interpolation FVoxelData.Ops FVoxelUtilities.HaveSameSign
    Example.World ⟨0, 0, -2⟩ ⟨0, 0, 2⟩ ⟨true, some ⟨0, 0, -50⟩, some ⟨0, 0, 0⟩⟩
    FVoxelUtilities.HaveSameSign_false (by rfl) rfl
  ⟨FVoxelUtilities.HaveSameSign_false, by rfl,
    h.elim fun _ h1 => h1.elim fun _ h2 => h2.elim fun _ h3 => h3.elim fun _ h4 =>
      h4.elim fun _ h5 => h5.elim fun P0 h6 => h6.elim fun P1 h7 => h7.elim fun V0 h8 =>
        h8.elim fun V1 h9 =>
          ⟨P0, P1, V0, V1, h9.2.2.2.2.2.2.2.1, h9.2.2.2.2.2.2.2.2.1, h9.2.2.2.2.2.2.2.2.2.1,
            h9.2.2.2.2.2.2.2.2.2.2⟩⟩

/-- C18, witness: the client world receives twice two value diffs for the voxel
`(0, 0, 0)` (chunk id 7, index 0), one for `(-1, -1, -1)` (chunk id 0, index
4095) and a material diff for `(1, 0, 0)`; the later value `9` is read at
`(0, 0, 0)`. -/
theorem ReceiveData_diff_queues_idempotent_witness :
    Example.Client.TcpClient = true ∧
    Example.Client.Data = some Example.Data ∧
    Example.Data.LoadFromDiffQueuesAndGetModifiedPositions
        [⟨7, 0, 5⟩, ⟨7, 0, 9⟩, ⟨0, 4095, 3⟩] [⟨7, 1, ⟨1, 0, 0⟩⟩] =
      some (List.foldl FVoxelData.LoadMaterialDiff
              (List.foldl FVoxelData.LoadValueDiff Example.Data
                [⟨7, 0, 5⟩, ⟨7, 0, 9⟩, ⟨0, 4095, 3⟩])
              [⟨7, 1, ⟨1, 0, 0⟩⟩],
            [⟨0, 0, 0⟩, ⟨0, 0, 0⟩, ⟨-1, -1, -1⟩, ⟨1, 0, 0⟩]) ∧
    ((Example.Client.ReceiveData FVoxelData.Ops
        (.DiffQueues [⟨7, 0, 5⟩, ⟨7, 0, 9⟩, ⟨0, 4095, 3⟩] [⟨7, 1, ⟨1, 0, 0⟩⟩])).World.ReceiveData
        FVoxelData.Ops
        (.DiffQueues [⟨7, 0, 5⟩, ⟨7, 0, 9⟩, ⟨0, 4095, 3⟩] [⟨7, 1, ⟨1, 0, 0⟩⟩])).World.Data =
      (Example.Client.ReceiveData FVoxelData.Ops
        (.DiffQueues [⟨7, 0, 5⟩, ⟨7, 0, 9⟩, ⟨0, 4095, 3⟩] [⟨7, 1, ⟨1, 0, 0⟩⟩])).World.Data ∧
    ((Example.Client.ReceiveData FVoxelData.Ops
        (.DiffQueues [⟨7, 0, 5⟩, ⟨7, 0, 9⟩, ⟨0, 4095, 3⟩] [⟨7, 1, ⟨1, 0, 0⟩⟩])).World.GetValue
        FVoxelData.Ops ⟨0, 0, 0⟩).Return = .ok 9 ∧
    ((Example.Client.ReceiveData FVoxelData.Ops
        (.DiffQueues [⟨7, 0, 5⟩, ⟨7, 0, 9⟩, ⟨0, 4095, 3⟩] [⟨7, 1, ⟨1, 0, 0⟩⟩])).World.GetValue
        FVoxelData.Ops ⟨-1, -1, -1⟩).Return = .ok 3 :=
  have hLoad : Example.Data.LoadFromDiffQueuesAndGetModifiedPositions
        [⟨7, 0, 5⟩, ⟨7, 0, 9⟩, ⟨0, 4095, 3⟩] [⟨7, 1, ⟨1, 0, 0⟩⟩] =
      some (List.foldl FVoxelData.LoadMaterialDiff
              (List.foldl FVoxelData.LoadValueDiff Example.Data
                [⟨7, 0, 5⟩, ⟨7, 0, 9⟩, ⟨0, 4095, 3⟩])
              [⟨7, 1, ⟨1, 0, 0⟩⟩],
            [⟨0, 0, 0⟩, ⟨0, 0, 0⟩, ⟨-1, -1, -1⟩, ⟨1, 0, 0⟩]) := by rfl
  have h := ReceiveData_diff_queues_idempotent Example.Client Example.Data _
    [⟨7, 0, 5⟩, ⟨7, 0, 9⟩, ⟨0, 4095, 3⟩] [⟨7, 1, ⟨1, 0, 0⟩⟩] _ rfl rfl hLoad
  ⟨rfl, rfl, hLoad, by rw [h.1, h.2.1], by rfl, by rfl⟩

/-- C17, witness: the small world after a write at `(1, 2, 3)` is saved and the
save is loaded into the unmodified small world. -/
theorem GetSave_LoadFromSave_round_trip_witness :
    (Example.World.SetValue FVoxelData.Ops ⟨1, 2, 3⟩ 5).World.Data =
      some (Example.Data.SetValueAndMaterial ⟨1, 2, 3⟩ 5 default true false) ∧
    Example.World.Data = some Example.Data ∧
    ∃ (Save : FVoxelWorldSave) (D1 : FVoxelData),
      ((Example.World.SetValue FVoxelData.Ops ⟨1, 2, 3⟩ 5).World.GetSave FVoxelData.Ops).Return =
        .ok Save ∧
      (Example.World.LoadFromSave FVoxelData.Ops Save true).World.Data = some D1 ∧
      D1.Read ⟨1, 2, 3⟩ =
        (Example.Data.SetValueAndMaterial ⟨1, 2, 3⟩ 5 default true false).Read ⟨1, 2, 3⟩ :=
  have hData := (FVoxelData.SetValue_run Example.World Example.Data ⟨1, 2, 3⟩ 5 rfl rfl).2
  have h := GetSave_LoadFromSave_round_trip
    (Example.World.SetValue FVoxelData.Ops ⟨1, 2, 3⟩ 5).World Example.World
    (Example.Data.SetValueAndMaterial ⟨1, 2, 3⟩ 5 default true false) true hData
    (by decide) (by decide) rfl rfl
  ⟨hData, rfl, h.elim fun Save h1 => h1.elim fun D1 h2 => h2.elim fun _ h3 =>
    ⟨Save, D1, h3.1, h3.2.2.1, h3.2.2.2.1 ⟨1, 2, 3⟩ (by rfl)⟩⟩

/-- C21, witness: the normal at `(0, 0, 0)` of the small world, whose density is
`Z + 1/2`: the gradient is `(0, 0, 2)`. -/
theorem GetNormal_single_transaction_witness :
    (Example.World.GetNormal FVoxelData.Ops ⟨0, 0, 0⟩).Return = .ok ⟨0, 0, 2⟩ ∧
    NewCalls Example.World (Example.World.GetNormal FVoxelData.Ops ⟨0, 0, 0⟩) =
      [.BeginGet ⟨⟨0 - 1, 0 - 1, 0 - 1⟩, ⟨0 + 2, 0 + 2, 0 + 2⟩⟩
          (some (Example.Data.IdsOfBox ⟨⟨0 - 1, 0 - 1, 0 - 1⟩, ⟨0 + 2, 0 + 2, 0 + 2⟩⟩)),
        .GetGradient ⟨0, 0, 0⟩,
        .EndGet (Example.Data.IdsOfBox ⟨⟨0 - 1, 0 - 1, 0 - 1⟩, ⟨0 + 2, 0 + 2, 0 + 2⟩⟩)] :=
  have h := GetNormal_single_transaction FVoxelData.Ops Example.World Example.Data
    { Example.Data with
      Transactions :=
        [⟨Example.Data.IdsOfBox ⟨⟨0 - 1, 0 - 1, 0 - 1⟩, ⟨0 + 2, 0 + 2, 0 + 2⟩⟩, false,
          ⟨⟨0 - 1, 0 - 1, 0 - 1⟩, ⟨0 + 2, 0 + 2, 0 + 2⟩⟩⟩] }
    Example.Data ⟨0, 0, 0⟩
    (Example.Data.IdsOfBox ⟨⟨0 - 1, 0 - 1, 0 - 1⟩, ⟨0 + 2, 0 + 2, 0 + 2⟩⟩) ⟨0, 0, 2⟩
    rfl (by rfl) (by rfl) (by rfl)
  ⟨h.1, h.2.2.1⟩

/-- C22, witness: `SetLOD(5)` on the created small world and on a freshly
constructed actor. -/
theorem SetLOD_SetSeed_frozen_witness :
    (5 : Nat) < 256 ∧
    Example.World.SetLOD 5 = ⟨.ok (), Example.World.LogError "SetLOD: World is created"⟩ ∧
    Example.World.SetSeed 7 = ⟨.ok (), Example.World.LogError "Can't set seed when created"⟩ ∧
    (Example.Fresh.SetLOD 5).World.LOD = 5 ∧
    (Example.Fresh.SetSeed 7).World.Seed = 7 :=
  have h1 := (SetLOD_SetSeed_frozen Example.World 5 7 (by decide)).2.1 rfl
  have h2 := (SetLOD_SetSeed_frozen Example.Fresh 5 7 (by decide)).1 rfl
  ⟨by decide, h1.1, h1.2, by rw [h2.1]; rfl, by rw [h2.2]⟩

/-- C25, evaluation at the failing input. On a freshly constructed actor
`BeginPlay` creates the world (`bIsCreated`, `Data` and `Render` valid). `EndPlay`
then resets `Data` and `Render` and leaves `bIsCreated` true. After that,
`DestroyWorld` passes its `IsCreated()` test and fails `check(Render.IsValid())`
in `DestroyWorldInternal`, and `SetWorldGenerator`, which tests `IsCreated()` only,
calls through the null `Data`. -/
theorem EndPlay_leaves_bIsCreated :
    (Example.Fresh.BeginPlay Example.Factory).Return = .ok () ∧
    (Example.Fresh.BeginPlay Example.Factory).World.bIsCreated = true ∧
    (Example.Fresh.BeginPlay Example.Factory).World.Data.isSome = true ∧
    (Example.Fresh.BeginPlay Example.Factory).World.Render.isSome = true ∧
    (Example.Fresh.BeginPlay Example.Factory).World.EndPlay.Return = .ok () ∧
    (Example.Fresh.BeginPlay Example.Factory).World.EndPlay.World.bIsCreated = true ∧
    (Example.Fresh.BeginPlay Example.Factory).World.EndPlay.World.Data.isSome = false ∧
    (Example.Fresh.BeginPlay Example.Factory).World.EndPlay.World.Render.isSome = false ∧
    (Example.Fresh.BeginPlay Example.Factory).World.EndPlay.World.DestroyWorld.Return =
      .error .CheckFailed ∧
    ((Example.Fresh.BeginPlay Example.Factory).World.EndPlay.World.SetWorldGenerator
      FVoxelData.Ops (some Example.NewGenerator)).Return = .error .NullDereference := by
  simp [AVoxelWorld.BeginPlay, AVoxelWorld.CreateWorldInternal, AVoxelWorld.Construct,
    AVoxelWorld.EndPlay, AVoxelWorld.DestroyWorld, AVoxelWorld.DestroyWorldInternal,
    AVoxelWorld.SetWorldGenerator, Example.Factory, Example.Fresh]

/-- C27, witness: the samples `-1/2` and `1/2`, on the small world. -/
theorem HaveSameSign_guards_division_witness :
    FVoxelUtilities.HaveSameSign (-1 / 2) (1 / 2) = false ∧
    (-1 / 2 : ℚ) - 1 / 2 ≠ 0 ∧
    (Example.World.GetIntersection FVoxelData.Ops FVoxelUtilities.HaveSameSign
      ⟨0, 0, -2⟩ ⟨0, 0, 2⟩).Return ≠ .error .CheckFailed :=
  have h := HaveSameSign_guards_division FVoxelData.Ops Example.World ⟨0, 0, -2⟩ ⟨0, 0, 2⟩
    (-1 / 2) (1 / 2) (by decide)
  ⟨by decide, h.1, h.2⟩

/-- C28, witness: in the small world (voxel size `100`, world `[-16, 16)³`) the
global position `(50, 50, 1650)` has the neighbouring position `(0, 0, 16)`, which
is not in the world, and `IsInside` returns `true`; at `(50, 50, 50)` all eight
neighbouring values are positive and `IsInside` returns `false`. -/
theorem IsInside_out_of_world_is_solid_witness :
    Example.World.GetNeighboringPositions ⟨50, 50, 1650⟩ =
      [⟨0, 0, 16⟩, ⟨1, 0, 16⟩, ⟨0, 1, 16⟩, ⟨1, 1, 16⟩,
       ⟨0, 0, 17⟩, ⟨1, 0, 17⟩, ⟨0, 1, 17⟩, ⟨1, 1, 17⟩] ∧
    FVoxelData.Ops.IsInWorld Example.Data ⟨0, 0, 16⟩ = false ∧
    (Example.World.IsInside FVoxelData.Ops ⟨50, 50, 1650⟩).Return = .ok true ∧
    (Example.World.IsInside FVoxelData.Ops ⟨50, 50, 50⟩).Return = .ok false :=
  have h := IsInside_out_of_world_is_solid FVoxelData.Ops Example.World Example.Data
    ⟨50, 50, 1650⟩ (fun Q => (Example.Data.Read Q).1) rfl
    (fun Q _ hIn => FVoxelData.Ops_serves Example.Data Q hIn)
  ⟨by decide, by decide, h.2.2 ⟨⟨0, 0, 16⟩, by decide, by decide⟩, by rfl⟩

/-- C30, witness: the position `(1, 2, 3)` in the small world (identity transform,
voxel size `100`). -/
theorem GlobalToLocal_LocalToGlobal_witness :
    Example.World.VoxelSize ≠ 0 ∧
    Example.World.LocalToGlobal ⟨1, 2, 3⟩ = ⟨100, 200, 300⟩ ∧
    Example.World.GlobalToLocal (Example.World.LocalToGlobal ⟨1, 2, 3⟩) = ⟨1, 2, 3⟩ :=
  ⟨by decide, by decide,
    GlobalToLocal_LocalToGlobal Example.World ⟨1, 2, 3⟩ (fun _ => rfl) (by decide)⟩

/-- C24, witness: the centre `(8, 8, 8)` of the sphere of radius `10` lies in its
bounding box. -/
theorem SphereBox_contains_sphere_witness :
    AVoxelWorld.SwapWorldGeneratorSphere.IsInside ⟨8, 8, 8⟩ 10 ⟨8, 8, 8⟩ = true ∧
    (AVoxelWorld.SwapWorldGeneratorSphere.SphereBox ⟨8, 8, 8⟩ 10).IsInside ⟨8, 8, 8⟩ = true :=
  ⟨by decide,
    (SphereBox_contains_sphere ⟨8, 8, 8⟩ 10 ⟨8, 8, 8⟩
      ((SphereIsInside_iff_sqrt ⟨8, 8, 8⟩ 10 ⟨8, 8, 8⟩).1 (by decide))).1⟩

/-- C23, evaluation at the failing input. The constructor leaves
`WorldSizeInVoxel` unassigned, and `SetLOD` does not assign it. With `CHUNK_SIZE`
taken as `16`: after `PostEditChangeProperty` on the constructed actor (`LOD = 9`)
`WorldSizeInVoxel` is `16 * 2^9`; after `SetLOD(5)` on that actor `LOD` is `5` and
`WorldSizeInVoxel` is still `16 * 2^9`, which is not `16 * 2^5`. -/
theorem SetLOD_leaves_WorldSizeInVoxel :
    Example.Fresh.WorldSizeInVoxel = none ∧
    (Example.Fresh.SetLOD 5).World.LOD = 5 ∧
    (Example.Fresh.SetLOD 5).World.WorldSizeInVoxel = none ∧
    (Example.Fresh.PostEditChangeProperty 16).World.WorldSizeInVoxel = some (16 * 2 ^ 9) ∧
    ((Example.Fresh.PostEditChangeProperty 16).World.SetLOD 5).World.LOD = 5 ∧
    ((Example.Fresh.PostEditChangeProperty 16).World.SetLOD 5).World.WorldSizeInVoxel =
      some (16 * 2 ^ 9) ∧
    (16 : Int) * 2 ^ 9 ≠ 16 * 2 ^ 5 := by
  refine ⟨rfl, ?_, ?_, ?_, ?_, ?_, by norm_num⟩ <;>
    simp [AVoxelWorld.SetLOD, AVoxelWorld.PostEditChangeProperty, AVoxelWorld.Construct,
      Example.Fresh]

end Evaluations

end Voxel
